import Mathlib

/-!
Equalizer / Collage object store: a shallow embedding.

Embedding of `src/libs/co/objectStore.cpp` (class `co::ObjectStore`).

Conventions of the embedding

* The member functions run on several threads that hand work to each other
  through the local node.  A packet sent to the local node and followed by
  `waitRequest` is embedded as a call of the handler the constructor registers
  for that command: the caller resumes after `serveRequest`.  A packet sent
  without a wait only leaves a `send` event in the trace.
* Waiting for a remote peer is embedded by an explicit answer of the peer
  (`LocalNode.findMasterReply`) or of the receiver thread (`receive` arguments).
* `LBASSERT`, `LBASSERTINFO`, `LB_TS_THREAD` and `LBLOG` are compiled out, and
  `LBCHECK( x )` evaluates `x` (release build).
* Calls into collaborators whose effect the store does not see (`notifyAttach`,
  `send`, `dispatchCommand`, ...) are recorded, in order, in `ObjectStore.trace`.
-/

namespace co

/-! ## Identifiers and constants -/

/-- Modelled from the spec: `UUID` is declared outside the sources at hand; the
spec describes 128-bit unique values on which no arithmetic is done. -/
abbrev UUID := Nat

/-- Modelled from the spec: the zero value of the identifier type means none. -/
def UUID.ZERO : UUID := 0

/-- Modelled from the spec: a nonzero identifier value is a generated one. -/
def UUID.isGenerated (id : UUID) : Bool := id != UUID.ZERO

/-- A node identifier is a `UUID` (`typedef UUID NodeID`). -/
abbrev NodeID := UUID

/-- Modelled from the spec: the header defining the instance identifiers is not
among the sources; instance IDs are 32-bit, the values `0 … MAX` address one instance
and the sentinels lie above `MAX`.  Biggest instance ID. -/
def EQ_INSTANCE_MAX : Nat := 0xfffffff0

/-- Modelled from the spec: the sentinel `NONE` (all instances of the object). -/
def EQ_INSTANCE_NONE : Nat := 0xfffffffd

/-- Modelled from the spec: the sentinel `INVALID` (unbound instance). -/
def EQ_INSTANCE_INVALID : Nat := 0xfffffffe

/-- Modelled from the spec: the sentinel 32-bit request ID of a failed request. -/
def LB_UNDEFINED_UINT32 : Nat := 0xffffffff

/-- Modelled from the spec: the version constant `NONE`. -/
def VERSION_NONE : Nat := 0

/-! ## Nodes, objects, packets -/

/-- Modelled from the spec: what the store observes of a peer `Node` through a
`NodePtr`; a null or invalid `NodePtr` is `none : Option Node`. -/
structure Node where
  nodeID : NodeID
  isConnected : Bool
  isClosed : Bool
deriving DecidableEq, Repr

/-- Modelled from the spec: the change types of an object. -/
inductive ChangeType where
  | NONE
  | STATIC
  | INSTANCE
  | DELTA
  | UNBUFFERED
  | FULL
deriving DecidableEq, Repr

/-- Modelled from the spec: what the store observes of an object's change
manager: its type, its role and, for a slave, the master it is bound to. -/
structure ObjectCM where
  type : ChangeType
  isMaster : Bool
  masterInstanceID : Nat
  masterNode : Option Node
deriving DecidableEq, Repr

/-- Modelled from the spec: the part of `co::Object` the store reads and
writes (the class is declared outside the sources at hand). -/
structure Object where
  id : UUID
  instanceID : Nat
  cm : ObjectCM
  changeType : ChangeType
  maxVersions : Nat
deriving DecidableEq, Repr

/-- Modelled from the spec: an object is attached when its instance ID is bound. -/
def Object.isAttached (o : Object) : Bool := o.instanceID != EQ_INSTANCE_INVALID

/-- Modelled from the spec: the role of the object's change manager. -/
def Object.isMaster (o : Object) : Bool := o.cm.isMaster

/-- Modelled from the spec: `Object::attach( id, instanceID )` binds both. -/
def Object.attach (o : Object) (id : UUID) (instanceID : Nat) : Object :=
  { o with id := id, instanceID := instanceID }

/-- Modelled from the spec: `Object::detach()` returns the object to detached. -/
def Object.detach (o : Object) : Object :=
  { o with instanceID := EQ_INSTANCE_INVALID }

/-- Modelled from the spec: `Object::setupChangeManager( type, master,
localNode, masterInstanceID )` installs a new change manager, not yet bound to
a master node. -/
def Object.setupChangeManager (o : Object) (type : ChangeType) (master : Bool)
    (masterInstanceID : Nat) : Object :=
  { o with cm := { type := type, isMaster := master,
                   masterInstanceID := masterInstanceID, masterNode := none } }

/-- An `Object*`, the address of an application-owned object. -/
abbrev ObjPtr := Nat

/-- Fields of `NodeFindMasterNodeIDPacket`. -/
structure NodeFindMasterNodeIDPacket where
  requestID : Nat
  identifier : UUID
deriving DecidableEq, Repr

/-- Fields of `NodeFindMasterNodeIDReplyPacket`. -/
structure NodeFindMasterNodeIDReplyPacket where
  requestID : Nat
  masterNodeID : NodeID
deriving DecidableEq, Repr

/-- Modelled from the spec: the constructor of the reply from its request
copies the request ID and starts with no master known. -/
def NodeFindMasterNodeIDReplyPacket.ofRequest (request : NodeFindMasterNodeIDPacket) :
    NodeFindMasterNodeIDReplyPacket :=
  { requestID := request.requestID, masterNodeID := UUID.ZERO }

/-- Fields of `NodeAttachObjectPacket`. -/
structure NodeAttachObjectPacket where
  requestID : Nat
  objectID : UUID
  objectInstanceID : Nat
deriving DecidableEq, Repr

/-- Fields of `NodeDetachObjectPacket`. -/
structure NodeDetachObjectPacket where
  requestID : Nat
  objectID : UUID
  objectInstanceID : Nat
deriving DecidableEq, Repr

/-- Fields of `NodeRegisterObjectPacket`. -/
structure NodeRegisterObjectPacket where
  object : ObjPtr
deriving DecidableEq, Repr

/-- Fields of `NodeDeregisterObjectPacket`. -/
structure NodeDeregisterObjectPacket where
  requestID : Nat
deriving DecidableEq, Repr

/-- Fields of `NodeMapObjectPacket`. -/
structure NodeMapObjectPacket where
  requestID : Nat
  objectID : UUID
  requestedVersion : Nat
  minCachedVersion : Nat
  maxCachedVersion : Nat
  maxVersion : Nat
  instanceID : Nat
  masterInstanceID : Nat
  useCache : Bool
deriving DecidableEq, Repr

/-- Fields of `NodeUnmapObjectPacket`. -/
structure NodeUnmapObjectPacket where
  objectID : UUID
deriving DecidableEq, Repr

/-- Fields of `NodeUnsubscribeObjectPacket`. -/
structure NodeUnsubscribeObjectPacket where
  requestID : Nat
  objectID : UUID
  masterInstanceID : Nat
  slaveInstanceID : Nat
deriving DecidableEq, Repr

/-- Modelled from the spec: the packet datatypes; the enum is declared outside
the sources at hand. -/
inductive PacketType where
  | NODE
  | SESSION
  | OBJECT
  | CUSTOM
deriving DecidableEq, Repr

/-- Modelled from the spec: the 32-bit command of a packet; the enums are
declared outside the sources at hand.  Named are the four node commands of instance
data and the object command `INSTANCE`, every other value is
`other`. -/
inductive PacketCommand where
  | CMD_NODE_OBJECT_INSTANCE
  | CMD_NODE_OBJECT_INSTANCE_MAP
  | CMD_NODE_OBJECT_INSTANCE_COMMIT
  | CMD_NODE_OBJECT_INSTANCE_PUSH
  | CMD_OBJECT_INSTANCE
  | other (n : Nat)
deriving DecidableEq, Repr

/-- Fields of `ObjectPacket` read by the dispatcher. -/
structure ObjectPacket where
  objectID : UUID
  instanceID : Nat
  command : PacketCommand
deriving DecidableEq, Repr

/-- Fields of `ObjectInstancePacket`, an `ObjectPacket` with the header of
the instance data it precedes. -/
structure ObjectInstancePacket where
  type : PacketType
  command : PacketCommand
  objectID : UUID
  instanceID : Nat
  nodeID : NodeID
  version : Nat
  masterInstanceID : Nat
deriving DecidableEq, Repr

/-- The packet seen as the `ObjectPacket` it derives from. -/
def ObjectInstancePacket.toObjectPacket (p : ObjectInstancePacket) : ObjectPacket :=
  { objectID := p.objectID, instanceID := p.instanceID, command := p.command }

/-- Fields of `NodeMapObjectReplyPacket`. -/
structure NodeMapObjectReplyPacket where
  nodeID : NodeID
  objectID : UUID
  version : Nat
  requestID : Nat
  result : Bool
  releaseCache : Bool
  useCache : Bool
deriving DecidableEq, Repr

/-- Fields of `NodeRemoveNodePacket`; the departed node is held by value. -/
structure NodeRemoveNodePacket where
  requestID : Nat
  node : Node
deriving DecidableEq, Repr

/-- The packets the embedded functions send. -/
inductive Packet where
  | findMasterNodeID (p : NodeFindMasterNodeIDPacket)
  | findMasterNodeIDReply (p : NodeFindMasterNodeIDReplyPacket)
  | attachObject (p : NodeAttachObjectPacket)
  | detachObject (p : NodeDetachObjectPacket)
  | registerObject (p : NodeRegisterObjectPacket)
  | deregisterObject (p : NodeDeregisterObjectPacket)
  | mapObject (p : NodeMapObjectPacket)
  | unsubscribeObject (p : NodeUnsubscribeObjectPacket)
  | mapObjectReply (p : NodeMapObjectReplyPacket)
  | removeNode (p : NodeRemoveNodePacket)
deriving DecidableEq, Repr

/-- A received packet together with the node it came from (`co::Command`). -/
structure Command (P : Type) where
  node : Node
  packet : P
deriving DecidableEq, Repr

/-- The receiver of a `send`: the local node or a peer. -/
inductive Dest where
  | localNode
  | peer (n : Node)
deriving DecidableEq, Repr

/-- Calls into collaborators, recorded in call order. -/
inductive Event where
  | notifyAttach (object : ObjPtr)
  | notifyAttached (object : ObjPtr)
  | notifyDetach (object : ObjPtr)
  | notifyDetached (object : ObjPtr)
  | registerRequest (requestID : Nat) (data : Option ObjPtr)
  | waitRequest (requestID : Nat)
  | serveRequest (requestID : Nat)
  | send (dest : Dest) (packet : Packet)
  | connect (nodeID : NodeID)
  | flushCommands
  | applyMapData (object : ObjPtr) (version : Nat)
  | dispatchCommand (object : ObjPtr) (command : Command ObjectPacket) (clone : Bool)
  | cloneCommand (command : Command ObjectPacket)
  | instanceCacheAdd (objectID : UUID) (version : Nat) (masterInstanceID : Nat)
      (command : Command ObjectInstancePacket)
  | addSlave (object : ObjPtr) (command : Command NodeMapObjectPacket)
  | removeSlaves (object : ObjPtr) (node : Node)
  | removeSlave (object : ObjPtr) (node : Node) (instanceID : Nat)
  | sendInstanceData (object : ObjPtr) (nodes : List Node)
  | yield
deriving DecidableEq, Repr

/-! ## The store and its collaborators -/

/-- Modelled from the spec: one entry of the instance cache, the master instance
ID it knows and the versions of the cached streams, oldest first. -/
structure InstanceCacheData where
  masterInstanceID : Nat
  versions : List Nat
deriving DecidableEq, Repr

/-- Modelled from the spec: the instance cache, a map from object ID to its
cached versions. -/
structure InstanceCache where
  items : List (UUID × InstanceCacheData)
deriving DecidableEq, Repr

/-- Modelled from the spec: `lookup( objectID )`, `none` being the `NONE` sentinel. -/
def InstanceCache.find (c : InstanceCache) (id : UUID) : Option InstanceCacheData :=
  c.items.lookup id

/-- Modelled from the spec: `erase( objectID )` drops the cached versions of the id. -/
def InstanceCache.erase (c : InstanceCache) (id : UUID) : InstanceCache :=
  { items := c.items.filter (fun e => e.1 != id) }

/-- One entry of the send-on-register queue (`SendQueueItem`). -/
structure SendQueueItem where
  age : Int
  object : ObjPtr
deriving DecidableEq, Repr

/-- Modelled from the spec: what the store asks of its `LocalNode` and of
`Global`: the node ID, the peers `getNodes` returns, the answer of each peer
to `FIND_MASTER_NODE_ID`, the outcome of `connect( nodeID )`, the
`NODE_SEND_QUEUE_SIZE` and `NODE_SEND_QUEUE_AGE` attributes, and the time
`getTime64` returns. -/
structure LocalNode where
  nodeID : NodeID
  nodes : List Node
  findMasterReply : Node → UUID → NodeID
  connect : NodeID → Option Node
  sendQueueSize : Int
  sendQueueAge : Int
  time64 : Int

/-- The state the member functions of `ObjectStore` read and write: the
members `_objects`, `_sendQueue`, `_instanceCache`, `_instanceIDs` and
`_sendOnRegister`, the objects behind the `Object*` handles (`heap`), the
pending requests of the local node's request handler, the trace, and the
member `_pushData`, the instance packets buffered per object ID. -/
structure ObjectStore where
  localNode : LocalNode
  heap : ObjPtr → Object
  objects : List (UUID × List ObjPtr)
  sendQueue : List SendQueueItem
  instanceCache : Option InstanceCache
  instanceIDs : Int
  sendOnRegister : Int
  requests : List (Nat × Option ObjPtr)
  nextRequestID : Nat
  trace : List Event
  pushData : List (UUID × Command ObjectInstancePacket)

/-- Append one event to the trace. -/
def ObjectStore.emit (s : ObjectStore) (e : Event) : ObjectStore :=
  { s with trace := s.trace ++ [e] }

/-- Write through an `Object*`. -/
def ObjectStore.setObject (s : ObjectStore) (p : ObjPtr) (o : Object) : ObjectStore :=
  { s with heap := fun q => if q = p then o else s.heap q }

/-- Modelled from the spec: `registerRequest( data )` hands out a fresh
32-bit request ID and keeps the user data under it. -/
def ObjectStore.registerRequest (s : ObjectStore) (data : Option ObjPtr) :
    Nat × ObjectStore :=
  let requestID := s.nextRequestID
  (requestID,
   { s with requests := (requestID, data) :: s.requests.filter (fun r => r.1 != requestID),
            nextRequestID := (requestID + 1) % 4294967296,
            trace := s.trace ++ [Event.registerRequest requestID data] })

/-- Modelled from the spec: `getRequestData( requestID )`, null when the
request is unknown. -/
def ObjectStore.getRequestData (s : ObjectStore) (requestID : Nat) : Option ObjPtr :=
  match s.requests.lookup requestID with
  | some data => data
  | none => none

/-- Modelled from the spec: `serveRequest( requestID )` releases the waiter. -/
def ObjectStore.serveRequest (s : ObjectStore) (requestID : Nat) : ObjectStore :=
  s.emit (Event.serveRequest requestID)

/-- Modelled from the spec: `waitRequest( requestID )` returns once the
request is served and unregisters it. -/
def ObjectStore.waitRequest (s : ObjectStore) (requestID : Nat) : ObjectStore :=
  { s with requests := s.requests.filter (fun r => r.1 != requestID),
           trace := s.trace ++ [Event.waitRequest requestID] }

/-! ## `_objects`: the attach table -/

/-- The table after `_objects.data[ id ].push_back( object )`. -/
def pushBack : List (UUID × List ObjPtr) → UUID → ObjPtr → List (UUID × List ObjPtr)
  | [], id, object => [(id, [object])]
  | (k, l) :: t, id, object =>
      if k = id then (k, l ++ [object]) :: t else (k, l) :: pushBack t id object

/-- The table after the list stored under `id` is replaced by `l`. -/
def setList : List (UUID × List ObjPtr) → UUID → List ObjPtr → List (UUID × List ObjPtr)
  | [], _, _ => []
  | (k, l0) :: t, id, l =>
      if k = id then (k, l) :: t else (k, l0) :: setList t id l

/-- The table after `_objects->erase( id )`. -/
def eraseKey (h : List (UUID × List ObjPtr)) (id : UUID) : List (UUID × List ObjPtr) :=
  h.filter (fun e => e.1 != id)

/-! ## Instance identifiers -/

/-- The value of the 32-bit atomic counter after an increment (two's
complement wrap-around). -/
def wrapInt32 (x : Int) : Int := (x + 2147483648) % 4294967296 - 2147483648

/-- The `do … while( result > EQ_INSTANCE_MAX )` loop of `_genNextID`: one
iteration per unit of fuel, `none` when the fuel is used up. -/
def _genNextID.loop : Nat → Int → Option (Nat × Int)
  | 0, _ => none
  | fuel + 1, val =>
      let id := wrapInt32 (val + 1)
      let result := ((id + 2147483647) % 4294967296).toNat
      if result > EQ_INSTANCE_MAX then _genNextID.loop fuel id else some (result, id)

/-- `_genNextID( val )`: the generated instance ID and the new counter.  The
loop gets more fuel than the counter has values; the fallback is never taken. -/
def _genNextID (val : Int) : Nat × Int :=
  match _genNextID.loop 4294967297 val with
  | some r => r
  | none => (EQ_INSTANCE_INVALID, val)

/-! ## Identifier master node mapping -/

/-- The loop of `_findMasterNodeID` over the peers: ask one peer, wait for its
answer, return it when it is not `UUID::ZERO`. -/
def _findMasterNodeID.loop (identifier : UUID) :
    List Node → ObjectStore → NodeID × ObjectStore
  | [], s => (UUID.ZERO, s)
  | node :: rest, s =>
      let r := s.registerRequest none
      let packet : NodeFindMasterNodeIDPacket :=
        { requestID := r.1, identifier := identifier }
      let s1 := r.2.emit (Event.send (Dest.peer node) (Packet.findMasterNodeID packet))
      let masterNodeID := s.localNode.findMasterReply node identifier
      let s2 := s1.waitRequest packet.requestID
      if masterNodeID != UUID.ZERO then (masterNodeID, s2)
      else _findMasterNodeID.loop identifier rest s2

/-- `ObjectStore::_findMasterNodeID`. -/
def _findMasterNodeID (s : ObjectStore) (identifier : UUID) : NodeID × ObjectStore :=
  _findMasterNodeID.loop identifier s.localNode.nodes s

/-! ## Object mapping -/

/-- `ObjectStore::_attachObject`. -/
def _attachObject (s : ObjectStore) (object : ObjPtr) (id : UUID) (inInstanceID : Nat) :
    ObjectStore :=
  let gen := _genNextID s.instanceIDs
  let instanceID := if inInstanceID == EQ_INSTANCE_INVALID then gen.1 else inInstanceID
  let s1 : ObjectStore :=
    if inInstanceID == EQ_INSTANCE_INVALID then { s with instanceIDs := gen.2 } else s
  let s2 := s1.setObject object ((s1.heap object).attach id instanceID)
  let s3 : ObjectStore := { s2 with objects := pushBack s2.objects id object }
  s3.emit Event.flushCommands

/-- `ObjectStore::_cmdAttachObject` (receiver thread).  A request without data
would make the handler attach through a null pointer; the embedding then only
serves the request. -/
def _cmdAttachObject (s : ObjectStore) (packet : NodeAttachObjectPacket) :
    Bool × ObjectStore :=
  let s1 := match s.getRequestData packet.requestID with
    | some object => _attachObject s object packet.objectID packet.objectInstanceID
    | none => s
  (true, s1.serveRequest packet.requestID)

/-- `ObjectStore::attachObject`: post `ATTACH_OBJECT` to the local node and wait. -/
def attachObject (s : ObjectStore) (object : ObjPtr) (id : UUID) (instanceID : Nat) :
    ObjectStore :=
  let r := s.registerRequest (some object)
  let packet : NodeAttachObjectPacket :=
    { requestID := r.1, objectID := id, objectInstanceID := instanceID }
  let s1 := r.2.emit (Event.send Dest.localNode (Packet.attachObject packet))
  let s2 := (_cmdAttachObject s1 packet).2
  s2.waitRequest packet.requestID

/-- `ObjectStore::_detachObject`.  `find` + `erase( i )` removes the first
occurrence of the handle; the key is erased when its list becomes empty. -/
def _detachObject (s : ObjectStore) (object : ObjPtr) : ObjectStore :=
  if !(s.heap object).isAttached then s
  else
    let id := (s.heap object).id
    let objects := ((s.objects.lookup id).getD []).erase object
    let s1 : ObjectStore :=
      { s with objects := if objects.isEmpty then eraseKey s.objects id
                          else setList s.objects id objects }
    s1.setObject object (s1.heap object).detach

/-- The loop of `_cmdDetachObject`: detach the first instance with the
packet's instance ID. -/
def _cmdDetachObject.loop (objectInstanceID : Nat) :
    List ObjPtr → ObjectStore → ObjectStore
  | [], s => s
  | object :: rest, s =>
      if (s.heap object).instanceID == objectInstanceID then _detachObject s object
      else _cmdDetachObject.loop objectInstanceID rest s

/-- `ObjectStore::_cmdDetachObject` (receiver thread). -/
def _cmdDetachObject (s : ObjectStore) (packet : NodeDetachObjectPacket) :
    Bool × ObjectStore :=
  let s1 := match s.objects.lookup packet.objectID with
    | some objects => _cmdDetachObject.loop packet.objectInstanceID objects s
    | none => s
  (true, s1.serveRequest packet.requestID)

/-- `ObjectStore::detachObject`: post `DETACH_OBJECT` to the local node and wait. -/
def detachObject (s : ObjectStore) (object : ObjPtr) : ObjectStore :=
  let r := s.registerRequest none
  let packet : NodeDetachObjectPacket :=
    { requestID := r.1, objectID := (s.heap object).id,
      objectInstanceID := (s.heap object).instanceID }
  let s1 := r.2.emit (Event.send Dest.localNode (Packet.detachObject packet))
  let s2 := (_cmdDetachObject s1 packet).2
  s2.waitRequest packet.requestID

/-- `ObjectStore::_connectMaster`. -/
def _connectMaster (s : ObjectStore) (id : UUID) : Option Node × ObjectStore :=
  let r := _findMasterNodeID s id
  if r.1 == UUID.ZERO then (none, r.2)
  else
    let s1 := r.2.emit (Event.connect r.1)
    match s1.localNode.connect r.1 with
    | some master => if !master.isClosed then (some master, s1) else (none, s1)
    | none => (none, s1)

/-- The cache hint of `mapObjectNB` (lines 404-419): with a cache holding the
id, the packet announces the cached window.  `front()` and `back()` of an
empty deque are undefined; the embedding then keeps the field. -/
def mapObjectNB.cacheHint (cache : Option InstanceCache) (id : UUID)
    (packet : NodeMapObjectPacket) : NodeMapObjectPacket :=
  match cache with
  | none => packet
  | some c =>
      match c.find id with
      | none => packet
      | some cached =>
          { packet with
              useCache := true
              masterInstanceID := cached.masterInstanceID
              minCachedVersion := cached.versions.headD packet.minCachedVersion
              maxCachedVersion := cached.versions.getLastD packet.maxCachedVersion }

/-- `ObjectStore::mapObjectNB( object, id, version, master )` for a master
that is not null (lines 365-423).  `packet0` is the default-constructed
`NodeMapObjectPacket`, whose constructor is outside the sources at hand. -/
def mapObjectNB.toMaster (packet0 : NodeMapObjectPacket) (s : ObjectStore)
    (object : Option ObjPtr) (id : UUID) (version : Nat) (master : Node) :
    Nat × ObjectStore :=
  match object with
  | none => (LB_UNDEFINED_UINT32, s)
  | some obj =>
      if !UUID.isGenerated id then (LB_UNDEFINED_UINT32, s)
      else
        let isAttached := (s.heap obj).isAttached
        let isMaster := (s.heap obj).isMaster
        if isAttached || isMaster then (LB_UNDEFINED_UINT32, s)
        else if !master.isConnected then (LB_UNDEFINED_UINT32, s)
        else
          let r := s.registerRequest (some obj)
          let gen := _genNextID r.2.instanceIDs
          let s1 : ObjectStore := { r.2 with instanceIDs := gen.2 }
          let packet : NodeMapObjectPacket :=
            { packet0 with
                requestID := r.1
                objectID := id
                requestedVersion := version
                maxVersion := (s1.heap obj).maxVersions
                instanceID := gen.1 }
          let packet1 := mapObjectNB.cacheHint s1.instanceCache id packet
          let s2 := s1.emit (Event.notifyAttach obj)
          let s3 := s2.emit (Event.send (Dest.peer master) (Packet.mapObject packet1))
          (packet1.requestID, s3)

/-- `ObjectStore::mapObjectNB( object, id, version )`: look the master up and
connect it (lines 345-357). -/
def mapObjectNB (packet0 : NodeMapObjectPacket) (s : ObjectStore)
    (object : Option ObjPtr) (id : UUID) (version : Nat) : Nat × ObjectStore :=
  if !UUID.isGenerated id then (LB_UNDEFINED_UINT32, s)
  else
    let r := _connectMaster s id
    match r.1 with
    | some master => mapObjectNB.toMaster packet0 r.2 object id version master
    | none => (LB_UNDEFINED_UINT32, r.2)

/-- `ObjectStore::mapObjectNB( object, id, version, master )` (lines 359-424):
a null master falls back to the overload above. -/
def mapObjectNBMaster (packet0 : NodeMapObjectPacket) (s : ObjectStore)
    (object : Option ObjPtr) (id : UUID) (version : Nat) (master : Option Node) :
    Nat × ObjectStore :=
  match master with
  | none => mapObjectNB packet0 s object id version
  | some m => mapObjectNB.toMaster packet0 s object id version m

/-- `ObjectStore::mapObjectSync`.  `receive` is what the receiver thread does
until it serves the request, together with the version it serves it with. -/
def mapObjectSync (s : ObjectStore) (requestID : Nat)
    (receive : ObjectStore → ObjectStore × Nat) : Bool × ObjectStore :=
  if requestID == LB_UNDEFINED_UINT32 then (false, s)
  else
    match s.getRequestData requestID with
    | none => (false, s)
    | some object =>
        let r := receive s
        let version := r.2
        let s1 := r.1.waitRequest requestID
        let mapped := (s1.heap object).isAttached
        let s2 := if mapped then s1.emit (Event.applyMapData object version) else s1
        (mapped, s2.emit (Event.notifyAttached object))

/-- The tail of `unmapObject` (lines 487-490): no unsubscribe sent, detach
directly. -/
def unmapObject.direct (s : ObjectStore) (object : ObjPtr) : ObjectStore :=
  let s1 := detachObject s object
  let s2 := s1.setObject object
    ((s1.heap object).setupChangeManager ChangeType.NONE false EQ_INSTANCE_INVALID)
  s2.emit (Event.notifyDetached object)

/-- `ObjectStore::unmapObject`.  `receive` is what the receiver thread does
until the master's answer has served the unsubscribe request. -/
def unmapObject (s : ObjectStore) (object : ObjPtr)
    (receive : ObjectStore → ObjectStore) : ObjectStore :=
  if !(s.heap object).isAttached then s
  else
    let id := (s.heap object).id
    let s1 := s.emit (Event.notifyDetach object)
    let masterInstanceID := (s1.heap object).cm.masterInstanceID
    if masterInstanceID != EQ_INSTANCE_INVALID then
      match (s1.heap object).cm.masterNode with
      | some master =>
          if master.isConnected then
            let r := s1.registerRequest none
            let packet : NodeUnsubscribeObjectPacket :=
              { requestID := r.1, objectID := id, masterInstanceID := masterInstanceID,
                slaveInstanceID := (r.2.heap object).instanceID }
            let s2 := r.2.emit (Event.send (Dest.peer master) (Packet.unsubscribeObject packet))
            let s3 := (receive s2).waitRequest packet.requestID
            s3.emit (Event.notifyDetached object)
          else unmapObject.direct s1 object
      | none => unmapObject.direct s1 object
    else unmapObject.direct s1 object

/-- `ObjectStore::registerObject`.  The `REGISTER_OBJECT` packet is posted to
the command thread and not waited for. -/
def registerObject (s : ObjectStore) (object : ObjPtr) : Bool × ObjectStore :=
  let id := (s.heap object).id
  let s1 := s.emit (Event.notifyAttach object)
  let s2 := s1.setObject object
    ((s1.heap object).setupChangeManager (s1.heap object).changeType true EQ_INSTANCE_INVALID)
  let s3 := attachObject s2 object id EQ_INSTANCE_INVALID
  let s4 :=
    if s3.localNode.sendQueueSize > 0 then
      s3.emit (Event.send Dest.localNode (Packet.registerObject { object := object }))
    else s3
  (true, s4.emit (Event.notifyAttached object))

/-- The loop of `_cmdDeregisterObject`: erase the first queue item of the
object and stop. -/
def _cmdDeregisterObject.loop (object : Option ObjPtr) :
    List SendQueueItem → List SendQueueItem
  | [] => []
  | i :: rest =>
      if some i.object == object then rest
      else i :: _cmdDeregisterObject.loop object rest

/-- `ObjectStore::_cmdDeregisterObject` (command thread). -/
def _cmdDeregisterObject (s : ObjectStore) (packet : NodeDeregisterObjectPacket) :
    Bool × ObjectStore :=
  let object := s.getRequestData packet.requestID
  let s1 : ObjectStore :=
    { s with sendQueue := _cmdDeregisterObject.loop object s.sendQueue }
  (true, s1.serveRequest packet.requestID)

/-- `ObjectStore::deregisterObject`. -/
def deregisterObject (s : ObjectStore) (object : ObjPtr) : ObjectStore :=
  if !(s.heap object).isAttached then s
  else
    let s1 := s.emit (Event.notifyDetach object)
    let s2 :=
      if s1.localNode.sendQueueSize > 0 then
        let r := s1.registerRequest (some object)
        let packet : NodeDeregisterObjectPacket := { requestID := r.1 }
        let a := r.2.emit (Event.send Dest.localNode (Packet.deregisterObject packet))
        let b := (_cmdDeregisterObject a packet).2
        b.waitRequest packet.requestID
      else s1
    let id := (s2.heap object).id
    let s3 := detachObject s2 object
    let s4 := s3.setObject object
      ((s3.heap object).setupChangeManager ChangeType.NONE true EQ_INSTANCE_INVALID)
    let s5 : ObjectStore :=
      match s4.instanceCache with
      | some c => { s4 with instanceCache := some (c.erase id) }
      | none => s4
    s5.emit (Event.notifyDetached object)

/-! ## Packet handling -/

/-- The loop of `dispatchObjectCommand` for an instance ID up to
`EQ_INSTANCE_MAX`: the first instance with that ID gets the command; falling
out of the loop is `LBUNREACHABLE; return false`. -/
def dispatchObjectCommand.one (command : Command ObjectPacket) (instanceID : Nat) :
    List ObjPtr → ObjectStore → Bool × ObjectStore
  | [], s => (false, s)
  | object :: rest, s =>
      if instanceID == (s.heap object).instanceID then
        (true, s.emit (Event.dispatchCommand object command false))
      else dispatchObjectCommand.one command instanceID rest s

/-- The loop of `dispatchObjectCommand` over the instances after the first
one: each gets a clone of the command. -/
def dispatchObjectCommand.clones (command : Command ObjectPacket) :
    List ObjPtr → ObjectStore → ObjectStore
  | [], s => s
  | object :: rest, s =>
      let s1 := s.emit (Event.cloneCommand command)
      dispatchObjectCommand.clones command rest
        (s1.emit (Event.dispatchCommand object command true))

/-- `ObjectStore::dispatchObjectCommand`.  An empty instance list is excluded
by the table invariant the code asserts; the embedding then dispatches
nothing. -/
def dispatchObjectCommand (s : ObjectStore) (command : Command ObjectPacket) :
    Bool × ObjectStore :=
  let id := command.packet.objectID
  let instanceID := command.packet.instanceID
  match s.objects.lookup id with
  | none => (instanceID == EQ_INSTANCE_NONE, s)
  | some objects =>
      if instanceID <= EQ_INSTANCE_MAX then
        dispatchObjectCommand.one command instanceID objects s
      else
        match objects with
        | [] => (true, s)
        | object :: rest =>
            (true, dispatchObjectCommand.clones command rest
                     (s.emit (Event.dispatchCommand object command false)))

/-- The loop of `_cmdFindMasterNodeID` over the instances of the id: a master instance
answers with the local node ID, a slave with a valid master node with
that node's ID; the loop stops at the first answer that is not `UUID::ZERO`. -/
def _cmdFindMasterNodeID.loop (s : ObjectStore) :
    List ObjPtr → NodeFindMasterNodeIDReplyPacket → NodeFindMasterNodeIDReplyPacket
  | [], reply => reply
  | object :: rest, reply =>
      let reply1 : NodeFindMasterNodeIDReplyPacket :=
        if (s.heap object).isMaster then
          { reply with masterNodeID := s.localNode.nodeID }
        else
          match (s.heap object).cm.masterNode with
          | some master => { reply with masterNodeID := master.nodeID }
          | none => reply
      if reply1.masterNodeID != UUID.ZERO then reply1
      else _cmdFindMasterNodeID.loop s rest reply1

/-- `ObjectStore::_cmdFindMasterNodeID` (command thread). -/
def _cmdFindMasterNodeID (s : ObjectStore)
    (command : Command NodeFindMasterNodeIDPacket) : Bool × ObjectStore :=
  let packet := command.packet
  let id := packet.identifier
  let reply := NodeFindMasterNodeIDReplyPacket.ofRequest packet
  let reply1 :=
    match s.objects.lookup id with
    | some objects => _cmdFindMasterNodeID.loop s objects reply
    | none => reply
  (true, s.emit (Event.send (Dest.peer command.node) (Packet.findMasterNodeIDReply reply1)))


/-! ## Observations on stores and traces used in the statements -/

/-- The peer a `FIND_MASTER_NODE_ID` packet is sent to, for a `send` event of
that kind. -/
def Event.findRequestPeer : Event → Option Node
  | Event.send (Dest.peer n) (Packet.findMasterNodeID _) => some n
  | _ => none

/-- The peers that were sent a `FIND_MASTER_NODE_ID` packet, in send order. -/
def findRequestsSent (t : List Event) : List Node :=
  t.filterMap Event.findRequestPeer

/-- The events by which `mapObjectNB` starts a mapping: registering a request
that carries an object, `notifyAttach`, and sending `MAP_OBJECT`. -/
def Event.isMapEffect : Event → Bool
  | Event.notifyAttach _ => true
  | Event.registerRequest _ (some _) => true
  | Event.send _ (Packet.mapObject _) => true
  | _ => false

/-- The store `s2` has the members and the objects of `s1`: they differ at
most in the request handler and the trace. -/
def ObjectStore.sameMembers (s1 s2 : ObjectStore) : Prop :=
  s2.localNode = s1.localNode ∧ s2.heap = s1.heap ∧ s2.objects = s1.objects ∧
  s2.sendQueue = s1.sendQueue ∧ s2.instanceCache = s1.instanceCache ∧
  s2.instanceIDs = s1.instanceIDs ∧ s2.sendOnRegister = s1.sendOnRegister


/-! ## Instance data, map requests, send-on-register, departed nodes -/

/-- Modelled from the spec: `add( objectID, version, masterInstanceID, ... )`
appends the version to the entry of the object, creating the entry when the
cache has none; a version the entry holds already is not added a second
time. -/
def InstanceCache.add (c : InstanceCache) (id : UUID) (version : Nat)
    (masterInstanceID : Nat) : InstanceCache :=
  match c.find id with
  | none =>
      { items := c.items ++ [(id, { masterInstanceID := masterInstanceID,
                                    versions := [version] })] }
  | some d =>
      if version ∈ d.versions then c
      else
        { items := c.items.map (fun e =>
            if e.1 == id then (e.1, { e.2 with versions := e.2.versions ++ [version] })
            else e) }

/-- The cache step of `_cmdInstance` (lines 987-993): with a cache, the command
is added to it unless it is a push and aggressive caching is not compiled in
(`aggressiveCaching` is the macro `CO_AGGRESSIVE_CACHING`). -/
def _cmdInstance.cache (aggressiveCaching : Bool) (s : ObjectStore) (type : PacketCommand)
    (command : Command ObjectInstancePacket) : ObjectStore :=
  match s.instanceCache with
  | some c =>
      if aggressiveCaching || type != PacketCommand.CMD_NODE_OBJECT_INSTANCE_PUSH then
        { s with
            instanceCache := some (c.add command.packet.objectID command.packet.version
              command.packet.masterInstanceID)
            trace := s.trace ++ [Event.instanceCacheAdd command.packet.objectID
              command.packet.version command.packet.masterInstanceID command] }
      else s
  | none => s

/-- The command as the object command `dispatchObjectCommand` reads. -/
def Command.toObjectCommand (command : Command ObjectInstancePacket) :
    Command ObjectPacket :=
  { node := command.node, packet := command.packet.toObjectPacket }

/-- The header rewrite of `_cmdInstance` (lines 983-984): the command becomes
the object command `INSTANCE`. -/
def _cmdInstance.rewrite (command : Command ObjectInstancePacket) :
    Command ObjectInstancePacket :=
  { command with
      packet := { command.packet with
                    type := PacketType.OBJECT
                    command := PacketCommand.CMD_OBJECT_INSTANCE } }

/-- `ObjectStore::_cmdInstance` (receiver thread).  The header of the packet is
rewritten before the command is cached, dispatched or buffered; the routing
goes by the command the packet arrived with. -/
def _cmdInstance (aggressiveCaching : Bool) (s : ObjectStore)
    (command : Command ObjectInstancePacket) : Bool × ObjectStore :=
  let type := command.packet.command
  let command1 := _cmdInstance.rewrite command
  let s1 := _cmdInstance.cache aggressiveCaching s type command1
  match type with
  | PacketCommand.CMD_NODE_OBJECT_INSTANCE => (true, s1)
  | PacketCommand.CMD_NODE_OBJECT_INSTANCE_MAP =>
      if command1.packet.nodeID != s1.localNode.nodeID then (true, s1)
      else dispatchObjectCommand s1 command1.toObjectCommand
  | PacketCommand.CMD_NODE_OBJECT_INSTANCE_COMMIT =>
      dispatchObjectCommand s1 command1.toObjectCommand
  | PacketCommand.CMD_NODE_OBJECT_INSTANCE_PUSH =>
      (true, { s1 with pushData := s1.pushData ++ [(command1.packet.objectID, command1)] })
  | _ => (false, s1)

/-- Modelled from the spec: the constructor of the map reply from its request
copies the object ID, the requested version and the request ID, releases the
cache the request announced, and carries failure until a master says
otherwise; the node ID is set by the sender. -/
def NodeMapObjectReplyPacket.ofRequest (request : NodeMapObjectPacket) :
    NodeMapObjectReplyPacket :=
  { nodeID := UUID.ZERO, objectID := request.objectID, version := request.requestedVersion,
    requestID := request.requestID, result := false, releaseCache := request.useCache,
    useCache := false }

/-- The loop of `_cmdMapObject`: the first master instance of the list. -/
def _cmdMapObject.loop (s : ObjectStore) : List ObjPtr → Option ObjPtr
  | [] => none
  | object :: rest =>
      if (s.heap object).isMaster then some object else _cmdMapObject.loop s rest

/-- `ObjectStore::_cmdMapObject` (command thread). -/
def _cmdMapObject (s : ObjectStore) (command : Command NodeMapObjectPacket) :
    Bool × ObjectStore :=
  let packet := command.packet
  let node := command.node
  let id := packet.objectID
  let master :=
    match s.objects.lookup id with
    | some objects => _cmdMapObject.loop s objects
    | none => none
  match master with
  | some m => (true, s.emit (Event.addSlave m command))
  | none =>
      let reply : NodeMapObjectReplyPacket :=
        { NodeMapObjectReplyPacket.ofRequest packet with nodeID := node.nodeID }
      (true, s.emit (Event.send (Dest.peer node) (Packet.mapObjectReply reply)))

/-- The loop `while( _sendQueue.size() > size ) _sendQueue.pop_front()`. -/
def _cmdRegisterObject.loop (size : Nat) : List SendQueueItem → List SendQueueItem
  | [] => []
  | i :: rest =>
      if (i :: rest).length > size then _cmdRegisterObject.loop size rest else i :: rest

/-- `ObjectStore::_cmdRegisterObject` (command thread).  The queue size attribute
is read into a `uint32_t`; an age of 0 means never, the biggest
`int64_t`. -/
def _cmdRegisterObject (s : ObjectStore) (packet : NodeRegisterObjectPacket) :
    Bool × ObjectStore :=
  if s.sendOnRegister <= 0 then (true, s)
  else
    let age := s.localNode.sendQueueAge
    let item : SendQueueItem :=
      { age := if age != 0 then age + s.localNode.time64 else 9223372036854775807,
        object := packet.object }
    let size := (s.localNode.sendQueueSize % 4294967296).toNat
    (true, { s with sendQueue := _cmdRegisterObject.loop size (s.sendQueue ++ [item]) })

/-- The inner loop of `_cmdRemoveNode`: `removeSlaves( node )` on every instance
of one id.  The call is recorded in the trace; what it does inside
the object is outside the sources at hand.  The store walks its table with
const iterators while holding the write lock, so the table is not changed. -/
def _cmdRemoveNode.instances (node : Node) : List ObjPtr → ObjectStore → ObjectStore
  | [], s => s
  | object :: rest, s =>
      _cmdRemoveNode.instances node rest (s.emit (Event.removeSlaves object node))

/-- The outer loop of `_cmdRemoveNode` over the attach table. -/
def _cmdRemoveNode.loop (node : Node) :
    List (UUID × List ObjPtr) → ObjectStore → ObjectStore
  | [], s => s
  | e :: rest, s => _cmdRemoveNode.loop node rest (_cmdRemoveNode.instances node e.2 s)

/-- `ObjectStore::_cmdRemoveNode` (command thread). -/
def _cmdRemoveNode (s : ObjectStore) (packet : NodeRemoveNodePacket) : Bool × ObjectStore :=
  let s1 := _cmdRemoveNode.loop packet.node s.objects s
  (true, if packet.requestID != LB_UNDEFINED_UINT32 then s1.serveRequest packet.requestID
         else s1)

/-- `ObjectStore::removeNode`: post `REMOVE_NODE` to the local node and wait. -/
def removeNode (s : ObjectStore) (node : Node) : ObjectStore :=
  let r := s.registerRequest none
  let packet : NodeRemoveNodePacket := { requestID := r.1, node := node }
  let s1 := r.2.emit (Event.send Dest.localNode (Packet.removeNode packet))
  let s2 := (_cmdRemoveNode s1 packet).2
  s2.waitRequest packet.requestID

/-- The store after the command thread has handled `REGISTER_OBJECT` for the
given handles, in order. -/
def registerSequence (s : ObjectStore) (objects : List ObjPtr) : ObjectStore :=
  objects.foldl (fun s' object => (_cmdRegisterObject s' { object := object }).2) s

/-- The last `k` items of a list. -/
def lastItems {α : Type} (k : Nat) (l : List α) : List α :=
  l.drop (l.length - k)

/-- The events by which a command reaches an object: `dispatchCommand` and
the `cloneCommand` before it. -/
def Event.isDispatch : Event → Bool
  | Event.dispatchCommand _ _ _ => true
  | Event.cloneCommand _ => true
  | _ => false

/-- The arguments of the `add` calls on the instance cache, in call order. -/
def cacheAdds (t : List Event) : List (UUID × Nat × Nat) :=
  t.filterMap (fun e =>
    match e with
    | Event.instanceCacheAdd objectID version masterInstanceID _ =>
        some (objectID, version, masterInstanceID)
    | _ => none)

/-- The `MAP_OBJECT` packets sent, in send order. -/
def mapPacketsSent (t : List Event) : List NodeMapObjectPacket :=
  t.filterMap (fun e =>
    match e with
    | Event.send _ (Packet.mapObject p) => some p
    | _ => none)


/-! ## Unsubscribe, idle sends, unmap and swap -/

/-- Modelled from the spec: the constructor
`NodeDetachObjectPacket( const NodeUnsubscribeObjectPacket* )` (declared outside
the sources at hand): the answer carries the request ID and the object ID of the
request and names the slave instance as the one to detach. -/
def NodeDetachObjectPacket.ofUnsubscribe (request : NodeUnsubscribeObjectPacket) :
    NodeDetachObjectPacket :=
  { requestID := request.requestID, objectID := request.objectID,
    objectInstanceID := request.slaveInstanceID }

/-- The loop of `_cmdUnsubscribeObject`: the first instance that is master and
has the packet's master instance ID. -/
def _cmdUnsubscribeObject.loop (s : ObjectStore) (masterInstanceID : Nat) :
    List ObjPtr → Option ObjPtr
  | [] => none
  | object :: rest =>
      if (s.heap object).isMaster && (s.heap object).instanceID == masterInstanceID then
        some object
      else _cmdUnsubscribeObject.loop s masterInstanceID rest

/-- `ObjectStore::_cmdUnsubscribeObject` (command thread). -/
def _cmdUnsubscribeObject (s : ObjectStore) (command : Command NodeUnsubscribeObjectPacket) :
    Bool × ObjectStore :=
  let packet := command.packet
  let node := command.node
  let s1 : ObjectStore :=
    match s.objects.lookup packet.objectID with
    | some objects =>
        match _cmdUnsubscribeObject.loop s packet.masterInstanceID objects with
        | some object => s.emit (Event.removeSlave object node packet.slaveInstanceID)
        | none => s
    | none => s
  (true, s1.emit (Event.send (Dest.peer node)
    (Packet.detachObject (NodeDetachObjectPacket.ofUnsubscribe packet))))

/-- `ObjectStore::notifyCommandThreadIdle` (command thread); `nodes` is what
`_localNode->getNodes( nodes, false )` returns, the connected peers. -/
def notifyCommandThreadIdle (s : ObjectStore) (nodes : List Node) : Bool × ObjectStore :=
  match s.sendQueue with
  | [] => (false, s)
  | item :: rest =>
      if item.age > s.localNode.time64 then
        if nodes.isEmpty then
          let s1 := s.emit Event.yield
          (!s1.sendQueue.isEmpty, s1)
        else
          let s1 := s.emit (Event.sendInstanceData item.object nodes)
          let s2 : ObjectStore := { s1 with sendQueue := rest }
          (!s2.sendQueue.isEmpty, s2)
      else
        let s2 : ObjectStore := { s with sendQueue := rest }
        (!s2.sendQueue.isEmpty, s2)

/-- The loop of `_cmdUnmapObject`: `detach()` on every instance of the copied
list. -/
def _cmdUnmapObject.loop : List ObjPtr → ObjectStore → ObjectStore
  | [], s => s
  | object :: rest, s =>
      _cmdUnmapObject.loop rest (s.setObject object (s.heap object).detach)

/-- `ObjectStore::_cmdUnmapObject` (receiver thread). -/
def _cmdUnmapObject (s : ObjectStore) (packet : NodeUnmapObjectPacket) : Bool × ObjectStore :=
  let s1 : ObjectStore :=
    match s.instanceCache with
    | some c => { s with instanceCache := some (c.erase packet.objectID) }
    | none => s
  match s1.objects.lookup packet.objectID with
  | none => (true, s1)
  | some objects =>
      let s2 : ObjectStore := { s1 with objects := eraseKey s1.objects packet.objectID }
      (true, _cmdUnmapObject.loop objects s2)

/-- Modelled from the spec: `Object::transfer( old )` (declared outside the
sources at hand): the object takes over the id, the instance ID and the change
manager of the old object, which is left detached. -/
def Object.transfer (o old : Object) : Object :=
  { o with id := old.id, instanceID := old.instanceID, cm := old.cm }

/-- `ObjectStore::swapObject` (receiver thread): `*j = newObject` replaces the
first occurrence of the old handle in the list of its id. -/
def swapObject (s : ObjectStore) (oldObject newObject : ObjPtr) : ObjectStore :=
  if !(s.heap oldObject).isAttached then s
  else
    let id := (s.heap oldObject).id
    match s.objects.lookup id with
    | none => s
    | some objects =>
        if !objects.contains oldObject then s
        else
          let s1 := s.setObject newObject ((s.heap newObject).transfer (s.heap oldObject))
          let s2 := s1.setObject oldObject (s1.heap oldObject).detach
          { s2 with objects := setList s2.objects id (objects.replace oldObject newObject) }

/-- One call of a function that writes the attach table. -/
inductive TableOp where
  | _attachObject (object : ObjPtr) (id : UUID) (inInstanceID : Nat)
  | _detachObject (object : ObjPtr)
  | _cmdDetachObject (packet : NodeDetachObjectPacket)
  | _cmdUnmapObject (packet : NodeUnmapObjectPacket)
  | swapObject (oldObject newObject : ObjPtr)
deriving DecidableEq, Repr

/-- The store after the call. -/
def TableOp.run (s : ObjectStore) : TableOp → ObjectStore
  | TableOp._attachObject object id inInstanceID => co._attachObject s object id inInstanceID
  | TableOp._detachObject object => co._detachObject s object
  | TableOp._cmdDetachObject packet => (co._cmdDetachObject s packet).2
  | TableOp._cmdUnmapObject packet => (co._cmdUnmapObject s packet).2
  | TableOp.swapObject oldObject newObject => co.swapObject s oldObject newObject

/-- The store after a sequence of calls, first call first. -/
def runOps (s : ObjectStore) (ops : List TableOp) : ObjectStore :=
  ops.foldl TableOp.run s

/-- No object id of the attach table maps to an empty instance list. -/
def ObjectStore.noEmptyList (s : ObjectStore) : Prop :=
  ∀ e ∈ s.objects, e.2 ≠ []

/-- The instance IDs of `n` successive `_genNextID` calls on one counter. -/
def genSequence : Nat → Int → List Nat
  | 0, _ => []
  | n + 1, val => (_genNextID val).1 :: genSequence n (_genNextID val).2

/-- The `removeSlave` calls of a trace. -/
def removeSlaveCalls (t : List Event) : List (ObjPtr × Node × Nat) :=
  t.filterMap (fun e =>
    match e with
    | Event.removeSlave object node instanceID => some (object, node, instanceID)
    | _ => none)

/-- The `sendInstanceData` calls of a trace. -/
def instanceDataSends (t : List Event) : List (ObjPtr × List Node) :=
  t.filterMap (fun e =>
    match e with
    | Event.sendInstanceData object nodes => some (object, nodes)
    | _ => none)

/-- `ObjectStore::ObjectStore` initialises the counter `_instanceIDs` with
`-0x7FFFFFFF`. -/
def ObjectStore.initialInstanceIDs : Int := -0x7FFFFFFF

/-- `registerObject` followed by the command thread's handling of the
`REGISTER_OBJECT` packet, which `registerObject` sends when
`NODE_SEND_QUEUE_SIZE > 0`. -/
def registerAndQueue (s : ObjectStore) (object : ObjPtr) : ObjectStore :=
  let s1 := (registerObject s object).2
  if s1.localNode.sendQueueSize > 0 then (_cmdRegisterObject s1 { object := object }).2
  else s1

/-- A request that is handed an instance ID: an attach without an instance ID
of its own, as `registerObject` makes it, or a `mapObjectNB` to a master. -/
inductive IdRequest where
  | attach (object : ObjPtr) (id : UUID)
  | map (object : ObjPtr) (id : UUID) (version : Nat) (master : Node)
deriving DecidableEq, Repr

/-- The instance IDs one request is handed, and the store after it:
`_attachObject` binds the generated ID to the object, `mapObjectNB` puts it
into the `MAP_OBJECT` packet it sends, and hands out none when it fails. -/
def IdRequest.run (packet0 : NodeMapObjectPacket) (s : ObjectStore) :
    IdRequest → List Nat × ObjectStore
  | IdRequest.attach object id =>
      let s1 := _attachObject s object id EQ_INSTANCE_INVALID
      ([(s1.heap object).instanceID], s1)
  | IdRequest.map object id version master =>
      let r := mapObjectNB.toMaster packet0 s (some object) id version master
      ((mapPacketsSent (r.2.trace.drop s.trace.length)).map (fun p => p.instanceID), r.2)

/-- The instance IDs handed to a sequence of requests, first request first. -/
def handedOut (packet0 : NodeMapObjectPacket) : List IdRequest → ObjectStore → List Nat
  | [], _ => []
  | request :: rest, s =>
      (request.run packet0 s).1 ++ handedOut packet0 rest (request.run packet0 s).2

/-- The request IDs registered in a trace, in order. -/
def requestsRegistered (t : List Event) : List Nat :=
  t.filterMap (fun e =>
    match e with
    | Event.registerRequest requestID _ => some requestID
    | _ => none)

/-- The request IDs waited for in a trace, in order. -/
def requestsWaited (t : List Event) : List Nat :=
  t.filterMap (fun e =>
    match e with
    | Event.waitRequest requestID => some requestID
    | _ => none)

/-- A well-formed attach table: every key occurs once, and the list of a key
holds each handle once, only objects with that id, and no two objects with
the same instance ID. -/
def ObjectStore.wellFormed (s : ObjectStore) : Prop :=
  (s.objects.map Prod.fst).Nodup ∧
  ∀ e ∈ s.objects, e.2.Nodup ∧ (∀ q ∈ e.2, (s.heap q).id = e.1) ∧
    ∀ q ∈ e.2, ∀ q' ∈ e.2, (s.heap q).instanceID = (s.heap q').instanceID → q = q'

/-- The handle occurs in the attach table. -/
def ObjectStore.listed (s : ObjectStore) (p : ObjPtr) : Prop :=
  ∃ e ∈ s.objects, p ∈ e.2

/-- The send queue as registrations leave it while `NODE_SEND_QUEUE_SIZE`
stays what it is: no object is queued twice, and nothing is queued unless the
size is positive (`registerObject` sends `REGISTER_OBJECT` only then). -/
def ObjectStore.queueInvariant (s : ObjectStore) : Prop :=
  (s.sendQueue.map (fun i => i.object)).Nodup ∧
  (s.localNode.sendQueueSize ≤ 0 → s.sendQueue = [])

/-! ## Concrete stores -/

/-- A detached object with id 5. -/
def Example.detached : Object :=
  { id := 5, instanceID := EQ_INSTANCE_INVALID,
    cm := { type := ChangeType.NONE, isMaster := false,
            masterInstanceID := EQ_INSTANCE_INVALID, masterNode := none },
    changeType := ChangeType.INSTANCE, maxVersions := 0 }

/-- A connected peer with node ID 7. -/
def Example.peer : Node := { nodeID := 7, isConnected := true, isClosed := false }

/-- The local node, with node ID 1, as a member of its own node list. -/
def Example.self : Node := { nodeID := 1, isConnected := true, isClosed := false }

/-- A local node with ID 1 that knows no peer; send-on-register is off. -/
def Example.localNode : LocalNode :=
  { nodeID := 1, nodes := [], findMasterReply := fun _ _ => UUID.ZERO,
    connect := fun _ => none, sendQueueSize := 0, sendQueueAge := 0, time64 := 0 }

/-- A fresh store: nothing attached, every handle a detached object. -/
def Example.store : ObjectStore :=
  { localNode := Example.localNode, heap := fun _ => Example.detached, objects := [],
    sendQueue := [], instanceCache := none, instanceIDs := -2147483647,
    sendOnRegister := 0, requests := [], nextRequestID := 1, trace := [], pushData := [] }

/-- The fresh store after `registerObject` of the handle 1. -/
def Example.registered : ObjectStore := (registerObject Example.store 1).2

/-- The store `Example.registered` with an empty trace, the handle 1 queued
for send-on-register, and a cache entry for its id. -/
def Example.queued : ObjectStore :=
  { Example.registered with
      sendQueue := [{ age := 10, object := 1 }]
      instanceCache := some { items := [(5, { masterInstanceID := 1, versions := [1] })] }
      trace := [] }

/-- The store `Example.queued` with `NODE_SEND_QUEUE_SIZE` 4 and the handle 1
queued twice. -/
def Example.queuedTwice : ObjectStore :=
  { Example.queued with
      localNode := { Example.localNode with sendQueueSize := 4 }
      sendQueue := [{ age := 10, object := 1 }, { age := 20, object := 1 }] }

/-- A store whose only attached instance is the local master 1 of the object
5 and whose node list is the local node itself, answering with its own ID. -/
def Example.soleMaster : ObjectStore :=
  { Example.registered with
      localNode := { Example.localNode with
                       nodes := [Example.self]
                       findMasterReply := fun n _ => n.nodeID }
      trace := [] }

/-- A slave of the object 5 whose master lives on the peer 7. -/
def Example.slave : Object :=
  { id := 5, instanceID := 2,
    cm := { type := ChangeType.INSTANCE, isMaster := false, masterInstanceID := 1,
            masterNode := some Example.peer },
    changeType := ChangeType.INSTANCE, maxVersions := 0 }

/-- A store whose table lists, for the id 5, the slave 2 of a master on the
peer 7 before the local master 1; the node list is the peer followed by the
local node, and the peer answers lookups with 7, the local node with 1. -/
def Example.slaveFirst : ObjectStore :=
  { Example.registered with
      heap := fun q => if q = 2 then Example.slave else Example.registered.heap q
      objects := [(5, [2, 1])]
      localNode :=
        { Example.localNode with
            nodes := [Example.peer, Example.self]
            findMasterReply := fun n _ => n.nodeID }
      trace := [] }

/-- A store in which only the slave 2 of `Example.slaveFirst` is attached; its
master node is not connected. -/
def Example.orphan : ObjectStore :=
  { Example.store with
      heap := fun q =>
        if q = 2 then
          { Example.slave with
              cm := { Example.slave.cm with
                        masterNode := some { Example.peer with isConnected := false } } }
        else Example.detached
      objects := [(5, [2])] }

/-- A `FIND_MASTER_NODE_ID` query for the id 5 from the peer 7. -/
def Example.query : Command NodeFindMasterNodeIDPacket :=
  { node := Example.peer, packet := { requestID := 3, identifier := 5 } }

/-- An object command for the instance 1 of the object 5. -/
def Example.command : Command ObjectPacket :=
  { node := Example.peer, packet := { objectID := 5, instanceID := 1, command := PacketCommand.other 0 } }

/-- A store with a pending map request 7 for the handle 1. -/
def Example.pending : ObjectStore :=
  { Example.store with requests := [(7, some 1)] }

/-- The receiver thread attaching the handle 1 as instance 2 of the object 5
and serving the request with version 3. -/
def Example.receive (s : ObjectStore) : ObjectStore × Nat :=
  (_attachObject s 1 5 2, 3)

/-- The default-constructed map packet of the examples. -/
def Example.packet0 : NodeMapObjectPacket :=
  { requestID := 0, objectID := 0, requestedVersion := 0, minCachedVersion := 0,
    maxCachedVersion := 0, maxVersion := 0, instanceID := 0, masterInstanceID := 0,
    useCache := false }


/-- An object command for all instances of the object 5. -/
def Example.broadcast : Command ObjectPacket :=
  { node := Example.peer,
    packet := { objectID := 5, instanceID := EQ_INSTANCE_NONE,
                command := PacketCommand.other 0 } }

/-- An object command for the instance 1 of the object 9, which nobody has
attached. -/
def Example.stray : Command ObjectPacket :=
  { node := Example.peer,
    packet := { objectID := 9, instanceID := 1, command := PacketCommand.other 0 } }

/-- The instance packet of version 2 of the object 5, with the given node
command, instance ID and addressee, from the peer 7. -/
def Example.instance (command : PacketCommand) (instanceID : Nat) (nodeID : NodeID) :
    Command ObjectInstancePacket :=
  { node := Example.peer,
    packet := { type := PacketType.NODE, command := command, objectID := 5,
                instanceID := instanceID, nodeID := nodeID, version := 2,
                masterInstanceID := 1 } }

/-- A `MAP_OBJECT` request 4 of the peer 7 for the given object. -/
def Example.mapRequest (objectID : UUID) : Command NodeMapObjectPacket :=
  { node := Example.peer,
    packet := { Example.packet0 with requestID := 4, objectID := objectID } }

/-- The fresh store with send-on-register enabled and
`NODE_SEND_QUEUE_SIZE` 4. -/
def Example.sendOn : ObjectStore :=
  { Example.store with
      sendOnRegister := 1
      localNode := { Example.localNode with sendQueueSize := 4 } }

/-- The departed node of `Example.orphan`: the peer 7, not connected. -/
def Example.departed : Node := { Example.peer with isConnected := false }


/-- The peer 7 unsubscribes its slave instance 3 of the object 5 from the
master instance `masterInstanceID`, with the request 4. -/
def Example.unsubscribe (masterInstanceID : Nat) : Command NodeUnsubscribeObjectPacket :=
  { node := Example.peer,
    packet := { requestID := 4, objectID := 5, masterInstanceID := masterInstanceID,
                slaveInstanceID := 3 } }

/-- A run of table calls: attach the handles 1 and 2 under the id 5, swap 3 in
for 1, unmap the id 5, attach 3 under the id 6 and 4 under the id 7, detach 4. -/
def Example.ops : List TableOp :=
  [TableOp._attachObject 1 5 EQ_INSTANCE_INVALID, TableOp._attachObject 2 5 EQ_INSTANCE_INVALID,
   TableOp.swapObject 1 3, TableOp._cmdUnmapObject { objectID := 5 },
   TableOp._attachObject 3 6 EQ_INSTANCE_INVALID, TableOp._attachObject 4 7 EQ_INSTANCE_INVALID,
   TableOp._detachObject 4]

/-- A fresh store on a listening local node: the node list is the local node
itself, and no node knows any id. -/
def Example.alone : ObjectStore :=
  { Example.store with localNode := { Example.localNode with nodes := [Example.self] } }

/-- Requests that are handed instance IDs: two attaches around a map. -/
def Example.requests : List IdRequest :=
  [IdRequest.attach 1 5, IdRequest.map 2 5 0 Example.peer, IdRequest.attach 3 6]
end co

/-!
Node runtime: a shallow embedding of `src/net/node.cpp` (class `eqNet::Node`).

The nodes and connections behind the `Node*` and `Connection` handles live in
the maps of `Net`; a member function takes the handle `this` of the node it is
called on.  The receiver thread's handling of a packet the node sends to itself
and then joins on is embedded as a call of the handler.  `ASSERT` and the log
macros are compiled out.
-/

namespace eqNet

/-- Modelled from the spec: the invalid request identifier; the constant is
defined outside the sources at hand. -/
def INVALID_ID : Nat := 0xffffffff

/-- Modelled from the spec: the states of a node that `node.cpp` uses; the
enum is declared outside the sources at hand. -/
inductive State where
  | STATE_STOPPED
  | STATE_LAUNCHED
  | STATE_CONNECTED
  | STATE_LISTENING
deriving DecidableEq, Repr

/-- Modelled from the spec: the states of a connection; `node.cpp` tests for
`STATE_CONNECTED` and `STATE_LISTENING`. -/
inductive ConnectionState where
  | STATE_CLOSED
  | STATE_CONNECTING
  | STATE_CONNECTED
  | STATE_LISTENING
deriving DecidableEq, Repr

/-- A `Node*` or a valid `RefPtr<Node>`. -/
abbrev NodePtr := Nat

/-- A valid `RefPtr<Connection>`. -/
abbrev ConnPtr := Nat

/-- The members of `eqNet::Node` the embedded functions read and write.  The
connection set holds the pairs of a connection and the node it belongs to. -/
structure Node where
  _state : State
  _autoLaunch : Bool
  _pendingRequestID : Nat
  _connection : Option ConnPtr
  _listener : Option ConnPtr
  _connectionSet : List (ConnPtr × NodePtr)
deriving DecidableEq, Repr

/-- `Node::Node`: the state after the constructor. -/
def Node.new : Node :=
  { _state := State.STATE_STOPPED, _autoLaunch := false, _pendingRequestID := INVALID_ID,
    _connection := none, _listener := none, _connectionSet := [] }

/-- The packets `node.cpp` sends in the embedded functions. -/
inductive Packet where
  | NodeStopPacket
  | NodeConnectPacket
deriving DecidableEq, Repr

/-- Calls into collaborators, recorded in call order. -/
inductive Event where
  | send (node : NodePtr) (packet : Packet)
  | receiverStart (node : NodePtr)
  | receiverExit (node : NodePtr)
  | receiverJoin (node : NodePtr)
  | close (connection : ConnPtr)
  | unregisterRequest (node : NodePtr) (requestID : Nat)
  | waitRequest (node : NodePtr) (requestID : Nat) (timeout : Nat)
deriving DecidableEq, Repr

/-- The nodes and connections of the process, the static local node of
`Node::getLocalNode`, and the trace. -/
structure Net where
  nodes : NodePtr → Node
  connections : ConnPtr → ConnectionState
  localNode : Option NodePtr
  trace : List Event

/-- Append one event to the trace. -/
def Net.emit (w : Net) (e : Event) : Net :=
  { w with trace := w.trace ++ [e] }

/-- Write through a `Node*`. -/
def Net.setNode (w : Net) (p : NodePtr) (n : Node) : Net :=
  { w with nodes := fun q => if q = p then n else w.nodes q }

/-- Modelled from the spec: `ConnectionSet::addConnection( connection, node )`
adds the pair to the set of the node `this`. -/
def Net.addConnection (w : Net) (this : NodePtr) (connection : ConnPtr) (node : NodePtr) :
    Net :=
  w.setNode this
    { w.nodes this with
        _connectionSet := (w.nodes this)._connectionSet ++ [(connection, node)] }

/-- Modelled from the spec: `ConnectionSet::removeConnection( connection )`
removes the pair of the connection and tells whether the set held one. -/
def Net.removeConnection (w : Net) (this : NodePtr) (connection : ConnPtr) : Bool × Net :=
  ((w.nodes this)._connectionSet.any (fun e => e.1 == connection),
   w.setNode this
     { w.nodes this with
         _connectionSet := (w.nodes this)._connectionSet.filter
           (fun e => e.1 != connection) })

/-- `Node::_listenToSelf`: `pipe` is the connection `Connection::create`
returns and `pipeConnects` tells whether its `connect` succeeds; what `connect`
does to the connection itself is outside the sources at hand and not recorded. -/
def _listenToSelf (w : Net) (this : NodePtr) (pipe : ConnPtr) (pipeConnects : Bool) :
    Bool × Net :=
  let w1 := w.setNode this { w.nodes this with _connection := some pipe }
  if !pipeConnects then
    (false, w1.setNode this { w1.nodes this with _connection := none })
  else
    (true, w1.addConnection this pipe this)

/-- `Node::listen`; a null `connection` is `none`. -/
def listen (w : Net) (this : NodePtr) (connection : Option ConnPtr) (pipe : ConnPtr)
    (pipeConnects : Bool) : Bool × Net :=
  if (w.nodes this)._state != State.STATE_STOPPED then (false, w)
  else if (match connection with
      | some c => w.connections c != ConnectionState.STATE_LISTENING
      | none => false) then (false, w)
  else
    let r := _listenToSelf w this pipe pipeConnects
    if !r.1 then (false, r.2)
    else
      let w1 : Net :=
        match connection with
        | some c =>
            let a := r.2.addConnection this c this
            a.setNode this { a.nodes this with _listener := some c }
        | none => r.2
      let w2 := w1.setNode this { w1.nodes this with _state := State.STATE_LISTENING }
      let w3 := w2.emit (Event.receiverStart this)
      let w4 : Net :=
        match w3.localNode with
        | none => { w3 with localNode := some this }
        | some _ => w3
      (true, w4)

/-- `Node::_cmdStop` (receiver thread of the node `this`). -/
def _cmdStop (w : Net) (this : NodePtr) : Net :=
  let w1 := w.setNode this { w.nodes this with _state := State.STATE_STOPPED }
  w1.emit (Event.receiverExit this)

/-- The loop of `_cleanup` over the connections left in the set: the node of
each is stopped and unbound. -/
def _cleanup.loop : List (ConnPtr × NodePtr) → Net → Net
  | [], w => w
  | e :: rest, w =>
      _cleanup.loop rest
        (w.setNode e.2 { w.nodes e.2 with _state := State.STATE_STOPPED, _connection := none })

/-- `Node::_cleanup`.  Without a connection to itself the code would
dereference null; the embedding then skips the removal and the close. -/
def _cleanup (w : Net) (this : NodePtr) : Net :=
  let w1 : Net :=
    match (w.nodes this)._connection with
    | some c => ((w.removeConnection this c).2).emit (Event.close c)
    | none => w
  let w2 := w1.setNode this { w1.nodes this with _connection := none, _listener := none }
  let w3 := _cleanup.loop (w2.nodes this)._connectionSet w2
  w3.setNode this { w3.nodes this with _connectionSet := [] }

/-- `Node::stopListening`: the node sends itself the stop packet, its receiver
thread handles it with `_cmdStop` and exits, and the caller joins it. -/
def stopListening (w : Net) (this : NodePtr) : Bool × Net :=
  if (w.nodes this)._state != State.STATE_LISTENING then (false, w)
  else
    let w1 := w.emit (Event.send this Packet.NodeStopPacket)
    let w2 := _cmdStop w1 this
    let w3 := w2.emit (Event.receiverJoin this)
    (true, _cleanup w3 this)

/-- `Node::connect( node, connection )`; an invalid `node` is `none`. -/
def connect (w : Net) (this : NodePtr) (node : Option NodePtr) (connection : ConnPtr) :
    Bool × Net :=
  match node with
  | none => (false, w)
  | some n =>
      if (w.nodes this)._state != State.STATE_LISTENING ||
          w.connections connection != ConnectionState.STATE_CONNECTED ||
          (w.nodes n)._state != State.STATE_STOPPED then (false, w)
      else
        let w1 := w.setNode n
          { w.nodes n with _connection := some connection, _state := State.STATE_CONNECTED }
        let w2 := w1.emit (Event.send n Packet.NodeConnectPacket)
        (true, w2.addConnection this connection n)

/-- `Node::disconnect( node )`; a null `node` is `none`.  The third test of the
guard is written `!node->_state == STATE_CONNECTED`: the negation applies to
the state, its result, 1 for the enumerator numbered 0 and 0 for any other, is
then compared with the number of `STATE_CONNECTED`.  The numbers of the
enumerators are declared outside the sources at hand: `code` gives them. -/
def disconnect (code : State → Nat) (w : Net) (this : NodePtr) (node : Option NodePtr) :
    Bool × Net :=
  match node with
  | none => (false, w)
  | some n =>
      if (w.nodes this)._state != State.STATE_LISTENING ||
          (if code (w.nodes n)._state = 0 then 1 else 0) == code State.STATE_CONNECTED ||
          (w.nodes n)._connection.isNone then (false, w)
      else
        match (w.nodes n)._connection with
        | none => (false, w)
        | some c =>
            let r := w.removeConnection this c
            if !r.1 then (false, r.2)
            else
              (true, r.2.setNode n
                { r.2.nodes n with _state := State.STATE_STOPPED, _connection := none })

/-- `Node::handleDisconnect( node )`. -/
def handleDisconnect (code : State → Nat) (w : Net) (this : NodePtr)
    (node : Option NodePtr) : Net :=
  (disconnect code w this node).2

/-- The enumerators of `State` numbered in the order they are listed in,
from 0. -/
def State.toNat : State → Nat
  | State.STATE_STOPPED => 0
  | State.STATE_LAUNCHED => 1
  | State.STATE_CONNECTED => 2
  | State.STATE_LISTENING => 3

/-- What `node.cpp` reads of a `ConnectionDescription`. -/
structure ConnectionDescription where
  launchCommand : List Char
  hostname : List Char
  launchTimeout : Nat
deriving DecidableEq, Repr

/-- `Node::syncConnect`.  `requestData` is `getRequestData` of the local
node's request handler and `receive` what the receiver thread does while the
caller waits, with the `success` the wait returns.  Without a local node, or
without a description stored under the pending request, the code dereferences
null: `none`. -/
def syncConnect (w : Net) (this : NodePtr)
    (requestData : Nat → Option ConnectionDescription) (receive : Net → Bool × Net) :
    Option (Bool × Net) :=
  match w.localNode with
  | none => none
  | some localNode =>
      if (w.nodes this)._state == State.STATE_CONNECTED then
        let w1 := w.emit (Event.unregisterRequest localNode (w.nodes this)._pendingRequestID)
        some (true, w1.setNode this { w1.nodes this with _pendingRequestID := INVALID_ID })
      else
        match requestData (w.nodes this)._pendingRequestID with
        | none => none
        | some description =>
            let w1 := w.emit (Event.waitRequest localNode (w.nodes this)._pendingRequestID
              description.launchTimeout)
            let r := receive w1
            let w2 : Net :=
              if r.1 then r.2
              else
                let w3 := r.2.setNode this { r.2.nodes this with _state := State.STATE_STOPPED }
                w3.emit (Event.unregisterRequest localNode (w3.nodes this)._pendingRequestID)
            some (r.1, w2.setNode this { w2.nodes this with _pendingRequestID := INVALID_ID })

/-! Launch commands (`Node::_createLaunchCommand`).  A `std::string` is the
list of its characters; `size_t` has 64 bits. -/

/-- The difference of two `size_t` values, modulo 2^64. -/
def sizeSub (a b : Nat) : Nat := (a + 18446744073709551616 - b % 18446744073709551616)
  % 18446744073709551616

/-- The first position of `c` in `l`, counted from `pos` for the head of `l`. -/
def findFrom (c : Char) : List Char → Nat → Option Nat
  | [], _ => none
  | x :: xs, pos => if x = c then some pos else findFrom c xs (pos + 1)

/-- `std::string::find( c, pos )`: the first position of `c` at or after
`pos`; `none` is `string::npos`. -/
def find (s : List Char) (c : Char) (pos : Nat) : Option Nat :=
  findFrom c (s.drop pos) pos

/-- `std::string::substr( pos, len )`: the characters from `pos` on, at most
`len` of them; a `pos` beyond the size throws `out_of_range`, `none`. -/
def substr (s : List Char) (pos len : Nat) : Option (List Char) :=
  if pos > s.length then none else some ((s.drop pos).take len)

/-- `operator[]` of a `const std::string` at a position not beyond the size:
the character there, the null character at the size. -/
def charAt (s : List Char) (pos : Nat) : Char := s.getD pos (Char.ofNat 0)

/-- How a call can end without a result. -/
inductive Fault where
  | out_of_range
  | fuel
deriving DecidableEq, Repr

/-- The locals of `_createLaunchCommand` across its loop, and the arguments of
the `substr` calls made so far: the start position and the difference
`percentPos - lastPos` (or `launchCommandLen - lastPos`) before it is taken
modulo 2^64. -/
structure LaunchState where
  lastPos : Nat
  commandFound : Bool
  result : List Char
  substrs : List (Nat × Int)
deriving DecidableEq, Repr

/-- The `for` loop of `_createLaunchCommand`, one iteration per unit of fuel;
`percentPos` is `none` for `string::npos`.  Both branches of the test on the
size of the replacement append the same substring first. -/
def _createLaunchCommand.loop (launchCommand hostname remoteCommand : List Char) :
    Nat → Option Nat → LaunchState → Except Fault LaunchState
  | _, none, st => Except.ok st
  | 0, some _, _ => Except.error Fault.fuel
  | fuel + 1, some percentPos, st =>
      let token := charAt launchCommand (percentPos + 1)
      let replacement : List Char :=
        if token = 'c' then remoteCommand else if token = 'h' then hostname else []
      let commandFound := if token = 'c' then true else st.commandFound
      match substr launchCommand st.lastPos (sizeSub percentPos st.lastPos) with
      | none => Except.error Fault.out_of_range
      | some piece =>
          _createLaunchCommand.loop launchCommand hostname remoteCommand fuel
            (find launchCommand '%' (percentPos + 1))
            { lastPos := percentPos + 2, commandFound := commandFound,
              result := st.result ++ piece ++ replacement,
              substrs := st.substrs ++ [(st.lastPos, (percentPos : Int) - (st.lastPos : Int))] }

/-- `Node::_createLaunchCommand` with its locals at the end: `hostname` is the
host name of the description and `remoteCommand` what `_createRemoteCommand`
returns.  The loop runs once per `'%'`, so the size of the command plus one is
fuel enough. -/
def _createLaunchCommand.run (launchCommand hostname remoteCommand : List Char) :
    Except Fault LaunchState :=
  if launchCommand.length = 0 then
    Except.ok { lastPos := 0, commandFound := false, result := launchCommand, substrs := [] }
  else
    match _createLaunchCommand.loop launchCommand hostname remoteCommand
        (launchCommand.length + 1) (find launchCommand '%' 0)
        { lastPos := 0, commandFound := false, result := [], substrs := [] } with
    | Except.error e => Except.error e
    | Except.ok st =>
        match substr launchCommand st.lastPos (sizeSub launchCommand.length st.lastPos) with
        | none => Except.error Fault.out_of_range
        | some piece =>
            let result := st.result ++ piece
            Except.ok
              { st with
                  result := if !st.commandFound then result ++ ' ' :: remoteCommand
                            else result,
                  substrs := st.substrs ++
                    [(st.lastPos, (launchCommand.length : Int) - (st.lastPos : Int))] }

/-- `Node::_createLaunchCommand`: the string it returns. -/
def _createLaunchCommand (launchCommand hostname remoteCommand : List Char) :
    Except Fault (List Char) :=
  match _createLaunchCommand.run launchCommand hostname remoteCommand with
  | Except.error e => Except.error e
  | Except.ok st => Except.ok st.result

/-- The launch command with every `%h` replaced by the host name and every
`%c` by the remote command, the other characters kept in order: what the
description of the launch command promises. -/
def expandTokens (hostname remoteCommand : List Char) : List Char → List Char
  | [] => []
  | [a] => [a]
  | a :: b :: rest =>
      if a = '%' ∧ b = 'c' then remoteCommand ++ expandTokens hostname remoteCommand rest
      else if a = '%' ∧ b = 'h' then hostname ++ expandTokens hostname remoteCommand rest
      else a :: expandTokens hostname remoteCommand (b :: rest)

/-- The string contains `%c`. -/
def containsCommandToken : List Char → Bool
  | [] => false
  | [_] => false
  | a :: b :: rest =>
      if a = '%' ∧ b = 'c' then true else containsCommandToken (b :: rest)

/-- Every `'%'` of the string is followed by `'c'` or `'h'`. -/
def tokensWellFormed : List Char → Bool
  | [] => true
  | [a] => decide (a ≠ '%')
  | a :: b :: rest =>
      if a = '%' then (decide (b = 'c') || decide (b = 'h')) && tokensWellFormed rest
      else tokensWellFormed (b :: rest)

/-! Concrete nets -/

/-- A net in which every node is freshly constructed, the connection 1 is
listening, the connection 2 connected and every other connection closed. -/
def Example.fresh : Net :=
  { nodes := fun _ => Node.new,
    connections := fun c =>
      if c = 1 then ConnectionState.STATE_LISTENING
      else if c = 2 then ConnectionState.STATE_CONNECTED
      else ConnectionState.STATE_CLOSED,
    localNode := none, trace := [] }

/-- The net `Example.fresh` after the node 0 has started to listen on the
connection 1, with the pipe 9 to itself. -/
def Example.listening : Net := (listen Example.fresh 0 (some 1) 9 true).2

/-- The net `Example.listening` with the local node 0 set and the node 3
launched, its connection pending under the request 8. -/
def Example.launched : Net :=
  { Example.listening with
      localNode := some 0,
      nodes := fun q =>
        if q = 3 then
          { Node.new with _state := State.STATE_LAUNCHED, _pendingRequestID := 8 }
        else Example.listening.nodes q }

/-- The description stored under the request 8. -/
def Example.requestData (requestID : Nat) : Option ConnectionDescription :=
  if requestID = 8 then
    some { launchCommand := "ssh %h %c".toList, hostname := "render1".toList,
           launchTimeout := 60 }
  else none

/-- A wait that times out: the receiver thread does nothing. -/
def Example.timeout (w : Net) : Bool × Net := (false, w)

end eqNet

/-!
Pipe: a shallow embedding of the frame functions and of `_cmdDestroyWindow`
of `src/libs/eq/client/pipe.cpp` (class `eq::Pipe`).

Frame numbers are `uint32_t`.  `LBASSERT` is compiled out; where a claim is
about an assertion, the value of its condition is recorded in the trace.
-/

namespace eq

/-- Modelled from the spec: the thread models of a node that `pipe.cpp` tells
apart; any other value of the attribute is `other`. -/
inductive ThreadModel where
  | ASYNC
  | DRAW_SYNC
  | LOCAL_SYNC
  | other (value : Nat)
deriving DecidableEq, Repr

/-- A `Window*`. -/
abbrev WinPtr := Nat

/-- Calls into collaborators and conditions of assertions, in program order. -/
inductive Event where
  | waitFrameStarted (frameNumber : Nat)
  | unimplemented
  | assertUnlocked (frameNumber : Nat) (holds : Bool)
  | assertNotShared (candidate : WinPtr) (holds : Bool)
  | unmapObject (window : WinPtr)
  | releaseWindow (window : WinPtr)
  | sendReply (windowID : Nat) (isStopped : Bool)
deriving DecidableEq, Repr

/-- The members of `eq::Pipe` the embedded functions read and write:
`_currentFrame`, `_finishedFrame`, `_unlockedFrame`; the thread model attribute
of the pipe's node; the windows `getWindows` returns, in order, and the
shared-context window of every window (null is `none`); the trace. -/
structure Pipe where
  threadModel : ThreadModel
  _currentFrame : Nat
  _finishedFrame : Nat
  _unlockedFrame : Nat
  windows : List WinPtr
  sharedContextWindow : WinPtr → Option WinPtr
  trace : List Event

/-- Append one event to the trace. -/
def Pipe.emit (p : Pipe) (e : Event) : Pipe :=
  { p with trace := p.trace ++ [e] }

/-- `Pipe::startFrame`. -/
def startFrame (p : Pipe) (frameNumber : Nat) : Pipe :=
  { p with _currentFrame := frameNumber }

/-- `Pipe::releaseFrame`. -/
def releaseFrame (p : Pipe) (frameNumber : Nat) : Pipe :=
  { p with _finishedFrame := frameNumber }

/-- `Pipe::releaseFrameLocal`: the condition `_unlockedFrame + 1 ==
frameNumber` of its assertion, in 32-bit arithmetic, is recorded. -/
def releaseFrameLocal (p : Pipe) (frameNumber : Nat) : Pipe :=
  let p1 := p.emit (Event.assertUnlocked frameNumber
    ((p._unlockedFrame + 1) % 4294967296 == frameNumber))
  { p1 with _unlockedFrame := frameNumber }

/-- `Pipe::frameStart`. -/
def frameStart (p : Pipe) (frameNumber : Nat) : Pipe :=
  let p1 : Pipe :=
    match p.threadModel with
    | ThreadModel.ASYNC => releaseFrameLocal p frameNumber
    | ThreadModel.DRAW_SYNC => p.emit (Event.waitFrameStarted frameNumber)
    | ThreadModel.LOCAL_SYNC => p.emit (Event.waitFrameStarted frameNumber)
    | ThreadModel.other _ => p.emit Event.unimplemented
  startFrame p1 frameNumber

/-- `Pipe::frameDrawFinish`. -/
def frameDrawFinish (p : Pipe) (frameNumber : Nat) : Pipe :=
  match p.threadModel with
  | ThreadModel.ASYNC => p
  | ThreadModel.DRAW_SYNC => releaseFrameLocal p frameNumber
  | ThreadModel.LOCAL_SYNC => p
  | ThreadModel.other _ => p.emit Event.unimplemented

/-- `Pipe::frameFinish`. -/
def frameFinish (p : Pipe) (frameNumber : Nat) : Pipe :=
  let p1 : Pipe :=
    match p.threadModel with
    | ThreadModel.ASYNC => p
    | ThreadModel.DRAW_SYNC => p
    | ThreadModel.LOCAL_SYNC => releaseFrameLocal p frameNumber
    | ThreadModel.other _ => p.emit Event.unimplemented
  releaseFrame p1 frameNumber

/-- The frames released locally in a trace, each with the condition of the
assertion at its release. -/
def localReleases (t : List Event) : List (Nat × Bool) :=
  t.filterMap (fun e =>
    match e with
    | Event.assertUnlocked frameNumber holds => some (frameNumber, holds)
    | _ => none)

/-- `Window::setSharedContextWindow` through a `Window*`. -/
def Pipe.setSharedContextWindow (p : Pipe) (window : WinPtr) (shared : Option WinPtr) :
    Pipe :=
  { p with sharedContextWindow := fun q => if q = window then shared
                                           else p.sharedContextWindow q }

/-- The loop of `_cmdDestroyWindow` over the windows of the pipe, with the
local `newSharedWindow`; the condition of the assertion that ends the loop
body is recorded. -/
def _cmdDestroyWindow.loop (window : WinPtr) :
    List WinPtr → Option WinPtr → Pipe → Option WinPtr × Pipe
  | [], newSharedWindow, p => (newSharedWindow, p)
  | candidate :: rest, newSharedWindow, p =>
      if candidate = window then _cmdDestroyWindow.loop window rest newSharedWindow p
      else
        let r : Option WinPtr × Pipe :=
          if p.sharedContextWindow candidate = some window then
            match newSharedWindow with
            | some shared => (newSharedWindow, p.setSharedContextWindow candidate (some shared))
            | none => (some candidate, p.setSharedContextWindow candidate (some candidate))
          else (newSharedWindow, p)
        let p1 := r.2.emit (Event.assertNotShared candidate
          (r.2.sharedContextWindow candidate != some window))
        _cmdDestroyWindow.loop window rest r.1 p1

/-- `Pipe::_cmdDestroyWindow`: `window` is the window `_findWindow` returns for
the `windowID` of the packet and `isStopped` what its `isStopped` returns. -/
def _cmdDestroyWindow (p : Pipe) (windowID : Nat) (window : WinPtr) (isStopped : Bool) :
    Bool × Pipe :=
  let p1 := (_cmdDestroyWindow.loop window p.windows none p).2
  let p2 := p1.emit (Event.unmapObject window)
  let p3 := p2.emit (Event.releaseWindow window)
  (true, p3.emit (Event.sendReply windowID isStopped))

/-- The window shares the context of `window` and is not `window` itself. -/
def Pipe.sharesWith (p : Pipe) (window : WinPtr) (candidate : WinPtr) : Bool :=
  candidate != window && p.sharedContextWindow candidate == some window

/-- The window the loop hands the shared context to: the one it already has,
or else the first window of the list that shares the context of `window`. -/
def sharedTarget (p : Pipe) (window : WinPtr) (l : List WinPtr)
    (newSharedWindow : Option WinPtr) : WinPtr :=
  match newSharedWindow with
  | some shared => shared
  | none => (l.find? (p.sharesWith window)).getD window

/-! Concrete pipes -/

/-- A pipe that has finished frame 6, with the windows 1 to 4: the windows 2
and 4 share the context of the window 1, the window 3 shares its own. -/
def Example.pipe (threadModel : ThreadModel) : Pipe :=
  { threadModel := threadModel, _currentFrame := 6, _finishedFrame := 6, _unlockedFrame := 6,
    windows := [1, 2, 3, 4],
    sharedContextWindow := fun q => if q = 3 then some 3 else some 1,
    trace := [] }

end eq

namespace co


/-! ## Instance identifiers: the loop returns -/

theorem _genNextID.loop_le (fuel : Nat) : ∀ (val : Int) (r : Nat × Int),
    _genNextID.loop fuel val = some r → r.1 ≤ EQ_INSTANCE_MAX := by
  induction fuel with
  | zero => intro val r h; simp [_genNextID.loop] at h
  | succ n ih =>
      intro val r h
      rw [_genNextID.loop] at h
      split at h
      · exact ih _ _ h
      · rename_i hle
        simp only [Option.some.injEq] at h
        subst h
        simpa using hle

theorem _genNextID.loop_isSome (n : Nat) : ∀ (val : Int),
    4294967296 - ((wrapInt32 (val + 1) + 2147483647) % 4294967296).toNat ≤ n →
    ∃ r, _genNextID.loop (n + 1) val = some r := by
  induction n with
  | zero =>
      intro val h
      exfalso
      have : ((wrapInt32 (val + 1) + 2147483647) % 4294967296).toNat < 4294967296 := by
        omega
      omega
  | succ m ih =>
      intro val h
      rw [_genNextID.loop]
      split
      · rename_i hgt
        by_cases hlast : ((wrapInt32 (val + 1) + 2147483647) % 4294967296).toNat = 4294967295
        · refine ⟨(0, wrapInt32 (wrapInt32 (val + 1) + 1)), ?_⟩
          rw [_genNextID.loop]
          have h0 : ((wrapInt32 (wrapInt32 (val + 1) + 1) + 2147483647) % 4294967296).toNat = 0 := by
            unfold wrapInt32 at hlast ⊢
            omega
          rw [h0]
          simp [EQ_INSTANCE_MAX]
        · apply ih
          unfold wrapInt32 at hlast h hgt ⊢
          simp only [EQ_INSTANCE_MAX] at hgt
          omega
      · exact ⟨_, rfl⟩

theorem _genNextID_le (val : Int) : (_genNextID val).1 ≤ EQ_INSTANCE_MAX := by
  unfold _genNextID
  obtain ⟨r, hr⟩ := _genNextID.loop_isSome 4294967296 val (by omega)
  rw [hr]
  exact _genNextID.loop_le _ _ _ hr


/-! ## The primitive steps and the fields they leave alone -/

@[simp] theorem ObjectStore.emit_trace (s : ObjectStore) (e : Event) :
    (s.emit e).trace = s.trace ++ [e] := rfl

@[simp] theorem ObjectStore.emit_heap (s : ObjectStore) (e : Event) :
    (s.emit e).heap = s.heap := rfl

@[simp] theorem ObjectStore.emit_objects (s : ObjectStore) (e : Event) :
    (s.emit e).objects = s.objects := rfl

@[simp] theorem ObjectStore.emit_localNode (s : ObjectStore) (e : Event) :
    (s.emit e).localNode = s.localNode := rfl

@[simp] theorem ObjectStore.emit_requests (s : ObjectStore) (e : Event) :
    (s.emit e).requests = s.requests := rfl

@[simp] theorem ObjectStore.emit_sendQueue (s : ObjectStore) (e : Event) :
    (s.emit e).sendQueue = s.sendQueue := rfl

@[simp] theorem ObjectStore.emit_instanceCache (s : ObjectStore) (e : Event) :
    (s.emit e).instanceCache = s.instanceCache := rfl

@[simp] theorem ObjectStore.emit_instanceIDs (s : ObjectStore) (e : Event) :
    (s.emit e).instanceIDs = s.instanceIDs := rfl

/-! ## `mapObjectSync` -/

/-- C2: `mapObjectSync` returns false at once, leaving the store untouched (so
without waiting), for the sentinel request ID and for a request without data;
for every other request it waits, returns whether the object is attached after
the wait, and the trace gains `applyMapData` with the served version exactly
when it returns true, followed by `notifyAttached`. -/
theorem mapObjectSync_spec (s : ObjectStore) (requestID : Nat)
    (receive : ObjectStore → ObjectStore × Nat) :
    ((requestID = LB_UNDEFINED_UINT32 ∨ s.getRequestData requestID = none) →
        mapObjectSync s requestID receive = (false, s)) ∧
    (∀ object, requestID ≠ LB_UNDEFINED_UINT32 →
        s.getRequestData requestID = some object →
        (mapObjectSync s requestID receive).1
            = (((receive s).1.waitRequest requestID).heap object).isAttached ∧
        (mapObjectSync s requestID receive).2.heap
            = ((receive s).1.waitRequest requestID).heap ∧
        (mapObjectSync s requestID receive).2.trace
            = ((receive s).1.waitRequest requestID).trace
              ++ (if (mapObjectSync s requestID receive).1 = true
                    then [Event.applyMapData object (receive s).2] else [])
              ++ [Event.notifyAttached object] ∧
        (Event.applyMapData object (receive s).2
            ∈ (mapObjectSync s requestID receive).2.trace.drop
                ((receive s).1.waitRequest requestID).trace.length
          ↔ (mapObjectSync s requestID receive).1 = true)) := by
  constructor
  · rintro (h | h)
    · simp [mapObjectSync, h]
    · unfold mapObjectSync
      split
      · rfl
      · simp [h]
  · intro object hne hdata
    have hne' : (requestID == LB_UNDEFINED_UINT32) = false := by simpa using hne
    unfold mapObjectSync
    simp only [hne', hdata, Bool.false_eq_true, if_false]
    cases hm : (((receive s).1.waitRequest requestID).heap object).isAttached <;>
      simp [hm]


/-! ## `_findMasterNodeID` -/

theorem _findMasterNodeID.loop_localNode (identifier : UUID) :
    ∀ (nodes : List Node) (s : ObjectStore),
      s.sameMembers (_findMasterNodeID.loop identifier nodes s).2 := by
  intro nodes
  induction nodes with
  | nil => intro s; simp [_findMasterNodeID.loop, ObjectStore.sameMembers]
  | cons n rest ih =>
      intro s
      rw [_findMasterNodeID.loop]
      dsimp only
      split
      · simp [ObjectStore.sameMembers, ObjectStore.waitRequest, ObjectStore.registerRequest,
          ObjectStore.emit]
      · have h := ih (((s.registerRequest none).2.emit
            (Event.send (Dest.peer n) (Packet.findMasterNodeID
              { requestID := (s.registerRequest none).1, identifier := identifier }))).waitRequest
            (s.registerRequest none).1)
        simpa [ObjectStore.sameMembers, ObjectStore.waitRequest, ObjectStore.registerRequest,
          ObjectStore.emit] using h

theorem _findMasterNodeID.loop_result (identifier : UUID) :
    ∀ (nodes : List Node) (s : ObjectStore),
      (_findMasterNodeID.loop identifier nodes s).1
        = ((nodes.map (fun n => s.localNode.findMasterReply n identifier)).find?
            (fun r => r != UUID.ZERO)).getD UUID.ZERO := by
  intro nodes
  induction nodes with
  | nil => intro s; simp [_findMasterNodeID.loop]
  | cons n rest ih =>
      intro s
      rw [_findMasterNodeID.loop]
      dsimp only
      split
      · rename_i h
        simp [List.find?, h]
      · rename_i h
        rw [ih]
        simp [List.find?, h, ObjectStore.waitRequest, ObjectStore.registerRequest,
          ObjectStore.emit]

theorem _findMasterNodeID.loop_trace (identifier : UUID) :
    ∀ (nodes : List Node) (s : ObjectStore),
      ∃ t, (_findMasterNodeID.loop identifier nodes s).2.trace = s.trace ++ t ∧
        findRequestsSent t
          = nodes.takeWhile (fun n => s.localNode.findMasterReply n identifier == UUID.ZERO)
            ++ (nodes.find? (fun n => s.localNode.findMasterReply n identifier != UUID.ZERO)).toList ∧
        ∀ e ∈ t, e.isMapEffect = false := by
  intro nodes
  induction nodes with
  | nil => intro s; exact ⟨[], by simp [_findMasterNodeID.loop, findRequestsSent]⟩
  | cons n rest ih =>
      intro s
      rw [_findMasterNodeID.loop]
      dsimp only
      split
      · rename_i h
        refine ⟨[Event.registerRequest s.nextRequestID none,
            Event.send (Dest.peer n) (Packet.findMasterNodeID
              { requestID := s.nextRequestID, identifier := identifier }),
            Event.waitRequest s.nextRequestID], ?_, ?_, ?_⟩
        · simp [ObjectStore.waitRequest, ObjectStore.registerRequest, ObjectStore.emit]
        · have hb : (s.localNode.findMasterReply n identifier == UUID.ZERO) = false := by
            simpa using h
          simp [findRequestsSent, Event.findRequestPeer, List.takeWhile, List.find?, h, hb]
        · intro e he
          simp at he
          rcases he with rfl | rfl | rfl <;> rfl
      · rename_i h
        obtain ⟨t, ht, hs, hm⟩ := ih (((s.registerRequest none).2.emit
            (Event.send (Dest.peer n) (Packet.findMasterNodeID
              { requestID := (s.registerRequest none).1, identifier := identifier }))).waitRequest
            (s.registerRequest none).1)
        refine ⟨[Event.registerRequest s.nextRequestID none,
            Event.send (Dest.peer n) (Packet.findMasterNodeID
              { requestID := s.nextRequestID, identifier := identifier }),
            Event.waitRequest s.nextRequestID] ++ t, ?_, ?_, ?_⟩
        · rw [ht]
          simp [ObjectStore.waitRequest, ObjectStore.registerRequest, ObjectStore.emit]
        · have h' : (s.localNode.findMasterReply n identifier == UUID.ZERO) = true := by
            simpa using h
          have h'' : (s.localNode.findMasterReply n identifier != UUID.ZERO) = false := by
            simpa using h
          have hs' := hs
          simp only [ObjectStore.waitRequest, ObjectStore.registerRequest, ObjectStore.emit] at hs'
          simp only [findRequestsSent] at hs' ⊢
          rw [List.filterMap_append, hs']
          simp [Event.findRequestPeer, List.takeWhile, List.find?, h', h'']
        · intro e he
          simp at he
          rcases he with rfl | rfl | rfl | he
          · rfl
          · rfl
          · rfl
          · exact hm e he

/-- C7: `_findMasterNodeID` returns the first answer, in `getNodes` order,
that is not `UUID::ZERO`; the peers it sent `FIND_MASTER_NODE_ID` to are
exactly the peers that answered `UUID::ZERO` before that one followed by that
one, so no peer after it is asked; and it returns `UUID::ZERO` if and only if
there is no peer or every peer answers `UUID::ZERO`. -/
theorem findMasterNodeID_first_answer (s : ObjectStore) (identifier : UUID) :
    (_findMasterNodeID s identifier).1
      = ((s.localNode.nodes.map (fun n => s.localNode.findMasterReply n identifier)).find?
          (fun r => r != UUID.ZERO)).getD UUID.ZERO ∧
    findRequestsSent ((_findMasterNodeID s identifier).2.trace.drop s.trace.length)
      = s.localNode.nodes.takeWhile
          (fun n => s.localNode.findMasterReply n identifier == UUID.ZERO)
        ++ (s.localNode.nodes.find?
          (fun n => s.localNode.findMasterReply n identifier != UUID.ZERO)).toList ∧
    ((_findMasterNodeID s identifier).1 = UUID.ZERO ↔
      (s.localNode.nodes = [] ∨
        ∀ n ∈ s.localNode.nodes, s.localNode.findMasterReply n identifier = UUID.ZERO)) := by
  have hres := _findMasterNodeID.loop_result identifier s.localNode.nodes s
  obtain ⟨t, ht, hs, -⟩ := _findMasterNodeID.loop_trace identifier s.localNode.nodes s
  refine ⟨hres, ?_, ?_⟩
  · unfold _findMasterNodeID
    rw [ht]
    simpa using hs
  · unfold _findMasterNodeID
    rw [hres]
    have key : ∀ nodes : List Node,
        ((nodes.map (fun n => s.localNode.findMasterReply n identifier)).find?
            (fun r => r != UUID.ZERO)).getD UUID.ZERO = UUID.ZERO ↔
          ∀ n ∈ nodes, s.localNode.findMasterReply n identifier = UUID.ZERO := by
      intro nodes
      induction nodes with
      | nil => simp
      | cons n rest ih =>
          by_cases h : s.localNode.findMasterReply n identifier = UUID.ZERO
          · have hb : (s.localNode.findMasterReply n identifier != UUID.ZERO) = false := by
              simpa using h
            simp only [List.map_cons, List.find?, hb, List.mem_cons, forall_eq_or_imp, h,
              true_and]
            exact ih
          · have hb : (s.localNode.findMasterReply n identifier != UUID.ZERO) = true := by
              simpa using h
            simp [List.find?, hb, h]
    rw [key]
    constructor
    · intro h; exact Or.inr h
    · rintro (h | h)
      · simp [h]
      · exact h


/-! ## `_cmdFindMasterNodeID` -/

theorem _cmdFindMasterNodeID.loop_requestID (s : ObjectStore) :
    ∀ (objects : List ObjPtr) (reply : NodeFindMasterNodeIDReplyPacket),
      (_cmdFindMasterNodeID.loop s objects reply).requestID = reply.requestID := by
  intro objects
  induction objects with
  | nil => intro reply; rfl
  | cons o rest ih =>
      intro reply
      rw [_cmdFindMasterNodeID.loop]
      cases hm : (s.heap o).isMaster <;> cases hn : (s.heap o).cm.masterNode <;>
        simp only [Bool.false_eq_true, if_false, if_true] <;> split <;> simp [ih]

/-- The answer of a slave instance: the ID of its master node, when that node
is valid and its ID is not `UUID::ZERO`. -/
theorem _cmdFindMasterNodeID.loop_slaves (s : ObjectStore) :
    ∀ (objects : List ObjPtr) (reply : NodeFindMasterNodeIDReplyPacket),
      reply.masterNodeID = UUID.ZERO →
      (∀ o ∈ objects, (s.heap o).isMaster = false) →
      (_cmdFindMasterNodeID.loop s objects reply).masterNodeID
        = ((objects.filterMap (fun o => (s.heap o).cm.masterNode)).find?
            (fun n => n.nodeID != UUID.ZERO)).elim UUID.ZERO (fun n => n.nodeID) := by
  intro objects
  induction objects with
  | nil => intro reply h _; simpa [_cmdFindMasterNodeID.loop] using h
  | cons o rest ih =>
      intro reply h hs
      have ho : (s.heap o).isMaster = false := hs o (List.mem_cons_self _ _)
      have hrest : ∀ o ∈ rest, (s.heap o).isMaster = false :=
        fun q hq => hs q (List.mem_cons_of_mem _ hq)
      rw [_cmdFindMasterNodeID.loop]
      simp only [ho, Bool.false_eq_true, if_false]
      cases hm : (s.heap o).cm.masterNode with
      | none =>
          have hz : (reply.masterNodeID != UUID.ZERO) = false := by simpa using h
          simp only [hz, Bool.false_eq_true, if_false]
          rw [ih reply h hrest]
          simp [List.filterMap_cons, hm]
      | some master =>
          simp only
          by_cases hn : master.nodeID = UUID.ZERO
          · have hz : (master.nodeID != UUID.ZERO) = false := by simpa using hn
            simp only [hz, Bool.false_eq_true, if_false]
            rw [ih _ hn hrest]
            simp [List.filterMap_cons, hm, List.find?, hz]
          · have hz : (master.nodeID != UUID.ZERO) = true := by simpa using hn
            simp [List.filterMap_cons, hm, List.find?, hz]

/-- C9: `_cmdFindMasterNodeID` leaves the store alone but for one `send`, to
the node the query came from, of a reply with the request ID of the query.
The reply carries `UUID::ZERO` when the id has no attached instance; when no
attached instance is master, it carries the node ID of the master node of the
first slave, in list order, whose master node is valid with an ID other than
`UUID::ZERO` (and `UUID::ZERO` when there is no such slave). -/
theorem cmdFindMasterNodeID_reply (s : ObjectStore)
    (command : Command NodeFindMasterNodeIDPacket) :
    ∃ masterNodeID : NodeID,
      _cmdFindMasterNodeID s command
        = (true, s.emit (Event.send (Dest.peer command.node)
            (Packet.findMasterNodeIDReply
              { requestID := command.packet.requestID, masterNodeID := masterNodeID }))) ∧
      (s.objects.lookup command.packet.identifier = none → masterNodeID = UUID.ZERO) ∧
      (∀ objects, s.objects.lookup command.packet.identifier = some objects →
        (∀ o ∈ objects, (s.heap o).isMaster = false) →
        masterNodeID
          = ((objects.filterMap (fun o => (s.heap o).cm.masterNode)).find?
              (fun n => n.nodeID != UUID.ZERO)).elim UUID.ZERO (fun n => n.nodeID)) := by
  cases hl : s.objects.lookup command.packet.identifier with
  | none =>
      refine ⟨UUID.ZERO, ?_, fun _ => rfl, ?_⟩
      · simp [_cmdFindMasterNodeID, hl, NodeFindMasterNodeIDReplyPacket.ofRequest]
      · intro objects h; cases h
  | some objects =>
      refine ⟨(_cmdFindMasterNodeID.loop s objects
          (NodeFindMasterNodeIDReplyPacket.ofRequest command.packet)).masterNodeID, ?_, ?_, ?_⟩
      · have hr := _cmdFindMasterNodeID.loop_requestID s objects
          (NodeFindMasterNodeIDReplyPacket.ofRequest command.packet)
        simp only [_cmdFindMasterNodeID, hl]
        congr 3
        cases hp : _cmdFindMasterNodeID.loop s objects
            (NodeFindMasterNodeIDReplyPacket.ofRequest command.packet) with
        | mk rid m =>
            rw [hp] at hr
            simp only [NodeFindMasterNodeIDReplyPacket.ofRequest] at hr
            simp [← hr]
      · intro h; cases h
      · intro objects' h hs
        cases h
        exact _cmdFindMasterNodeID.loop_slaves s objects _ rfl hs

/-! ## `dispatchObjectCommand` -/

theorem dispatchObjectCommand.one_first (command : Command ObjectPacket) (instanceID : Nat)
    (s : ObjectStore) (object : ObjPtr) :
    ∀ (objects : List ObjPtr),
      objects.find? (fun o => (s.heap o).instanceID == instanceID) = some object →
      dispatchObjectCommand.one command instanceID objects s
        = (true, s.emit (Event.dispatchCommand object command false)) := by
  intro objects
  induction objects with
  | nil => intro h; simp at h
  | cons o rest ih =>
      intro h
      rw [dispatchObjectCommand.one]
      by_cases ho : (s.heap o).instanceID = instanceID
      · have hb : ((s.heap o).instanceID == instanceID) = true := by simpa using ho
        simp only [List.find?, hb, Option.some.injEq] at h
        subst h
        simp [ho]
      · have hb : ((s.heap o).instanceID == instanceID) = false := by simpa using ho
        simp only [List.find?, hb] at h
        have hb' : (instanceID == (s.heap o).instanceID) = false := by
          simpa using fun h' => ho h'.symm
        simp only [hb', Bool.false_eq_true, if_false]
        exact ih h

/-- C10: for an object command with an instance ID up to `EQ_INSTANCE_MAX`
whose object id has attached instances, `object` being the first of them in
list order with that instance ID, `dispatchObjectCommand` returns true and its
only effect is one `dispatchCommand` of the command itself on `object`. -/
theorem dispatchObjectCommand_instance (s : ObjectStore) (command : Command ObjectPacket)
    (objects : List ObjPtr) (object : ObjPtr)
    (hmax : command.packet.instanceID ≤ EQ_INSTANCE_MAX)
    (hfind : s.objects.lookup command.packet.objectID = some objects)
    (hfirst : objects.find? (fun o => (s.heap o).instanceID == command.packet.instanceID)
      = some object) :
    dispatchObjectCommand s command
      = (true, s.emit (Event.dispatchCommand object command false)) := by
  unfold dispatchObjectCommand
  simp only [hfind, hmax, if_true]
  exact dispatchObjectCommand.one_first command _ s object objects hfirst


/-! ## `mapObjectNB` -/

theorem _findMasterNodeID.loop_requests (identifier : UUID) :
    ∀ (nodes : List Node) (s : ObjectStore),
      (_findMasterNodeID.loop identifier nodes s).2.requests.Sublist s.requests := by
  intro nodes
  induction nodes with
  | nil => intro s; simp [_findMasterNodeID.loop]
  | cons n rest ih =>
      intro s
      have hstep : (((s.registerRequest none).2.emit
            (Event.send (Dest.peer n) (Packet.findMasterNodeID
              { requestID := (s.registerRequest none).1, identifier := identifier }))).waitRequest
            (s.registerRequest none).1).requests.Sublist s.requests := by
        simp only [ObjectStore.waitRequest, ObjectStore.registerRequest, ObjectStore.emit]
        simp only [List.filter_cons, bne_self_eq_false, Bool.false_eq_true, if_false]
        exact (List.filter_sublist _).trans (List.filter_sublist _)
      rw [_findMasterNodeID.loop]
      dsimp only
      split
      · exact hstep
      · exact (ih _).trans hstep

theorem mapObjectNB.toMaster_failure (packet0 : NodeMapObjectPacket) (s : ObjectStore)
    (object : Option ObjPtr) (id : UUID) (version : Nat) (master : Node)
    (h : UUID.isGenerated id = false ∨ object = none ∨
      (∃ p, object = some p ∧ ((s.heap p).isAttached = true ∨ (s.heap p).isMaster = true)) ∨
      master.isConnected = false) :
    mapObjectNB.toMaster packet0 s object id version master = (LB_UNDEFINED_UINT32, s) := by
  unfold mapObjectNB.toMaster
  cases object with
  | none => rfl
  | some obj =>
      simp only
      rcases h with h | h | ⟨p, hp, h⟩ | h
      · simp [h]
      · cases h
      · cases hp
        split
        · rfl
        · rcases h with h | h <;> simp [h]
      · split
        · rfl
        · split
          · rfl
          · simp [h]

theorem _connectMaster_frame (s : ObjectStore) (id : UUID) :
    s.sameMembers (_connectMaster s id).2 ∧
    (_connectMaster s id).2.requests.Sublist s.requests ∧
    ∃ t, (_connectMaster s id).2.trace = s.trace ++ t ∧ ∀ e ∈ t, e.isMapEffect = false := by
  have hm := _findMasterNodeID.loop_localNode id s.localNode.nodes s
  have hr := _findMasterNodeID.loop_requests id s.localNode.nodes s
  obtain ⟨t, ht, -, he⟩ := _findMasterNodeID.loop_trace id s.localNode.nodes s
  have hemit : s.sameMembers ((_findMasterNodeID s id).2.emit
      (Event.connect (_findMasterNodeID s id).1)) ∧
      ((_findMasterNodeID s id).2.emit
        (Event.connect (_findMasterNodeID s id).1)).requests.Sublist s.requests ∧
      ∃ t', ((_findMasterNodeID s id).2.emit
        (Event.connect (_findMasterNodeID s id).1)).trace = s.trace ++ t' ∧
        ∀ e ∈ t', e.isMapEffect = false := by
    refine ⟨hm, hr, t ++ [Event.connect (_findMasterNodeID s id).1], ?_, ?_⟩
    · simp only [ObjectStore.emit_trace, _findMasterNodeID, ht, List.append_assoc]
    · intro e he'
      simp only [List.mem_append, List.mem_singleton] at he'
      rcases he' with he' | rfl
      · exact he e he'
      · rfl
  unfold _connectMaster
  dsimp only
  split
  · exact ⟨hm, hr, t, ht, he⟩
  · split
    · split <;> exact hemit
    · exact hemit

theorem _connectMaster_result (s : ObjectStore) (id : UUID) :
    (_connectMaster s id).1 =
      if (_findMasterNodeID s id).1 = UUID.ZERO then none
      else match s.localNode.connect (_findMasterNodeID s id).1 with
        | some master => if master.isClosed = true then none else some master
        | none => none := by
  have hm := (_findMasterNodeID.loop_localNode id s.localNode.nodes s).1
  unfold _connectMaster
  dsimp only
  by_cases hz : (_findMasterNodeID s id).1 = UUID.ZERO
  · simp [hz]
  · have hb : ((_findMasterNodeID s id).1 == UUID.ZERO) = false := by simpa using hz
    simp only [hb, Bool.false_eq_true, if_false, hz, ObjectStore.emit_localNode]
    have hl : (_findMasterNodeID s id).2.localNode = s.localNode := hm
    rw [hl]
    cases s.localNode.connect (_findMasterNodeID s id).1 with
    | none => rfl
    | some master => cases hcl : master.isClosed <;> simp [hcl]

theorem _findMasterNodeID.loop_waited (identifier : UUID) :
    ∀ (nodes : List Node) (s : ObjectStore),
      ∃ t, (_findMasterNodeID.loop identifier nodes s).2.trace = s.trace ++ t ∧
        requestsRegistered t = requestsWaited t ∧
        (requestsRegistered t).length = (findRequestsSent t).length := by
  intro nodes
  induction nodes with
  | nil =>
      intro s
      exact ⟨[], by simp [_findMasterNodeID.loop], rfl, rfl⟩
  | cons n rest ih =>
      intro s
      rw [_findMasterNodeID.loop]
      dsimp only
      split
      · refine ⟨[Event.registerRequest s.nextRequestID none,
            Event.send (Dest.peer n) (Packet.findMasterNodeID
              { requestID := s.nextRequestID, identifier := identifier }),
            Event.waitRequest s.nextRequestID], ?_, ?_, ?_⟩
        · simp [ObjectStore.waitRequest, ObjectStore.registerRequest, ObjectStore.emit]
        · simp [requestsRegistered, requestsWaited, ObjectStore.registerRequest]
        · simp [requestsRegistered, findRequestsSent, Event.findRequestPeer]
      · obtain ⟨t, ht, hw, hl⟩ := ih (((s.registerRequest none).2.emit
            (Event.send (Dest.peer n) (Packet.findMasterNodeID
              { requestID := (s.registerRequest none).1, identifier := identifier }))).waitRequest
            (s.registerRequest none).1)
        refine ⟨[Event.registerRequest s.nextRequestID none,
            Event.send (Dest.peer n) (Packet.findMasterNodeID
              { requestID := s.nextRequestID, identifier := identifier }),
            Event.waitRequest s.nextRequestID] ++ t, ?_, ?_, ?_⟩
        · rw [ht]
          simp [ObjectStore.waitRequest, ObjectStore.registerRequest, ObjectStore.emit]
        · simp only [requestsRegistered, requestsWaited] at hw ⊢
          rw [List.filterMap_append, List.filterMap_append, hw]
          simp
        · simp only [requestsRegistered, findRequestsSent] at hl ⊢
          rw [List.filterMap_append, List.filterMap_append, List.length_append,
            List.length_append, hl]
          simp [Event.findRequestPeer]

/-- The requests `_connectMaster` registers are those of its lookup: each is
waited for, and there is one per `FIND_MASTER_NODE_ID` packet sent. -/
theorem _connectMaster_waited (s : ObjectStore) (id : UUID) :
    ∃ t, (_connectMaster s id).2.trace = s.trace ++ t ∧
      requestsRegistered t = requestsWaited t ∧
      (requestsRegistered t).length = (findRequestsSent t).length := by
  obtain ⟨t, ht, hw, hl⟩ := _findMasterNodeID.loop_waited id s.localNode.nodes s
  have hemit : ∃ t1, ((_findMasterNodeID s id).2.emit
      (Event.connect (_findMasterNodeID s id).1)).trace = s.trace ++ t1 ∧
      requestsRegistered t1 = requestsWaited t1 ∧
      (requestsRegistered t1).length = (findRequestsSent t1).length := by
    refine ⟨t ++ [Event.connect (_findMasterNodeID s id).1], ?_, ?_, ?_⟩
    · simp only [ObjectStore.emit_trace, _findMasterNodeID, ht, List.append_assoc]
    · simp only [requestsRegistered, requestsWaited] at hw ⊢
      rw [List.filterMap_append, List.filterMap_append, hw]
      simp
    · simp only [requestsRegistered, findRequestsSent] at hl ⊢
      rw [List.filterMap_append, List.filterMap_append, List.length_append,
        List.length_append, hl]
      simp [Event.findRequestPeer]
  unfold _connectMaster
  dsimp only
  split
  · exact ⟨t, ht, hw, hl⟩
  · split
    · split <;> exact hemit
    · exact hemit

/-- C1, as the code has it: `mapObjectNB` fails with the sentinel request ID
without starting a mapping.  With a given master node the store is returned
unchanged, so nothing is registered, when the id is not generated, the object
is null, attached or a master, or the master is not connected.  Without a
master (also when the other overload is called with a null master) the result
is the sentinel when the id is not generated, the object is null, attached or
a master, the lookup yields `UUID::ZERO`, or the node `connect` returns is
null, closed or not connected; the store is then the one the master lookup
`_connectMaster` leaves (the store itself for an id that is not generated):
its members and objects are the same, no request is pending that was not
before, the requests registered are the `FIND_MASTER_NODE_ID` requests of the
lookup, one per peer asked and each waited for, and the events added to the
trace contain no `notifyAttach`, no `MAP_OBJECT` send and no registration of a
request for an object. -/
theorem mapObjectNB_failure (packet0 : NodeMapObjectPacket) (s : ObjectStore)
    (object : Option ObjPtr) (id : UUID) (version : Nat) :
    (∀ master : Node,
      (UUID.isGenerated id = false ∨ object = none ∨
        (∃ p, object = some p ∧ ((s.heap p).isAttached = true ∨ (s.heap p).isMaster = true)) ∨
        master.isConnected = false) →
      mapObjectNBMaster packet0 s object id version (some master)
        = (LB_UNDEFINED_UINT32, s)) ∧
    ((UUID.isGenerated id = false ∨ object = none ∨
        (∃ p, object = some p ∧ ((s.heap p).isAttached = true ∨ (s.heap p).isMaster = true)) ∨
        (_findMasterNodeID s id).1 = UUID.ZERO ∨
        (∀ m, s.localNode.connect (_findMasterNodeID s id).1 = some m →
          m.isClosed = true ∨ m.isConnected = false)) →
      mapObjectNBMaster packet0 s object id version none
        = mapObjectNB packet0 s object id version ∧
      (mapObjectNB packet0 s object id version).1 = LB_UNDEFINED_UINT32 ∧
      s.sameMembers (mapObjectNB packet0 s object id version).2 ∧
      (mapObjectNB packet0 s object id version).2.requests.Sublist s.requests ∧
      (∃ t, (mapObjectNB packet0 s object id version).2.trace = s.trace ++ t ∧
        (∀ e ∈ t, e.isMapEffect = false) ∧
        requestsRegistered t = requestsWaited t ∧
        (requestsRegistered t).length = (findRequestsSent t).length) ∧
      (mapObjectNB packet0 s object id version).2
        = (if UUID.isGenerated id = true then (_connectMaster s id).2 else s)) := by
  constructor
  · intro master h
    exact mapObjectNB.toMaster_failure packet0 s object id version master h
  · intro h
    refine ⟨rfl, ?_⟩
    by_cases hg : UUID.isGenerated id = false
    · have : mapObjectNB packet0 s object id version = (LB_UNDEFINED_UINT32, s) := by
        simp [mapObjectNB, hg]
      rw [this]
      refine ⟨rfl, ⟨rfl, rfl, rfl, rfl, rfl, rfl, rfl⟩, List.Sublist.refl _,
        ⟨[], by simp, by simp, rfl, rfl⟩, ?_⟩
      simp [hg]
    · have hg' : UUID.isGenerated id = true := by simpa using hg
      obtain ⟨hsame, hreq, t, htr, hmap⟩ := _connectMaster_frame s id
      obtain ⟨t1, htr1, hw, hl⟩ := _connectMaster_waited s id
      have ht1 : t1 = t := List.append_cancel_left (htr1.symm.trans htr)
      subst ht1
      have hres := _connectMaster_result s id
      have hstore : mapObjectNB packet0 s object id version
          = (LB_UNDEFINED_UINT32, (_connectMaster s id).2) := by
        unfold mapObjectNB
        simp only [hg', Bool.not_true, Bool.false_eq_true, if_false]
        cases hc : (_connectMaster s id).1 with
        | none => rfl
        | some master =>
            simp only
            apply mapObjectNB.toMaster_failure
            have hheap : (_connectMaster s id).2.heap = s.heap := hsame.2.1
            rw [hheap]
            rcases h with h | h | h | h | h
            · exact Or.inl h
            · exact Or.inr (Or.inl h)
            · exact Or.inr (Or.inr (Or.inl h))
            · rw [hres, if_pos h] at hc
              cases hc
            · rw [hres] at hc
              split at hc
              · cases hc
              · cases hconn : s.localNode.connect (_findMasterNodeID s id).1 with
                | none => rw [hconn] at hc; cases hc
                | some m =>
                    rw [hconn] at hc
                    simp only at hc
                    rcases h m hconn with hcl | hnc
                    · simp [hcl] at hc
                    · split at hc
                      · cases hc
                      · cases hc
                        exact Or.inr (Or.inr (Or.inr hnc))
      rw [hstore]
      refine ⟨rfl, hsame, hreq, ⟨t1, htr1, hmap, hw, hl⟩, ?_⟩
      simp [hg']

/-! ## `registerObject` -/

theorem lookup_pushBack (id : UUID) (object : ObjPtr) :
    ∀ (t : List (UUID × List ObjPtr)),
      (pushBack t id object).lookup id = some ((t.lookup id).getD [] ++ [object]) := by
  intro t
  induction t with
  | nil => simp [pushBack, List.lookup]
  | cons e rest ih =>
      obtain ⟨k, l⟩ := e
      rw [pushBack]
      by_cases hk : k = id
      · subst hk
        simp [List.lookup]
      · have hb : (id == k) = false := by simpa using fun h => hk h.symm
        simp only [hk, if_false, List.lookup, hb]
        exact ih

/-- C3: on the failing input, the handle 1 that `registerObject` has already
attached, a second `registerObject` returns true and the attach list of the
object holds the handle twice. -/
theorem registerObject_duplicate :
    (Example.registered.heap 1).isAttached = true ∧
    Example.registered.objects = [(5, [1])] ∧
    (registerObject Example.registered 1).1 = true ∧
    (registerObject Example.registered 1).2.objects = [(5, [1, 1])] := by
  decide

theorem getRequestData_registerRequest (s : ObjectStore) (data : Option ObjPtr) (e : Event) :
    ((s.registerRequest data).2.emit e).getRequestData (s.registerRequest data).1 = data := by
  cases data <;>
    simp [ObjectStore.getRequestData, ObjectStore.registerRequest, ObjectStore.emit, List.lookup]

theorem _attachObject_generated (s : ObjectStore) (object : ObjPtr) (id : UUID) :
    (_attachObject s object id EQ_INSTANCE_INVALID).heap
        = (fun q => if q = object then (s.heap object).attach id (_genNextID s.instanceIDs).1
            else s.heap q) ∧
    (_attachObject s object id EQ_INSTANCE_INVALID).objects = pushBack s.objects id object :=
  ⟨rfl, rfl⟩

theorem attachObject_generated (s : ObjectStore) (object : ObjPtr) (id : UUID) :
    (attachObject s object id EQ_INSTANCE_INVALID).heap
        = (fun q => if q = object then (s.heap object).attach id (_genNextID s.instanceIDs).1
            else s.heap q) ∧
    (attachObject s object id EQ_INSTANCE_INVALID).objects = pushBack s.objects id object ∧
    (attachObject s object id EQ_INSTANCE_INVALID).localNode = s.localNode := by
  unfold attachObject _cmdAttachObject
  simp only [getRequestData_registerRequest]
  exact ⟨rfl, rfl, rfl⟩

theorem registerObject_fields (s : ObjectStore) (object : ObjPtr) :
    (registerObject s object).2.heap
      = (fun q => if q = object then
            ((s.heap object).setupChangeManager (s.heap object).changeType true
              EQ_INSTANCE_INVALID).attach (s.heap object).id (_genNextID s.instanceIDs).1
          else s.heap q) ∧
    (registerObject s object).2.objects = pushBack s.objects (s.heap object).id object := by
  obtain ⟨hheap, hobjects, -⟩ := attachObject_generated
    ((s.emit (Event.notifyAttach object)).setObject object
      (((s.emit (Event.notifyAttach object)).heap object).setupChangeManager
        ((s.emit (Event.notifyAttach object)).heap object).changeType true EQ_INSTANCE_INVALID))
    object (s.heap object).id
  constructor
  · have h : (registerObject s object).2.heap = (attachObject
        ((s.emit (Event.notifyAttach object)).setObject object
          (((s.emit (Event.notifyAttach object)).heap object).setupChangeManager
            ((s.emit (Event.notifyAttach object)).heap object).changeType true
            EQ_INSTANCE_INVALID))
        object (s.heap object).id EQ_INSTANCE_INVALID).heap := by
      unfold registerObject
      dsimp only
      split <;> rfl
    rw [h, hheap]
    funext q
    by_cases hq : q = object
    · subst hq
      simp [ObjectStore.setObject, ObjectStore.emit]
    · simp [hq, ObjectStore.setObject, ObjectStore.emit]
  · have h : (registerObject s object).2.objects = (attachObject
        ((s.emit (Event.notifyAttach object)).setObject object
          (((s.emit (Event.notifyAttach object)).heap object).setupChangeManager
            ((s.emit (Event.notifyAttach object)).heap object).changeType true
            EQ_INSTANCE_INVALID))
        object (s.heap object).id EQ_INSTANCE_INVALID).objects := by
      unfold registerObject
      dsimp only
      split <;> rfl
    rw [h, hobjects]
    rfl

/-- C4, as the code has it: `registerObject` returns true and leaves the
object a master whose instance ID is the one `_genNextID` generates from the
store's counter; that ID is at most `EQ_INSTANCE_MAX` and so is not the `NONE`
sentinel; the handle is the last entry of the attach list of its id. -/
theorem registerObject_instanceID (s : ObjectStore) (object : ObjPtr) :
    (registerObject s object).1 = true ∧
    ((registerObject s object).2.heap object).instanceID = (_genNextID s.instanceIDs).1 ∧
    ((registerObject s object).2.heap object).instanceID ≤ EQ_INSTANCE_MAX ∧
    ((registerObject s object).2.heap object).instanceID ≠ EQ_INSTANCE_NONE ∧
    ((registerObject s object).2.heap object).isMaster = true ∧
    (registerObject s object).2.objects.lookup (s.heap object).id
      = some ((s.objects.lookup (s.heap object).id).getD [] ++ [object]) := by
  have hle := _genNextID_le s.instanceIDs
  obtain ⟨hheap, hobjects⟩ := registerObject_fields s object
  have hid : ((registerObject s object).2.heap object).instanceID
      = (_genNextID s.instanceIDs).1 := by
    rw [hheap]
    simp [Object.attach]
  refine ⟨rfl, hid, ?_, ?_, ?_, ?_⟩
  · rw [hid]; exact hle
  · rw [hid]
    intro h
    rw [h] at hle
    simp [EQ_INSTANCE_MAX, EQ_INSTANCE_NONE] at hle
  · rw [hheap]
    simp [Object.attach, Object.isMaster, Object.setupChangeManager]
  · rw [hobjects]
    exact lookup_pushBack _ _ _

/-- C4, counterexample: after `registerObject` on a fresh store the instance ID
of the registered object is 1, not `EQ_INSTANCE_NONE`. -/
theorem registerObject_instanceID_not_NONE :
    ((registerObject Example.store 1).2.heap 1).instanceID = 1 ∧
    ((registerObject Example.store 1).2.heap 1).instanceID ≠ EQ_INSTANCE_NONE := by
  decide


/-! ## The lookup of a local master -/

theorem lookup_of_mem (k : UUID) (l : List ObjPtr) :
    ∀ (t : List (UUID × List ObjPtr)), (t.map Prod.fst).Nodup → (k, l) ∈ t →
      t.lookup k = some l := by
  intro t
  induction t with
  | nil => intro _ h; cases h
  | cons e rest ih =>
      intro hnd hmem
      obtain ⟨k0, l0⟩ := e
      simp only [List.map_cons, List.nodup_cons] at hnd
      rcases List.mem_cons.1 hmem with h | h
      · cases h
        simp [List.lookup]
      · have hne : k ≠ k0 := by
          intro hk
          apply hnd.1
          rw [← hk]
          exact List.mem_map_of_mem Prod.fst h
        have hb : (k == k0) = false := by simpa using hne
        simp only [List.lookup, hb]
        exact ih hnd.2 h

theorem mem_of_lookup (k : UUID) (l : List ObjPtr) :
    ∀ (t : List (UUID × List ObjPtr)), t.lookup k = some l → (k, l) ∈ t := by
  intro t
  induction t with
  | nil => intro h; cases h
  | cons e rest ih =>
      obtain ⟨k0, l0⟩ := e
      intro h
      by_cases hk : k = k0
      · subst hk
        simp only [List.lookup, beq_self_eq_true, Option.some.injEq] at h
        subst h
        exact List.mem_cons_self _ _
      · have hb : (k == k0) = false := by simpa using hk
        simp only [List.lookup, hb] at h
        exact List.mem_cons_of_mem _ (ih h)

theorem find?_instanceID (heap : ObjPtr → Object) (p : ObjPtr) :
    ∀ (l : List ObjPtr), p ∈ l →
      (∀ q ∈ l, ∀ q' ∈ l, (heap q).instanceID = (heap q').instanceID → q = q') →
      l.find? (fun o => (heap o).instanceID == (heap p).instanceID) = some p := by
  intro l
  induction l with
  | nil => intro h; cases h
  | cons o rest ih =>
      intro hp hinj
      by_cases ho : (heap o).instanceID = (heap p).instanceID
      · have : o = p := hinj o (List.mem_cons_self _ _) p hp ho
        subst this
        simp [List.find?]
      · have hb : ((heap o).instanceID == (heap p).instanceID) = false := by simpa using ho
        simp only [List.find?, hb]
        rcases List.mem_cons.1 hp with h | h
        · subst h; exact absurd rfl ho
        · exact ih h (fun q hq q' hq' => hinj q (List.mem_cons_of_mem _ hq) q'
            (List.mem_cons_of_mem _ hq'))

theorem _cmdDetachObject.loop_first (objectInstanceID : Nat) (s : ObjectStore) (p : ObjPtr) :
    ∀ (l : List ObjPtr),
      l.find? (fun o => (s.heap o).instanceID == objectInstanceID) = some p →
      _cmdDetachObject.loop objectInstanceID l s = _detachObject s p := by
  intro l
  induction l with
  | nil => intro h; cases h
  | cons o rest ih =>
      intro h
      rw [_cmdDetachObject.loop]
      cases hb : ((s.heap o).instanceID == objectInstanceID) with
      | true =>
          simp only [List.find?, hb, Option.some.injEq] at h
          subst h
          simp
      | false =>
          simp only [List.find?, hb] at h
          simp only [Bool.false_eq_true, if_false]
          exact ih h

theorem _detachObject_frame (s : ObjectStore) (p : ObjPtr) :
    (_detachObject s p).trace = s.trace ∧ (_detachObject s p).sendQueue = s.sendQueue ∧
    (_detachObject s p).instanceCache = s.instanceCache ∧
    (_detachObject s p).localNode = s.localNode := by
  unfold _detachObject
  split <;> exact ⟨rfl, rfl, rfl, rfl⟩

theorem _cmdDetachObject.loop_frame (objectInstanceID : Nat) :
    ∀ (l : List ObjPtr) (s : ObjectStore),
      (_cmdDetachObject.loop objectInstanceID l s).trace = s.trace ∧
      (_cmdDetachObject.loop objectInstanceID l s).sendQueue = s.sendQueue ∧
      (_cmdDetachObject.loop objectInstanceID l s).instanceCache = s.instanceCache ∧
      (_cmdDetachObject.loop objectInstanceID l s).localNode = s.localNode := by
  intro l
  induction l with
  | nil => intro s; exact ⟨rfl, rfl, rfl, rfl⟩
  | cons o rest ih =>
      intro s
      rw [_cmdDetachObject.loop]
      split
      · exact _detachObject_frame s o
      · exact ih s

/-- Whatever the attach table holds, `detachObject` makes the four calls of
the local `DETACH_OBJECT` round trip and leaves the send queue, the instance
cache and the local node alone. -/
theorem detachObject_frame (s : ObjectStore) (p : ObjPtr) :
    (detachObject s p).trace
      = s.trace ++ [Event.registerRequest s.nextRequestID none,
          Event.send Dest.localNode (Packet.detachObject
            { requestID := s.nextRequestID, objectID := (s.heap p).id,
              objectInstanceID := (s.heap p).instanceID }),
          Event.serveRequest s.nextRequestID, Event.waitRequest s.nextRequestID] ∧
    (detachObject s p).sendQueue = s.sendQueue ∧
    (detachObject s p).instanceCache = s.instanceCache ∧
    (detachObject s p).localNode = s.localNode := by
  unfold detachObject _cmdDetachObject
  dsimp only
  split
  · rename_i l _
    obtain ⟨h1, h2, h3, h4⟩ := _cmdDetachObject.loop_frame (s.heap p).instanceID l
      ((s.registerRequest none).2.emit (Event.send Dest.localNode (Packet.detachObject
        ⟨(s.registerRequest none).1, (s.heap p).id, (s.heap p).instanceID⟩)))
    refine ⟨?_, h2, h3, h4⟩
    simp only [ObjectStore.waitRequest, ObjectStore.serveRequest, ObjectStore.emit_trace]
    rw [h1]
    simp [ObjectStore.registerRequest, ObjectStore.emit]
  · refine ⟨?_, rfl, rfl, rfl⟩
    simp [ObjectStore.waitRequest, ObjectStore.serveRequest, ObjectStore.registerRequest,
      ObjectStore.emit]

theorem _cmdDetachObject_listed (s : ObjectStore) (packet : NodeDetachObjectPacket)
    (p : ObjPtr) (l : List ObjPtr)
    (hatt : (s.heap p).isAttached = true)
    (hid : packet.objectID = (s.heap p).id)
    (hlook : s.objects.lookup (s.heap p).id = some l)
    (hfind : l.find? (fun o => (s.heap o).instanceID == packet.objectInstanceID) = some p) :
    (_cmdDetachObject s packet).2.heap
        = (fun q => if q = p then (s.heap p).detach else s.heap q) ∧
    (_cmdDetachObject s packet).2.objects
      = (if (l.erase p).isEmpty then eraseKey s.objects (s.heap p).id
         else setList s.objects (s.heap p).id (l.erase p)) ∧
    (_cmdDetachObject s packet).2.trace = s.trace ++ [Event.serveRequest packet.requestID] ∧
    (_cmdDetachObject s packet).2.sendQueue = s.sendQueue ∧
    (_cmdDetachObject s packet).2.instanceCache = s.instanceCache ∧
    (_cmdDetachObject s packet).2.localNode = s.localNode ∧
    (_cmdDetachObject s packet).2.requests = s.requests := by
  have hloop := _cmdDetachObject.loop_first packet.objectInstanceID s p l hfind
  unfold _cmdDetachObject
  simp only [hid, hlook, hloop]
  unfold _detachObject
  simp only [hatt, Bool.not_true, Bool.false_eq_true, if_false, hlook, Option.getD_some]
  exact ⟨rfl, rfl, rfl, rfl, rfl, rfl, rfl⟩

theorem detachObject_listed (s : ObjectStore) (p : ObjPtr) (l : List ObjPtr)
    (hatt : (s.heap p).isAttached = true)
    (hlook : s.objects.lookup (s.heap p).id = some l)
    (hfind : l.find? (fun o => (s.heap o).instanceID == (s.heap p).instanceID) = some p) :
    (detachObject s p).heap = (fun q => if q = p then (s.heap p).detach else s.heap q) ∧
    (detachObject s p).objects
      = (if (l.erase p).isEmpty then eraseKey s.objects (s.heap p).id
         else setList s.objects (s.heap p).id (l.erase p)) ∧
    (detachObject s p).trace
      = s.trace ++ [Event.registerRequest s.nextRequestID none,
          Event.send Dest.localNode (Packet.detachObject
            { requestID := s.nextRequestID, objectID := (s.heap p).id,
              objectInstanceID := (s.heap p).instanceID }),
          Event.serveRequest s.nextRequestID, Event.waitRequest s.nextRequestID] ∧
    (detachObject s p).sendQueue = s.sendQueue ∧
    (detachObject s p).instanceCache = s.instanceCache ∧
    (detachObject s p).localNode = s.localNode := by
  obtain ⟨h1, h2, h3, h4, h5, h6, -⟩ := _cmdDetachObject_listed
    ((s.registerRequest none).2.emit (Event.send Dest.localNode (Packet.detachObject
      ⟨(s.registerRequest none).1, (s.heap p).id, (s.heap p).instanceID⟩)))
    ⟨(s.registerRequest none).1, (s.heap p).id, (s.heap p).instanceID⟩ p l hatt rfl hlook hfind
  unfold detachObject
  refine ⟨h1, h2, ?_, h4, h5, h6⟩
  show (ObjectStore.waitRequest _ _).trace = _
  simp only [ObjectStore.waitRequest]
  rw [h3]
  simp [ObjectStore.registerRequest, ObjectStore.emit]

theorem mem_setList (id : UUID) (l : List ObjPtr) (e : UUID × List ObjPtr) :
    ∀ (t : List (UUID × List ObjPtr)), e ∈ setList t id l →
      e = (id, l) ∨ (e ∈ t ∧ e.1 ≠ id) ∨ (e ∈ t ∧ ¬ (t.map Prod.fst).Nodup) := by
  intro t
  induction t with
  | nil => intro h; simp [setList] at h
  | cons e0 rest ih =>
      obtain ⟨k0, l0⟩ := e0
      intro h
      rw [setList] at h
      by_cases hk : k0 = id
      · simp only [hk, if_true] at h
        rcases List.mem_cons.1 h with h | h
        · exact Or.inl h
        · by_cases he : e.1 = id
          · refine Or.inr (Or.inr ⟨List.mem_cons_of_mem _ h, ?_⟩)
            intro hnd
            simp only [List.map_cons, List.nodup_cons] at hnd
            apply hnd.1
            rw [hk, ← he]
            exact List.mem_map_of_mem Prod.fst h
          · exact Or.inr (Or.inl ⟨List.mem_cons_of_mem _ h, he⟩)
      · simp only [hk, if_false] at h
        rcases List.mem_cons.1 h with h | h
        · refine Or.inr (Or.inl ⟨?_, ?_⟩)
          · rw [h]; exact List.mem_cons_self _ _
          · rw [h]; exact hk
        · rcases ih h with h1 | ⟨h2, h3⟩ | ⟨h2, h3⟩
          · exact Or.inl h1
          · exact Or.inr (Or.inl ⟨List.mem_cons_of_mem _ h2, h3⟩)
          · refine Or.inr (Or.inr ⟨List.mem_cons_of_mem _ h2, ?_⟩)
            intro hnd
            simp only [List.map_cons, List.nodup_cons] at hnd
            exact h3 hnd.2

/-- After the handle is erased from the list of its id in a well-formed table,
the table does not list it any more. -/
theorem not_listed_after_erase (s s' : ObjectStore) (p : ObjPtr) (l : List ObjPtr)
    (hwf : s.wellFormed) (hlook : s.objects.lookup (s.heap p).id = some l)
    (hobjects : s'.objects
      = (if (l.erase p).isEmpty then eraseKey s.objects (s.heap p).id
         else setList s.objects (s.heap p).id (l.erase p))) :
    ¬ s'.listed p := by
  obtain ⟨hkeys, hentries⟩ := hwf
  have hmem : ((s.heap p).id, l) ∈ s.objects := mem_of_lookup _ _ _ hlook
  have hnd : l.Nodup := (hentries _ hmem).1
  have hnot : p ∉ l.erase p := fun h => (List.Nodup.mem_erase_iff hnd).1 h |>.1 rfl
  rintro ⟨e, he, hpe⟩
  rw [hobjects] at he
  have hold : ∀ e' ∈ s.objects, p ∈ e'.2 → e'.1 = (s.heap p).id :=
    fun e' he' hp' => ((hentries e' he').2.1 p hp').symm
  split at he
  · simp only [eraseKey, List.mem_filter, bne_iff_ne, ne_eq] at he
    exact he.2 (hold e he.1 hpe)
  · rcases mem_setList _ _ _ _ he with h | ⟨h1, h2⟩ | ⟨_, h2⟩
    · rw [h] at hpe
      exact hnot hpe
    · exact h2 (hold e h1 hpe)
    · exact h2 hkeys


/-! ## `deregisterObject` -/

theorem _cmdDeregisterObject.loop_eraseP (object : ObjPtr) :
    ∀ (q : List SendQueueItem),
      _cmdDeregisterObject.loop (some object) q = q.eraseP (fun i => i.object == object) := by
  intro q
  induction q with
  | nil => rfl
  | cons i rest ih =>
      rw [_cmdDeregisterObject.loop, List.eraseP_cons]
      by_cases h : i.object = object
      · simp [h]
      · have hb : (i.object == object) = false := by simpa using h
        have hb' : (some i.object == some object) = false := by
          simpa using h
        simp only [hb, hb', Bool.false_eq_true, if_false, cond_false]
        rw [ih]

theorem eraseP_eq_filter_of_length_le_one (object : ObjPtr) :
    ∀ (q : List SendQueueItem),
      (q.filter (fun i => i.object == object)).length ≤ 1 →
      q.eraseP (fun i => i.object == object) = q.filter (fun i => i.object != object) := by
  intro q
  induction q with
  | nil => intro _; rfl
  | cons i rest ih =>
      intro h
      rw [List.eraseP_cons]
      cases hb : (i.object == object) with
      | true =>
          have hb' : (i.object != object) = false := by simp [bne, hb]
          simp only [List.filter_cons, hb, if_true, List.length_cons] at h
          have hnil : rest.filter (fun i => i.object == object) = [] :=
            List.eq_nil_of_length_eq_zero (by omega)
          simp only [cond_true, List.filter_cons, hb', Bool.false_eq_true, if_false]
          symm
          rw [List.filter_eq_self]
          intro a ha
          have : a ∉ rest.filter (fun i => i.object == object) := by
            rw [hnil]; exact List.not_mem_nil _
          simp only [List.mem_filter, not_and] at this
          have := this ha
          simpa [bne] using this
      | false =>
          have hb' : (i.object != object) = true := by simp [bne, hb]
          simp only [List.filter_cons, hb, Bool.false_eq_true, if_false] at h
          simp only [cond_false, List.filter_cons, hb', if_true]
          rw [ih h]

theorem deregisterObject_attached (s : ObjectStore) (object : ObjPtr)
    (hatt : (s.heap object).isAttached = true) :
    ∃ s2 : ObjectStore, s2.heap = s.heap ∧ s2.objects = s.objects ∧
      s2.localNode = s.localNode ∧ s2.instanceCache = s.instanceCache ∧
      s2.sendQueue = (if 0 < s.localNode.sendQueueSize then
          s.sendQueue.eraseP (fun i => i.object == object) else s.sendQueue) ∧
      (deregisterObject s object).heap
        = (fun q => if q = object then
              ((detachObject s2 object).heap object).setupChangeManager ChangeType.NONE true
                EQ_INSTANCE_INVALID
            else (detachObject s2 object).heap q) ∧
      (deregisterObject s object).objects = (detachObject s2 object).objects ∧
      (deregisterObject s object).sendQueue = (detachObject s2 object).sendQueue ∧
      (deregisterObject s object).instanceCache
        = (detachObject s2 object).instanceCache.map (fun c => c.erase (s.heap object).id) := by
  refine ⟨if (s.emit (Event.notifyDetach object)).localNode.sendQueueSize > 0 then
      ((_cmdDeregisterObject
        (((s.emit (Event.notifyDetach object)).registerRequest (some object)).2.emit
          (Event.send Dest.localNode (Packet.deregisterObject
            ⟨((s.emit (Event.notifyDetach object)).registerRequest (some object)).1⟩)))
        ⟨((s.emit (Event.notifyDetach object)).registerRequest (some object)).1⟩).2).waitRequest
        ((s.emit (Event.notifyDetach object)).registerRequest (some object)).1
      else s.emit (Event.notifyDetach object), ?_, ?_, ?_, ?_, ?_, ?_⟩
  · split <;> rfl
  · split <;> rfl
  · split <;> rfl
  · split <;> rfl
  · show _ = if 0 < s.localNode.sendQueueSize then _ else _
    by_cases hq : 0 < s.localNode.sendQueueSize
    · have hq' : (s.emit (Event.notifyDetach object)).localNode.sendQueueSize > 0 := hq
      rw [if_pos hq, if_pos hq']
      unfold _cmdDeregisterObject
      simp only [getRequestData_registerRequest]
      rw [← _cmdDeregisterObject.loop_eraseP]
      rfl
    · have hq' : ¬ (s.emit (Event.notifyDetach object)).localNode.sendQueueSize > 0 := hq
      rw [if_neg hq, if_neg hq']
      rfl
  · unfold deregisterObject
    simp only [hatt, Bool.not_true, Bool.false_eq_true, if_false]
    have hheap : ∀ x : ObjectStore, x.heap = s.heap → (x.heap object).id = (s.heap object).id :=
      fun x hx => by rw [hx]
    generalize hs2 : (if (s.emit (Event.notifyDetach object)).localNode.sendQueueSize > 0 then
      ((_cmdDeregisterObject
        (((s.emit (Event.notifyDetach object)).registerRequest (some object)).2.emit
          (Event.send Dest.localNode (Packet.deregisterObject
            ⟨((s.emit (Event.notifyDetach object)).registerRequest (some object)).1⟩)))
        ⟨((s.emit (Event.notifyDetach object)).registerRequest (some object)).1⟩).2).waitRequest
        ((s.emit (Event.notifyDetach object)).registerRequest (some object)).1
      else s.emit (Event.notifyDetach object)) = s2
    have hs2heap : s2.heap = s.heap := by rw [← hs2]; split <;> rfl
    rw [hs2heap]
    cases hc : (detachObject s2 object).instanceCache with
    | none =>
        have hc' : ((detachObject s2 object).setObject object
          (((detachObject s2 object).heap object).setupChangeManager ChangeType.NONE true
            EQ_INSTANCE_INVALID)).instanceCache = none := hc
        simp only [hc']
        exact ⟨rfl, rfl, rfl, by simp [ObjectStore.emit, ObjectStore.setObject, hc]⟩
    | some c =>
        have hc' : ((detachObject s2 object).setObject object
          (((detachObject s2 object).heap object).setupChangeManager ChangeType.NONE true
            EQ_INSTANCE_INVALID)).instanceCache = some c := hc
        simp only [hc']
        exact ⟨rfl, rfl, rfl, by simp [ObjectStore.emit]⟩


theorem InstanceCache.find_erase (c : InstanceCache) (id : UUID) :
    (c.erase id).find id = none := by
  unfold InstanceCache.erase InstanceCache.find
  simp only
  induction c.items with
  | nil => rfl
  | cons e rest ih =>
      rw [List.filter_cons]
      by_cases h : e.1 = id
      · simp only [h, bne_self_eq_false, Bool.false_eq_true, if_false]
        exact ih
      · have hb : (e.1 != id) = true := by simpa using h
        have hb' : (id == e.1) = false := by simpa using fun h' => h h'.symm
        simp only [hb, if_true]
        obtain ⟨k, v⟩ := e
        simp only [List.lookup]
        simp only at hb'
        rw [hb']
        exact ih

theorem wellFormed_listed (s : ObjectStore) (p : ObjPtr)
    (hwf : s.wellFormed) (hl : s.listed p) :
    ∃ l, s.objects.lookup (s.heap p).id = some l ∧
      l.find? (fun o => (s.heap o).instanceID == (s.heap p).instanceID) = some p := by
  obtain ⟨e, he, hpe⟩ := hl
  obtain ⟨k, l⟩ := e
  have hk : (s.heap p).id = k := (hwf.2 _ he).2.1 p hpe
  refine ⟨l, ?_, ?_⟩
  · rw [hk]
    exact lookup_of_mem k l s.objects hwf.1 he
  · exact find?_instanceID s.heap p l hpe (hwf.2 _ he).2.2

/-- What `deregisterObject` does to each member of the store: for an object
that is not attached, nothing.  For an attached object: with
`NODE_SEND_QUEUE_SIZE > 0` the first send-queue item of the object is erased,
so that the queue holds no item for it, the others in their order, when it
held at most one; with `NODE_SEND_QUEUE_SIZE <= 0` the send queue is left as
it is; its change manager is the master change manager of type `NONE`; an
enabled cache holds no entry for the id; and when the object is listed in a
well-formed attach table, it is no longer listed and is detached. -/
theorem deregisterObject_effects (s : ObjectStore) (object : ObjPtr) :
    ((s.heap object).isAttached = false → deregisterObject s object = s) ∧
    ((s.heap object).isAttached = true →
      (0 < s.localNode.sendQueueSize →
        (deregisterObject s object).sendQueue
            = s.sendQueue.eraseP (fun i => i.object == object) ∧
        ((s.sendQueue.filter (fun i => i.object == object)).length ≤ 1 →
          (deregisterObject s object).sendQueue
            = s.sendQueue.filter (fun i => i.object != object))) ∧
      (s.localNode.sendQueueSize ≤ 0 →
        (deregisterObject s object).sendQueue = s.sendQueue) ∧
      ((deregisterObject s object).heap object).cm
        = { type := ChangeType.NONE, isMaster := true,
            masterInstanceID := EQ_INSTANCE_INVALID, masterNode := none } ∧
      (∀ c, (deregisterObject s object).instanceCache = some c →
        c.find (s.heap object).id = none) ∧
      (s.wellFormed → s.listed object →
        ¬ (deregisterObject s object).listed object ∧
        ((deregisterObject s object).heap object).isAttached = false)) := by
  constructor
  · intro h
    simp [deregisterObject, h]
  · intro hatt
    obtain ⟨s2, h2heap, h2objects, h2ln, h2cache, h2queue, hheap, hobjects, hqueue, hcache⟩ :=
      deregisterObject_attached s object hatt
    obtain ⟨-, f2, f3, -⟩ := detachObject_frame s2 object
    have hq : (deregisterObject s object).sendQueue = (if 0 < s.localNode.sendQueueSize then
        s.sendQueue.eraseP (fun i => i.object == object) else s.sendQueue) := by
      rw [hqueue, f2, h2queue]
    refine ⟨?_, ?_, ?_, ?_, ?_⟩
    · intro hpos
      rw [hq, if_pos hpos]
      exact ⟨rfl, eraseP_eq_filter_of_length_le_one object s.sendQueue⟩
    · intro hle
      rw [hq, if_neg (by omega)]
    · rw [hheap]
      simp [Object.setupChangeManager]
    · intro c hc
      rw [hcache, f3, h2cache] at hc
      cases hsc : s.instanceCache with
      | none => rw [hsc] at hc; cases hc
      | some c0 =>
          rw [hsc] at hc
          simp only [Option.map_some', Option.some.injEq] at hc
          rw [← hc]
          exact InstanceCache.find_erase c0 _
    · intro hwf hl
      obtain ⟨l, hlook, hfind⟩ := wellFormed_listed s object hwf hl
      have hatt2 : (s2.heap object).isAttached = true := by rw [h2heap]; exact hatt
      have hlook2 : s2.objects.lookup (s2.heap object).id = some l := by
        rw [h2heap, h2objects]; exact hlook
      have hfind2 : l.find? (fun o => (s2.heap o).instanceID == (s2.heap object).instanceID)
          = some object := by rw [h2heap]; exact hfind
      obtain ⟨d1, d2, -⟩ := detachObject_listed s2 object l hatt2 hlook2 hfind2
      constructor
      · apply not_listed_after_erase s (deregisterObject s object) object l hwf hlook
        rw [hobjects, d2, h2heap, h2objects]
      · rw [hheap]
        simp [d1, Object.isAttached, Object.setupChangeManager, Object.detach]

theorem attachObject_queue (s : ObjectStore) (object : ObjPtr) (id : UUID) :
    (attachObject s object id EQ_INSTANCE_INVALID).sendQueue = s.sendQueue ∧
    (attachObject s object id EQ_INSTANCE_INVALID).sendOnRegister = s.sendOnRegister := by
  unfold attachObject _cmdAttachObject
  simp only [getRequestData_registerRequest]
  exact ⟨rfl, rfl⟩

theorem registerObject_queue (s : ObjectStore) (object : ObjPtr) :
    (registerObject s object).2.sendQueue = s.sendQueue ∧
    (registerObject s object).2.sendOnRegister = s.sendOnRegister ∧
    (registerObject s object).2.localNode = s.localNode := by
  obtain ⟨hq, hs⟩ := attachObject_queue
    ((s.emit (Event.notifyAttach object)).setObject object
      (((s.emit (Event.notifyAttach object)).heap object).setupChangeManager
        ((s.emit (Event.notifyAttach object)).heap object).changeType true EQ_INSTANCE_INVALID))
    object (s.heap object).id
  obtain ⟨-, -, hl⟩ := attachObject_generated
    ((s.emit (Event.notifyAttach object)).setObject object
      (((s.emit (Event.notifyAttach object)).heap object).setupChangeManager
        ((s.emit (Event.notifyAttach object)).heap object).changeType true EQ_INSTANCE_INVALID))
    object (s.heap object).id
  refine ⟨?_, ?_, ?_⟩
  · have h : (registerObject s object).2.sendQueue = (attachObject
        ((s.emit (Event.notifyAttach object)).setObject object
          (((s.emit (Event.notifyAttach object)).heap object).setupChangeManager
            ((s.emit (Event.notifyAttach object)).heap object).changeType true
            EQ_INSTANCE_INVALID))
        object (s.heap object).id EQ_INSTANCE_INVALID).sendQueue := by
      unfold registerObject
      dsimp only
      split <;> rfl
    rw [h, hq]
    rfl
  · have h : (registerObject s object).2.sendOnRegister = (attachObject
        ((s.emit (Event.notifyAttach object)).setObject object
          (((s.emit (Event.notifyAttach object)).heap object).setupChangeManager
            ((s.emit (Event.notifyAttach object)).heap object).changeType true
            EQ_INSTANCE_INVALID))
        object (s.heap object).id EQ_INSTANCE_INVALID).sendOnRegister := by
      unfold registerObject
      dsimp only
      split <;> rfl
    rw [h, hs]
    rfl
  · have h : (registerObject s object).2.localNode = (attachObject
        ((s.emit (Event.notifyAttach object)).setObject object
          (((s.emit (Event.notifyAttach object)).heap object).setupChangeManager
            ((s.emit (Event.notifyAttach object)).heap object).changeType true
            EQ_INSTANCE_INVALID))
        object (s.heap object).id EQ_INSTANCE_INVALID).localNode := by
      unfold registerObject
      dsimp only
      split <;> rfl
    rw [h, hl]
    rfl

theorem _cmdRegisterObject.loop_drop (size : Nat) :
    ∀ (l : List SendQueueItem),
      _cmdRegisterObject.loop size l = l.drop (l.length - size) := by
  intro l
  induction l with
  | nil => simp [_cmdRegisterObject.loop]
  | cons i rest ih =>
      rw [_cmdRegisterObject.loop]
      split
      · rename_i h
        rw [ih]
        simp only [List.length_cons] at h ⊢
        have : rest.length + 1 - size = (rest.length - size) + 1 := by omega
        rw [this, List.drop_succ_cons]
      · rename_i h
        simp only [List.length_cons] at h ⊢
        have : rest.length + 1 - size = 0 := by omega
        rw [this, List.drop_zero]

/-- A store with an empty send queue, as the constructor leaves it, satisfies
the queue invariant. -/
theorem queueInvariant_of_empty (s : ObjectStore) (h : s.sendQueue = []) :
    s.queueInvariant :=
  ⟨by rw [h]; exact List.nodup_nil, fun _ => h⟩

/-- The queue invariant is kept by the registration of an object that is not
queued: `registerObject` leaves the queue alone, and the command thread then
appends the object and drops items from the front. -/
theorem registerAndQueue_queueInvariant (s : ObjectStore) (object : ObjPtr)
    (h : s.queueInvariant) (hnew : ∀ i ∈ s.sendQueue, i.object ≠ object) :
    (registerAndQueue s object).queueInvariant := by
  obtain ⟨hq, hs, hl⟩ := registerObject_queue s object
  unfold registerAndQueue
  dsimp only
  rw [hl]
  by_cases hsize : s.localNode.sendQueueSize > 0
  · rw [if_pos hsize]
    unfold _cmdRegisterObject
    by_cases hon : (registerObject s object).2.sendOnRegister ≤ 0
    · rw [if_pos hon]
      exact ⟨by rw [show (true, (registerObject s object).2).2.sendQueue = s.sendQueue from hq]
                exact h.1,
        fun hle => absurd hsize (by rw [show (true, (registerObject s object).2).2.localNode
          = s.localNode from hl] at hle; omega)⟩
    · rw [if_neg hon]
      refine ⟨?_, ?_⟩
      · show ((_cmdRegisterObject.loop _ ((registerObject s object).2.sendQueue ++ [_])).map
          (fun i => i.object)).Nodup
        rw [_cmdRegisterObject.loop_drop, hq]
        apply List.Nodup.sublist
          (List.Sublist.map _ (List.drop_sublist _ _))
        rw [List.map_append, List.map_cons, List.map_nil]
        apply List.Nodup.append h.1 (List.nodup_singleton _)
        intro x hx hx1
        rw [List.mem_singleton] at hx1
        obtain ⟨i, hi, hio⟩ := List.mem_map.1 hx
        exact hnew i hi (hio.trans hx1)
      · intro hle
        have : (registerObject s object).2.localNode.sendQueueSize ≤ 0 := hle
        rw [hl] at this
        omega
  · rw [if_neg hsize]
    exact ⟨by rw [hq]; exact h.1, fun _ => by rw [hq]; exact h.2 (by omega)⟩

theorem deregisterObject_localNode (s : ObjectStore) (object : ObjPtr) :
    (deregisterObject s object).localNode = s.localNode := by
  cases hatt : (s.heap object).isAttached with
  | false => simp [deregisterObject, hatt]
  | true =>
      unfold deregisterObject
      simp only [hatt, Bool.not_true, Bool.false_eq_true, if_false]
      generalize hs2 : (if (s.emit (Event.notifyDetach object)).localNode.sendQueueSize > 0 then
        ((_cmdDeregisterObject
          (((s.emit (Event.notifyDetach object)).registerRequest (some object)).2.emit
            (Event.send Dest.localNode (Packet.deregisterObject
              ⟨((s.emit (Event.notifyDetach object)).registerRequest (some object)).1⟩)))
          ⟨((s.emit (Event.notifyDetach object)).registerRequest (some object)).1⟩).2).waitRequest
          ((s.emit (Event.notifyDetach object)).registerRequest (some object)).1
        else s.emit (Event.notifyDetach object)) = s2
      have hs2ln : s2.localNode = s.localNode := by rw [← hs2]; split <;> rfl
      have hd : (detachObject s2 object).localNode = s2.localNode :=
        (detachObject_frame s2 object).2.2.2
      cases hc : (detachObject s2 object).instanceCache with
      | none =>
          have hc' : ((detachObject s2 object).setObject object
            (((detachObject s2 object).heap object).setupChangeManager ChangeType.NONE true
              EQ_INSTANCE_INVALID)).instanceCache = none := hc
          simp only [hc']
          exact hd.trans hs2ln
      | some c =>
          have hc' : ((detachObject s2 object).setObject object
            (((detachObject s2 object).heap object).setupChangeManager ChangeType.NONE true
              EQ_INSTANCE_INVALID)).instanceCache = some c := hc
          simp only [hc']
          exact hd.trans hs2ln

/-- The queue invariant is kept by `deregisterObject`, which only erases from
the queue. -/
theorem deregisterObject_queueInvariant (s : ObjectStore) (object : ObjPtr)
    (h : s.queueInvariant) : (deregisterObject s object).queueInvariant := by
  cases hatt : (s.heap object).isAttached with
  | false =>
      rw [(deregisterObject_effects s object).1 hatt]
      exact h
  | true =>
      obtain ⟨hpos, hneg, -⟩ := (deregisterObject_effects s object).2 hatt
      refine ⟨?_, ?_⟩
      · by_cases hsize : 0 < s.localNode.sendQueueSize
        · rw [(hpos hsize).1]
          exact List.Nodup.sublist (List.Sublist.map _ (List.eraseP_sublist _)) h.1
        · rw [hneg (by omega)]
          exact h.1
      · intro hle
        rw [deregisterObject_localNode] at hle
        rw [hneg hle]
        exact h.2 hle

/-- The queue invariant is kept by `notifyCommandThreadIdle`, which only drops
the front item. -/
theorem notifyCommandThreadIdle_queueInvariant (s : ObjectStore) (nodes : List Node)
    (h : s.queueInvariant) : (notifyCommandThreadIdle s nodes).2.queueInvariant := by
  unfold notifyCommandThreadIdle
  cases hq : s.sendQueue with
  | nil => exact h
  | cons item rest =>
      have hrest : (rest.map (fun i => i.object)).Nodup := by
        have h1 := h.1
        rw [hq, List.map_cons, List.nodup_cons] at h1
        exact h1.2
      have hpos : ¬ s.localNode.sendQueueSize ≤ 0 := by
        intro hle
        have := h.2 hle
        rw [hq] at this
        cases this
      dsimp only
      split
      · split
        · exact ⟨h.1, fun hle => absurd hle hpos⟩
        · exact ⟨hrest, fun hle => absurd hle hpos⟩
      · exact ⟨hrest, fun hle => absurd hle hpos⟩

/-- C6: for an object that is not attached `unmapObject` returns the store as
it is, so not even `notifyDetach` is called.  For an attached object whose
master instance ID is `EQ_INSTANCE_INVALID` or whose master node is null or
not connected, the calls `unmapObject` makes are `notifyDetach`, the request,
the send and the wait of the local `DETACH_OBJECT`, and `notifyDetached`: no
`UNSUBSCRIBE_OBJECT` is sent and no request is registered for one; its change
manager becomes the slave change manager of type `NONE` with master instance
ID `EQ_INSTANCE_INVALID`; and when the object is listed in a well-formed
attach table, it is no longer listed and is detached. -/
theorem unmapObject_unreachable_master (s : ObjectStore) (object : ObjPtr)
    (receive : ObjectStore → ObjectStore) :
    ((s.heap object).isAttached = false → unmapObject s object receive = s) ∧
    ((s.heap object).isAttached = true →
      ((s.heap object).cm.masterInstanceID = EQ_INSTANCE_INVALID ∨
        ∀ master, (s.heap object).cm.masterNode = some master →
          master.isConnected = false) →
      (unmapObject s object receive).trace
        = s.trace ++ [Event.notifyDetach object,
            Event.registerRequest s.nextRequestID none,
            Event.send Dest.localNode (Packet.detachObject
              { requestID := s.nextRequestID, objectID := (s.heap object).id,
                objectInstanceID := (s.heap object).instanceID }),
            Event.serveRequest s.nextRequestID, Event.waitRequest s.nextRequestID,
            Event.notifyDetached object] ∧
      ((unmapObject s object receive).heap object).cm
        = { type := ChangeType.NONE, isMaster := false,
            masterInstanceID := EQ_INSTANCE_INVALID, masterNode := none } ∧
      (s.wellFormed → s.listed object →
        ¬ (unmapObject s object receive).listed object ∧
        ((unmapObject s object receive).heap object).isAttached = false)) := by
  constructor
  · intro h
    simp [unmapObject, h]
  · intro hatt hmaster
    obtain ⟨f1, -⟩ := detachObject_frame (s.emit (Event.notifyDetach object)) object
    have hdirect : unmapObject s object receive
        = unmapObject.direct (s.emit (Event.notifyDetach object)) object := by
      unfold unmapObject
      simp only [hatt, Bool.not_true, Bool.false_eq_true, if_false, ObjectStore.emit_heap]
      rcases hmaster with h | h
      · simp [h]
      · split
        · cases hm : (s.heap object).cm.masterNode with
          | none => rfl
          | some master => simp [h master hm]
        · rfl
    rw [hdirect]
    unfold unmapObject.direct
    refine ⟨?_, ?_, ?_⟩
    · simp only [ObjectStore.emit_trace, ObjectStore.setObject]
      rw [f1]
      simp [ObjectStore.emit]
    · simp [ObjectStore.setObject, Object.setupChangeManager]
    · intro hwf hl
      obtain ⟨l, hlook, hfind⟩ := wellFormed_listed s object hwf hl
      obtain ⟨d1, d2, -⟩ := detachObject_listed (s.emit (Event.notifyDetach object))
        object l hatt hlook hfind
      constructor
      · apply not_listed_after_erase s _ object l hwf hlook
        exact d2
      · simp [ObjectStore.setObject, Object.isAttached, Object.setupChangeManager, d1,
          Object.detach]

theorem Example.orphan_wellFormed : Example.orphan.wellFormed := by
  unfold ObjectStore.wellFormed
  decide

/-- C6, witness: in `Example.orphan` the slave 2 is attached and its master
node is not connected; `unmapObject` sends no `UNSUBSCRIBE_OBJECT` and leaves
the slave detached and unlisted; the detached handle 1 is left alone. -/
theorem unmapObject_unreachable_master_witness :
    (Example.orphan.heap 2).isAttached = true ∧
    Example.orphan.wellFormed ∧ Example.orphan.listed 2 ∧
    (∀ master, (Example.orphan.heap 2).cm.masterNode = some master →
      master.isConnected = false) ∧
    (unmapObject Example.orphan 2 id).trace
      = [Event.notifyDetach 2, Event.registerRequest 1 none,
          Event.send Dest.localNode (Packet.detachObject
            { requestID := 1, objectID := 5, objectInstanceID := 2 }),
          Event.serveRequest 1, Event.waitRequest 1, Event.notifyDetached 2] ∧
    ¬ (unmapObject Example.orphan 2 id).listed 2 ∧
    ((unmapObject Example.orphan 2 id).heap 2).isAttached = false ∧
    unmapObject Example.orphan 1 id = Example.orphan :=
  have hl : Example.orphan.listed 2 := ⟨(5, [2]), by decide, by decide⟩
  have hm : ∀ master, (Example.orphan.heap 2).cm.masterNode = some master →
      master.isConnected = false := by
    intro master h
    have : master = { Example.peer with isConnected := false } := by
      have h' : some { Example.peer with isConnected := false } = some master := h
      exact (Option.some.inj h').symm
    rw [this]
  have h := (unmapObject_unreachable_master Example.orphan 2 id).2 (by decide) (Or.inr hm)
  have hw := h.2.2 Example.orphan_wellFormed hl
  ⟨by decide, Example.orphan_wellFormed, hl, hm, h.1, hw.1, hw.2,
    (unmapObject_unreachable_master Example.orphan 1 id).1 (by decide)⟩


/-! ## Instances of the theorems on the concrete stores -/

/-- C1, witness: mapping the attached handle 1 to a given connected master
fails and returns the store unchanged; on `Example.alone`, where no node knows
the id 5, mapping the detached handle 1 without a master fails with the
sentinel and leaves the store of the master lookup. -/
theorem mapObjectNB_failure_witness :
    (Example.registered.heap 1).isAttached = true ∧
    mapObjectNBMaster Example.packet0 Example.registered (some 1) 5 0 (some Example.peer)
      = (LB_UNDEFINED_UINT32, Example.registered) ∧
    (_findMasterNodeID Example.alone 5).1 = UUID.ZERO ∧
    (mapObjectNB Example.packet0 Example.alone (some 1) 5 0).1 = LB_UNDEFINED_UINT32 ∧
    Example.alone.sameMembers (mapObjectNB Example.packet0 Example.alone (some 1) 5 0).2 ∧
    (mapObjectNB Example.packet0 Example.alone (some 1) 5 0).2
      = (_connectMaster Example.alone 5).2 :=
  have h := (mapObjectNB_failure Example.packet0 Example.alone (some 1) 5 0).2
    (Or.inr (Or.inr (Or.inr (Or.inl (by decide)))))
  ⟨by decide,
    (mapObjectNB_failure Example.packet0 Example.registered (some 1) 5 0).1 Example.peer
      (Or.inr (Or.inr (Or.inl ⟨1, rfl, Or.inl (by decide)⟩))),
    by decide, h.2.1, h.2.2.1, h.2.2.2.2.2⟩

/-- C1, counterexample: on the fresh store `Example.alone`, whose node list is
the local node itself, no node knows the id 5.  `mapObjectNB` of the detached
handle 1 returns the sentinel, yet it has registered a request: the request 1
of its master lookup, and the next request ID has moved from 1 to 2. -/
theorem mapObjectNB_registers_counterexample :
    Example.alone.objects = [] ∧ Example.alone.requests = [] ∧
    Example.alone.trace = [] ∧ Example.alone.nextRequestID = 1 ∧
    (_findMasterNodeID Example.alone 5).1 = UUID.ZERO ∧
    (mapObjectNB Example.packet0 Example.alone (some 1) 5 0).1 = LB_UNDEFINED_UINT32 ∧
    (mapObjectNB Example.packet0 Example.alone (some 1) 5 0).2.trace
      = [Event.registerRequest 1 none,
         Event.send (Dest.peer Example.self)
           (Packet.findMasterNodeID { requestID := 1, identifier := 5 }),
         Event.waitRequest 1] ∧
    (mapObjectNB Example.packet0 Example.alone (some 1) 5 0).2.nextRequestID = 2 := by
  decide

/-- C2, witness: the sentinel request ID fails at once; the pending request 7
of the handle 1, which the receiver thread attaches while the caller waits,
yields true and `applyMapData` with the served version 3. -/
theorem mapObjectSync_spec_witness :
    mapObjectSync Example.store LB_UNDEFINED_UINT32 Example.receive = (false, Example.store) ∧
    7 ≠ LB_UNDEFINED_UINT32 ∧ Example.pending.getRequestData 7 = some 1 ∧
    (mapObjectSync Example.pending 7 Example.receive).1
      = ((((Example.receive Example.pending).1.waitRequest 7).heap 1).isAttached) ∧
    (mapObjectSync Example.pending 7 Example.receive).1 = true ∧
    (Event.applyMapData 1 3
        ∈ (mapObjectSync Example.pending 7 Example.receive).2.trace.drop
            ((Example.receive Example.pending).1.waitRequest 7).trace.length
      ↔ (mapObjectSync Example.pending 7 Example.receive).1 = true) :=
  have h := (mapObjectSync_spec Example.pending 7 Example.receive).2 1 (by decide) (by decide)
  ⟨(mapObjectSync_spec Example.store LB_UNDEFINED_UINT32 Example.receive).1 (Or.inl rfl),
    by decide, by decide, h.1, by decide, h.2.2.2⟩

/-- C9, witness: in `Example.orphan` no instance of the object 5 is master and
the slave 2 knows the node 7 as its master; the query 3 is answered once, with
the request ID 3 and the node ID 7. -/
theorem cmdFindMasterNodeID_reply_witness :
    Example.orphan.objects.lookup Example.query.packet.identifier = some [2] ∧
    (∀ o ∈ [2], (Example.orphan.heap o).isMaster = false) ∧
    _cmdFindMasterNodeID Example.orphan Example.query
      = (true, Example.orphan.emit (Event.send (Dest.peer Example.peer)
          (Packet.findMasterNodeIDReply { requestID := 3, masterNodeID := 7 }))) := by
  obtain ⟨m, h1, -, h3⟩ := cmdFindMasterNodeID_reply Example.orphan Example.query
  have hm : m = 7 := by
    rw [h3 [2] (by decide) (by decide)]
    decide
  rw [hm] at h1
  exact ⟨by decide, by decide, h1⟩

/-- C10, witness: the command for the instance 1 of the object 5 is
dispatched once, to the registered handle 1. -/
theorem dispatchObjectCommand_instance_witness :
    Example.command.packet.instanceID ≤ EQ_INSTANCE_MAX ∧
    Example.registered.objects.lookup Example.command.packet.objectID = some [1] ∧
    [1].find? (fun o => (Example.registered.heap o).instanceID
      == Example.command.packet.instanceID) = some 1 ∧
    dispatchObjectCommand Example.registered Example.command
      = (true, Example.registered.emit (Event.dispatchCommand 1 Example.command false)) :=
  ⟨by decide, by decide, by decide,
    dispatchObjectCommand_instance Example.registered Example.command [1] 1
      (by decide) (by decide) (by decide)⟩


/-! ## `dispatchObjectCommand`: all instances, no instance -/

theorem dispatchObjectCommand.clones_frame (command : Command ObjectPacket) :
    ∀ (l : List ObjPtr) (s : ObjectStore),
      (dispatchObjectCommand.clones command l s).trace
        = s.trace ++ (l.map (fun o =>
            [Event.cloneCommand command, Event.dispatchCommand o command true])).flatten ∧
      (dispatchObjectCommand.clones command l s).heap = s.heap ∧
      (dispatchObjectCommand.clones command l s).objects = s.objects ∧
      (dispatchObjectCommand.clones command l s).instanceCache = s.instanceCache ∧
      (dispatchObjectCommand.clones command l s).pushData = s.pushData ∧
      (dispatchObjectCommand.clones command l s).localNode = s.localNode := by
  intro l
  induction l with
  | nil => intro s; simp [dispatchObjectCommand.clones]
  | cons o rest ih =>
      intro s
      rw [dispatchObjectCommand.clones]
      obtain ⟨h1, h2, h3, h4, h5, h6⟩ := ih ((s.emit (Event.cloneCommand command)).emit
        (Event.dispatchCommand o command true))
      refine ⟨?_, h2, h3, h4, h5, h6⟩
      rw [h1]
      simp

theorem count_cloneCommand (command : Command ObjectPacket) :
    ∀ (l : List ObjPtr),
      ((l.map (fun o =>
        [Event.cloneCommand command, Event.dispatchCommand o command true])).flatten).count
          (Event.cloneCommand command) = l.length := by
  intro l
  induction l with
  | nil => rfl
  | cons o t ih =>
      simp only [List.map_cons, List.flatten_cons, List.length_cons, List.cons_append,
        List.nil_append]
      rw [List.count_cons_self, List.count_cons_of_ne (by simp), ih]

/-- C11: for an object command with instance ID `EQ_INSTANCE_NONE` whose
object id has the attached instances `first :: rest`, `dispatchObjectCommand`
returns true; the calls it makes are `dispatchCommand` of the command itself on
`first` and then, for each instance of `rest` in list order, one
`cloneCommand` followed by `dispatchCommand` of the clone on that instance, so
that the number of clones is the number of instances less one; the objects
and the attach table are as before. -/
theorem dispatchObjectCommand_all (s : ObjectStore) (command : Command ObjectPacket)
    (first : ObjPtr) (rest : List ObjPtr)
    (hnone : command.packet.instanceID = EQ_INSTANCE_NONE)
    (hfind : s.objects.lookup command.packet.objectID = some (first :: rest)) :
    (dispatchObjectCommand s command).1 = true ∧
    (dispatchObjectCommand s command).2.trace
      = s.trace ++ Event.dispatchCommand first command false
          :: (rest.map (fun o =>
              [Event.cloneCommand command, Event.dispatchCommand o command true])).flatten ∧
    ((dispatchObjectCommand s command).2.trace.drop s.trace.length).count
        (Event.cloneCommand command) = (first :: rest).length - 1 ∧
    (dispatchObjectCommand s command).2.heap = s.heap ∧
    (dispatchObjectCommand s command).2.objects = s.objects := by
  have hmax : ¬ command.packet.instanceID ≤ EQ_INSTANCE_MAX := by
    rw [hnone]; decide
  obtain ⟨h1, h2, h3, -⟩ := dispatchObjectCommand.clones_frame command rest
    (s.emit (Event.dispatchCommand first command false))
  have hres : dispatchObjectCommand s command
      = (true, dispatchObjectCommand.clones command rest
          (s.emit (Event.dispatchCommand first command false))) := by
    unfold dispatchObjectCommand
    simp only [hfind, hmax, if_false]
  rw [hres]
  have htrace : (dispatchObjectCommand.clones command rest
      (s.emit (Event.dispatchCommand first command false))).trace
      = s.trace ++ Event.dispatchCommand first command false
          :: (rest.map (fun o =>
              [Event.cloneCommand command, Event.dispatchCommand o command true])).flatten := by
    rw [h1]; simp
  refine ⟨rfl, htrace, ?_, h2, h3⟩
  simp only [htrace, List.drop_left, List.length_cons, Nat.add_sub_cancel]
  rw [List.count_cons_of_ne (by simp)]
  exact count_cloneCommand command rest

/-- C11, witness: the broadcast command for the object 5, whose instances are
the slave 2 and the master 1, goes to 2 itself and to 1 as a clone. -/
theorem dispatchObjectCommand_all_witness :
    Example.broadcast.packet.instanceID = EQ_INSTANCE_NONE ∧
    Example.slaveFirst.objects.lookup Example.broadcast.packet.objectID = some (2 :: [1]) ∧
    (dispatchObjectCommand Example.slaveFirst Example.broadcast).1 = true ∧
    (dispatchObjectCommand Example.slaveFirst Example.broadcast).2.trace
      = [Event.dispatchCommand 2 Example.broadcast false,
         Event.cloneCommand Example.broadcast,
         Event.dispatchCommand 1 Example.broadcast true] :=
  have h := dispatchObjectCommand_all Example.slaveFirst Example.broadcast 2 [1]
    (by decide) (by decide)
  ⟨by decide, by decide, h.1, h.2.1⟩

/-- C12: for an object command whose object id has no entry in the attach
table, `dispatchObjectCommand` returns the store as it is, so nothing is
dispatched or cloned, and the result is true exactly when the instance ID of
the packet is `EQ_INSTANCE_NONE`. -/
theorem dispatchObjectCommand_unknown (s : ObjectStore) (command : Command ObjectPacket)
    (hfind : s.objects.lookup command.packet.objectID = none) :
    (dispatchObjectCommand s command).2 = s ∧
    ((dispatchObjectCommand s command).1 = true ↔
      command.packet.instanceID = EQ_INSTANCE_NONE) := by
  unfold dispatchObjectCommand
  simp [hfind]

/-- C12, witness: nobody has attached the object 9; the command for its instance
1 is dropped with false, the broadcast command for the object 5 is
dropped with true on the fresh store. -/
theorem dispatchObjectCommand_unknown_witness :
    Example.registered.objects.lookup Example.stray.packet.objectID = none ∧
    (dispatchObjectCommand Example.registered Example.stray).1 = false ∧
    (dispatchObjectCommand Example.registered Example.stray).2.trace
      = Example.registered.trace ∧
    (dispatchObjectCommand Example.store Example.broadcast).1 = true :=
  have h := dispatchObjectCommand_unknown Example.registered Example.stray (by decide)
  have h' := dispatchObjectCommand_unknown Example.store Example.broadcast (by decide)
  ⟨by decide, by
      cases hb : (dispatchObjectCommand Example.registered Example.stray).1 with
      | false => rfl
      | true => exact absurd (h.2.1 hb) (by decide),
    by rw [h.1], h'.2.2 (by decide)⟩


/-! ## `_cmdInstance` -/

theorem dispatchObjectCommand.one_frame (command : Command ObjectPacket) (instanceID : Nat) :
    ∀ (l : List ObjPtr) (s : ObjectStore),
      (∃ t, (dispatchObjectCommand.one command instanceID l s).2.trace = s.trace ++ t ∧
        ∀ e ∈ t, e.isDispatch = true) ∧
      (dispatchObjectCommand.one command instanceID l s).2.instanceCache = s.instanceCache ∧
      (dispatchObjectCommand.one command instanceID l s).2.pushData = s.pushData := by
  intro l
  induction l with
  | nil => intro s; exact ⟨⟨[], by simp [dispatchObjectCommand.one]⟩, rfl, rfl⟩
  | cons o rest ih =>
      intro s
      rw [dispatchObjectCommand.one]
      split
      · refine ⟨⟨[Event.dispatchCommand o command false], rfl, ?_⟩, rfl, rfl⟩
        intro e he
        rw [List.mem_singleton] at he
        rw [he]
        rfl
      · exact ih s

theorem dispatchObjectCommand_frame (s : ObjectStore) (command : Command ObjectPacket) :
    (∃ t, (dispatchObjectCommand s command).2.trace = s.trace ++ t ∧
      ∀ e ∈ t, e.isDispatch = true) ∧
    (dispatchObjectCommand s command).2.instanceCache = s.instanceCache ∧
    (dispatchObjectCommand s command).2.pushData = s.pushData := by
  unfold dispatchObjectCommand
  dsimp only
  split
  · exact ⟨⟨[], by simp⟩, rfl, rfl⟩
  · split
    · exact dispatchObjectCommand.one_frame command _ _ s
    · split
      · exact ⟨⟨[], by simp⟩, rfl, rfl⟩
      · rename_i first rest _
        obtain ⟨h1, -, -, h4, h5, -⟩ := dispatchObjectCommand.clones_frame command rest
          (s.emit (Event.dispatchCommand first command false))
        refine ⟨⟨Event.dispatchCommand first command false
            :: (rest.map (fun o =>
              [Event.cloneCommand command, Event.dispatchCommand o command true])).flatten,
            ?_, ?_⟩, h4, h5⟩
        · rw [h1]; simp
        · intro e he
          rcases List.mem_cons.1 he with h | h
          · rw [h]; rfl
          · obtain ⟨l, hl, hel⟩ := List.mem_flatten.1 h
            obtain ⟨o, -, ho⟩ := List.mem_map.1 hl
            rw [← ho] at hel
            simp only [List.mem_cons, List.mem_singleton, List.not_mem_nil, or_false] at hel
            rcases hel with h' | h' <;> rw [h'] <;> rfl

theorem _cmdInstance.cache_frame (aggressiveCaching : Bool) (s : ObjectStore)
    (type : PacketCommand) (command : Command ObjectInstancePacket) :
    (_cmdInstance.cache aggressiveCaching s type command).pushData = s.pushData ∧
    (_cmdInstance.cache aggressiveCaching s type command).localNode = s.localNode ∧
    (_cmdInstance.cache aggressiveCaching s type command).heap = s.heap ∧
    (_cmdInstance.cache aggressiveCaching s type command).objects = s.objects ∧
    ∃ t, (_cmdInstance.cache aggressiveCaching s type command).trace = s.trace ++ t ∧
      ∀ e ∈ t, e.isDispatch = false := by
  unfold _cmdInstance.cache
  split
  · split
    · refine ⟨rfl, rfl, rfl, rfl, _, rfl, ?_⟩
      intro e he
      rw [List.mem_singleton] at he
      rw [he]
      rfl
    · exact ⟨rfl, rfl, rfl, rfl, [], by simp⟩
  · exact ⟨rfl, rfl, rfl, rfl, [], by simp⟩

/-- C13: `_cmdInstance` routes by the command the packet arrived with, after
the cache step (which dispatches nothing and leaves the push-data accumulator
alone).  `OBJECT_INSTANCE` returns true without dispatch.
`OBJECT_INSTANCE_MAP` returns true without dispatch when the node ID of the
packet is not the local node ID, and is otherwise the call of
`dispatchObjectCommand` on the command.  `OBJECT_INSTANCE_COMMIT` is always
the call of `dispatchObjectCommand`.  `OBJECT_INSTANCE_PUSH` returns true, adds
the command to the accumulator under the object ID of the packet and makes no
further call.  Any command other than a push leaves the accumulator as it
was. -/
theorem cmdInstance_routing (aggressiveCaching : Bool) (s : ObjectStore)
    (command : Command ObjectInstancePacket) :
    (command.packet.command = PacketCommand.CMD_NODE_OBJECT_INSTANCE →
      _cmdInstance aggressiveCaching s command
        = (true, _cmdInstance.cache aggressiveCaching s command.packet.command
            (_cmdInstance.rewrite command))) ∧
    (command.packet.command = PacketCommand.CMD_NODE_OBJECT_INSTANCE_MAP →
      (command.packet.nodeID ≠ s.localNode.nodeID →
        _cmdInstance aggressiveCaching s command
          = (true, _cmdInstance.cache aggressiveCaching s command.packet.command
              (_cmdInstance.rewrite command))) ∧
      (command.packet.nodeID = s.localNode.nodeID →
        _cmdInstance aggressiveCaching s command
          = dispatchObjectCommand
              (_cmdInstance.cache aggressiveCaching s command.packet.command
                (_cmdInstance.rewrite command))
              (_cmdInstance.rewrite command).toObjectCommand)) ∧
    (command.packet.command = PacketCommand.CMD_NODE_OBJECT_INSTANCE_COMMIT →
      _cmdInstance aggressiveCaching s command
        = dispatchObjectCommand
            (_cmdInstance.cache aggressiveCaching s command.packet.command
              (_cmdInstance.rewrite command))
            (_cmdInstance.rewrite command).toObjectCommand) ∧
    (command.packet.command = PacketCommand.CMD_NODE_OBJECT_INSTANCE_PUSH →
      (_cmdInstance aggressiveCaching s command).1 = true ∧
      (_cmdInstance aggressiveCaching s command).2.pushData
        = s.pushData ++ [(command.packet.objectID, _cmdInstance.rewrite command)] ∧
      (_cmdInstance aggressiveCaching s command).2.trace
        = (_cmdInstance.cache aggressiveCaching s command.packet.command
            (_cmdInstance.rewrite command)).trace) ∧
    (command.packet.command ≠ PacketCommand.CMD_NODE_OBJECT_INSTANCE_PUSH →
      (_cmdInstance aggressiveCaching s command).2.pushData = s.pushData) ∧
    ((_cmdInstance.cache aggressiveCaching s command.packet.command
        (_cmdInstance.rewrite command)).pushData = s.pushData ∧
      ∃ t, (_cmdInstance.cache aggressiveCaching s command.packet.command
          (_cmdInstance.rewrite command)).trace = s.trace ++ t ∧
        ∀ e ∈ t, e.isDispatch = false) := by
  obtain ⟨hp, hln, -, -, ht⟩ := _cmdInstance.cache_frame aggressiveCaching s
    command.packet.command (_cmdInstance.rewrite command)
  refine ⟨?_, ?_, ?_, ?_, ?_, ⟨hp, ht⟩⟩
  · intro h
    unfold _cmdInstance
    simp only [h]
  · intro h
    constructor
    · intro hn
      have hb : ((_cmdInstance.rewrite command).packet.nodeID != s.localNode.nodeID) = true := by
        simpa [_cmdInstance.rewrite] using hn
      unfold _cmdInstance
      simp only [h, hln, hb, if_true]
      rw [← h, hln, hb]
      rfl
    · intro hn
      have hb : ((_cmdInstance.rewrite command).packet.nodeID != s.localNode.nodeID) = false := by
        simpa [_cmdInstance.rewrite] using hn
      unfold _cmdInstance
      simp only [h]
      rw [← h, hln, hb]
      rfl
  · intro h
    unfold _cmdInstance
    simp only [h]
  · intro h
    unfold _cmdInstance
    simp only [h]
    rw [← h, hp]
    simp
    rfl
  · intro h
    obtain ⟨-, hc, hd⟩ := dispatchObjectCommand_frame
      (_cmdInstance.cache aggressiveCaching s command.packet.command
        (_cmdInstance.rewrite command)) (_cmdInstance.rewrite command).toObjectCommand
    unfold _cmdInstance
    dsimp only
    split
    · exact hp
    · split
      · exact hp
      · rw [hd, hp]
    · rw [hd, hp]
    · rename_i heq
      exact absurd heq h
    · exact hp


theorem cacheAdds_of_isDispatch :
    ∀ (t : List Event), (∀ e ∈ t, e.isDispatch = true) → cacheAdds t = [] := by
  intro t
  induction t with
  | nil => intro _; rfl
  | cons e rest ih =>
      intro h
      have he := h e (List.mem_cons_self _ _)
      have hrest := ih (fun x hx => h x (List.mem_cons_of_mem _ hx))
      unfold cacheAdds at hrest ⊢
      cases e with
      | dispatchCommand o c b => simpa only [List.filterMap_cons] using hrest
      | cloneCommand c => simpa only [List.filterMap_cons] using hrest
      | _ => simp [Event.isDispatch] at he

/-- The store `_cmdInstance` returns differs from the store after the cache
step by dispatch events at most: the cache is the same and the `add` calls
are those of the cache step. -/
theorem _cmdInstance_after_cache (aggressiveCaching : Bool) (s : ObjectStore)
    (command : Command ObjectInstancePacket) :
    (_cmdInstance aggressiveCaching s command).2.instanceCache
      = (_cmdInstance.cache aggressiveCaching s command.packet.command
          (_cmdInstance.rewrite command)).instanceCache ∧
    ∃ t, (_cmdInstance aggressiveCaching s command).2.trace
        = (_cmdInstance.cache aggressiveCaching s command.packet.command
            (_cmdInstance.rewrite command)).trace ++ t ∧
      cacheAdds t = [] := by
  obtain ⟨⟨t, ht, hd⟩, hc, -⟩ := dispatchObjectCommand_frame
    (_cmdInstance.cache aggressiveCaching s command.packet.command
      (_cmdInstance.rewrite command)) (_cmdInstance.rewrite command).toObjectCommand
  have hnil : ∀ x : ObjectStore, ∃ t', x.trace = x.trace ++ t' ∧ cacheAdds t' = [] :=
    fun x => ⟨[], by simp, rfl⟩
  unfold _cmdInstance
  dsimp only
  split
  · exact ⟨rfl, hnil _⟩
  · split
    · exact ⟨rfl, hnil _⟩
    · exact ⟨hc, t, ht, cacheAdds_of_isDispatch t hd⟩
  · exact ⟨hc, t, ht, cacheAdds_of_isDispatch t hd⟩
  · exact ⟨rfl, hnil _⟩
  · exact ⟨rfl, hnil _⟩

/-- C14: with the instance cache enabled and aggressive caching not compiled
in, `_cmdInstance` calls `add` on the cache exactly once, with the object ID,
the version and the master instance ID of the packet, for an
`OBJECT_INSTANCE`, an `OBJECT_INSTANCE_MAP` (whatever node it is addressed to)
and an `OBJECT_INSTANCE_COMMIT` packet, and the cache afterwards is the cache
with that version added; for an `OBJECT_INSTANCE_PUSH` packet it makes no
`add` call and the cache is as before.  With the cache disabled there is no
`add` call for any packet. -/
theorem cmdInstance_caching (s : ObjectStore) (command : Command ObjectInstancePacket) :
    (∀ c, s.instanceCache = some c →
      (command.packet.command = PacketCommand.CMD_NODE_OBJECT_INSTANCE ∨
        command.packet.command = PacketCommand.CMD_NODE_OBJECT_INSTANCE_MAP ∨
        command.packet.command = PacketCommand.CMD_NODE_OBJECT_INSTANCE_COMMIT) →
      cacheAdds ((_cmdInstance false s command).2.trace.drop s.trace.length)
        = [(command.packet.objectID, command.packet.version,
            command.packet.masterInstanceID)] ∧
      (_cmdInstance false s command).2.instanceCache
        = some (c.add command.packet.objectID command.packet.version
            command.packet.masterInstanceID)) ∧
    (∀ c, s.instanceCache = some c →
      command.packet.command = PacketCommand.CMD_NODE_OBJECT_INSTANCE_PUSH →
      cacheAdds ((_cmdInstance false s command).2.trace.drop s.trace.length) = [] ∧
      (_cmdInstance false s command).2.instanceCache = some c) ∧
    (s.instanceCache = none → ∀ aggressiveCaching,
      cacheAdds ((_cmdInstance aggressiveCaching s command).2.trace.drop s.trace.length) = [] ∧
      (_cmdInstance aggressiveCaching s command).2.instanceCache = none) := by
  refine ⟨?_, ?_, ?_⟩
  · intro c hc hcmd
    obtain ⟨h1, t, ht, hadds⟩ := _cmdInstance_after_cache false s command
    have hne : (command.packet.command != PacketCommand.CMD_NODE_OBJECT_INSTANCE_PUSH)
        = true := by
      rcases hcmd with h | h | h <;> rw [h] <;> decide
    have hstep : _cmdInstance.cache false s command.packet.command
        (_cmdInstance.rewrite command)
        = { s with
            instanceCache := some (c.add command.packet.objectID command.packet.version
              command.packet.masterInstanceID)
            trace := s.trace ++ [Event.instanceCacheAdd command.packet.objectID
              command.packet.version command.packet.masterInstanceID
              (_cmdInstance.rewrite command)] } := by
      unfold _cmdInstance.cache
      simp only [hc, hne, Bool.false_or, if_true]
      rfl
    rw [h1, ht, hstep]
    constructor
    · simp only [List.append_assoc, List.drop_left]
      unfold cacheAdds at hadds ⊢
      rw [List.filterMap_append, hadds]
      rfl
    · rfl
  · intro c hc hcmd
    obtain ⟨h1, t, ht, hadds⟩ := _cmdInstance_after_cache false s command
    have hstep : _cmdInstance.cache false s command.packet.command
        (_cmdInstance.rewrite command) = s := by
      unfold _cmdInstance.cache
      simp [hc, hcmd]
    rw [h1, ht, hstep]
    exact ⟨by simpa using hadds, hc⟩
  · intro hc aggressiveCaching
    obtain ⟨h1, t, ht, hadds⟩ := _cmdInstance_after_cache aggressiveCaching s command
    have hstep : _cmdInstance.cache aggressiveCaching s command.packet.command
        (_cmdInstance.rewrite command) = s := by
      unfold _cmdInstance.cache
      simp [hc]
    rw [h1, ht, hstep]
    exact ⟨by simpa using hadds, hc⟩

/-- C13, witness: on `Example.slaveFirst` (local node 1, instances 2 and 1 of
the object 5) a commit packet reaches both instances, a map packet for the instance
2 addressed to the node 1 reaches the instance 2, one addressed to
the node 7 and an instance packet reach nobody, and a push packet is
buffered. -/
theorem cmdInstance_routing_witness :
    (_cmdInstance false Example.slaveFirst
      (Example.instance PacketCommand.CMD_NODE_OBJECT_INSTANCE EQ_INSTANCE_NONE 0)).2.trace
      = [] ∧
    (_cmdInstance false Example.slaveFirst
      (Example.instance PacketCommand.CMD_NODE_OBJECT_INSTANCE_MAP 2 7)).2.trace = [] ∧
    (_cmdInstance false Example.slaveFirst
      (Example.instance PacketCommand.CMD_NODE_OBJECT_INSTANCE_MAP 2 1)).2.trace
      = [Event.dispatchCommand 2 (_cmdInstance.rewrite
          (Example.instance PacketCommand.CMD_NODE_OBJECT_INSTANCE_MAP 2 1)).toObjectCommand
          false] ∧
    (_cmdInstance false Example.slaveFirst
      (Example.instance PacketCommand.CMD_NODE_OBJECT_INSTANCE_COMMIT EQ_INSTANCE_NONE 0)).2.trace.length
      = 3 ∧
    (_cmdInstance false Example.slaveFirst
      (Example.instance PacketCommand.CMD_NODE_OBJECT_INSTANCE_PUSH EQ_INSTANCE_NONE 0)).2.pushData
      = [(5, _cmdInstance.rewrite
          (Example.instance PacketCommand.CMD_NODE_OBJECT_INSTANCE_PUSH EQ_INSTANCE_NONE 0))] :=
  have h1 := (cmdInstance_routing false Example.slaveFirst
    (Example.instance PacketCommand.CMD_NODE_OBJECT_INSTANCE EQ_INSTANCE_NONE 0)).1 rfl
  have h2 := ((cmdInstance_routing false Example.slaveFirst
    (Example.instance PacketCommand.CMD_NODE_OBJECT_INSTANCE_MAP 2 7)).2.1 rfl).1 (by decide)
  have h3 := ((cmdInstance_routing false Example.slaveFirst
    (Example.instance PacketCommand.CMD_NODE_OBJECT_INSTANCE_MAP 2 1)).2.1 rfl).2 (by decide)
  have h4 := (cmdInstance_routing false Example.slaveFirst
    (Example.instance PacketCommand.CMD_NODE_OBJECT_INSTANCE_COMMIT EQ_INSTANCE_NONE 0)).2.2.1
    rfl
  have h5 := (cmdInstance_routing false Example.slaveFirst
    (Example.instance PacketCommand.CMD_NODE_OBJECT_INSTANCE_PUSH EQ_INSTANCE_NONE 0)).2.2.2.1
    rfl
  ⟨by rw [h1]; decide, by rw [h2]; decide, by rw [h3]; decide, by rw [h4]; decide, h5.2.1⟩

/-- C14, witness: on `Example.queued`, whose cache is enabled, a map packet
addressed to another node is added to the cache once and a push packet is
not; on `Example.slaveFirst`, whose cache is disabled, nothing is added. -/
theorem cmdInstance_caching_witness :
    Example.queued.instanceCache
      = some { items := [(5, { masterInstanceID := 1, versions := [1] })] } ∧
    cacheAdds ((_cmdInstance false Example.queued
      (Example.instance PacketCommand.CMD_NODE_OBJECT_INSTANCE_MAP 2 7)).2.trace.drop
        Example.queued.trace.length) = [(5, 2, 1)] ∧
    (_cmdInstance false Example.queued
      (Example.instance PacketCommand.CMD_NODE_OBJECT_INSTANCE_MAP 2 7)).2.instanceCache
      = some { items := [(5, { masterInstanceID := 1, versions := [1, 2] })] } ∧
    cacheAdds ((_cmdInstance false Example.queued
      (Example.instance PacketCommand.CMD_NODE_OBJECT_INSTANCE_PUSH EQ_INSTANCE_NONE 0)).2.trace.drop
        Example.queued.trace.length) = [] ∧
    Example.slaveFirst.instanceCache = none ∧
    cacheAdds ((_cmdInstance true Example.slaveFirst
      (Example.instance PacketCommand.CMD_NODE_OBJECT_INSTANCE_COMMIT EQ_INSTANCE_NONE 0)).2.trace.drop
        Example.slaveFirst.trace.length) = [] :=
  have h1 := (cmdInstance_caching Example.queued
    (Example.instance PacketCommand.CMD_NODE_OBJECT_INSTANCE_MAP 2 7)).1 _ rfl
    (Or.inr (Or.inl rfl))
  have h2 := (cmdInstance_caching Example.queued
    (Example.instance PacketCommand.CMD_NODE_OBJECT_INSTANCE_PUSH EQ_INSTANCE_NONE 0)).2.1 _
    rfl rfl
  have h3 := (cmdInstance_caching Example.slaveFirst
    (Example.instance PacketCommand.CMD_NODE_OBJECT_INSTANCE_COMMIT EQ_INSTANCE_NONE 0)).2.2
    rfl true
  ⟨rfl, h1.1, by rw [h1.2]; decide, h2.1, rfl, h3.1⟩


/-! ## `_cmdMapObject` -/

theorem _cmdMapObject.loop_find (s : ObjectStore) :
    ∀ (l : List ObjPtr),
      _cmdMapObject.loop s l = l.find? (fun o => (s.heap o).isMaster) := by
  intro l
  induction l with
  | nil => rfl
  | cons o rest ih =>
      rw [_cmdMapObject.loop, List.find?]
      cases h : (s.heap o).isMaster with
      | true => simp
      | false => simpa using ih

/-- C15: `_cmdMapObject` returns true and does one of two things.  When the
first master instance of the object, in list order, is `master`, its only
effect is `addSlave( command )` on `master`, and no reply is sent.  When the
object has no attached instance or none that is master, its only effect is
one `MAP_OBJECT_REPLY` sent to the requesting node, carrying the request ID of
the command, the node ID of the requesting node and the result false.  The
attach table and the objects are never changed. -/
theorem cmdMapObject_spec (s : ObjectStore) (command : Command NodeMapObjectPacket) :
    (∀ objects master, s.objects.lookup command.packet.objectID = some objects →
      objects.find? (fun o => (s.heap o).isMaster) = some master →
      _cmdMapObject s command = (true, s.emit (Event.addSlave master command))) ∧
    ((s.objects.lookup command.packet.objectID = none ∨
        ∃ objects, s.objects.lookup command.packet.objectID = some objects ∧
          ∀ o ∈ objects, (s.heap o).isMaster = false) →
      ∃ reply : NodeMapObjectReplyPacket,
        _cmdMapObject s command
          = (true, s.emit (Event.send (Dest.peer command.node)
              (Packet.mapObjectReply reply))) ∧
        reply.requestID = command.packet.requestID ∧
        reply.nodeID = command.node.nodeID ∧
        reply.objectID = command.packet.objectID ∧
        reply.result = false) ∧
    (_cmdMapObject s command).1 = true ∧
    (_cmdMapObject s command).2.objects = s.objects ∧
    (_cmdMapObject s command).2.heap = s.heap := by
  refine ⟨?_, ?_, ?_⟩
  · intro objects master hl hf
    unfold _cmdMapObject
    simp only [hl, _cmdMapObject.loop_find, hf]
  · intro h
    refine ⟨{ NodeMapObjectReplyPacket.ofRequest command.packet with
              nodeID := command.node.nodeID }, ?_, rfl, rfl, rfl, rfl⟩
    unfold _cmdMapObject
    rcases h with h | ⟨objects, hl, hm⟩
    · simp only [h]
    · have hnone : objects.find? (fun o => (s.heap o).isMaster) = none := by
        rw [List.find?_eq_none]
        intro o ho
        simp [hm o ho]
      simp only [hl, _cmdMapObject.loop_find, hnone]
  · unfold _cmdMapObject
    dsimp only
    split <;> exact ⟨rfl, rfl, rfl⟩

/-- C15, witness: on `Example.slaveFirst` the request for the object 5 is
handed to the master 1, listed second; the request for the object 9 is
answered with a failure reply to the peer 7. -/
theorem cmdMapObject_spec_witness :
    Example.slaveFirst.objects.lookup (Example.mapRequest 5).packet.objectID = some [2, 1] ∧
    [2, 1].find? (fun o => (Example.slaveFirst.heap o).isMaster) = some 1 ∧
    (_cmdMapObject Example.slaveFirst (Example.mapRequest 5)).2.trace
      = [Event.addSlave 1 (Example.mapRequest 5)] ∧
    Example.slaveFirst.objects.lookup (Example.mapRequest 9).packet.objectID = none ∧
    (∃ reply : NodeMapObjectReplyPacket,
      _cmdMapObject Example.slaveFirst (Example.mapRequest 9)
        = (true, Example.slaveFirst.emit (Event.send (Dest.peer Example.peer)
            (Packet.mapObjectReply reply))) ∧
      reply.requestID = 4 ∧ reply.nodeID = 7 ∧ reply.objectID = 9 ∧ reply.result = false) :=
  have h1 := (cmdMapObject_spec Example.slaveFirst (Example.mapRequest 5)).1 [2, 1] 1
    (by decide) (by decide)
  have h2 := (cmdMapObject_spec Example.slaveFirst (Example.mapRequest 9)).2.1
    (Or.inl (by decide))
  ⟨by decide, by decide, by rw [h1]; decide, by decide, h2⟩


/-! ## The `MAP_OBJECT` packet -/

/-- C16: when `mapObjectNB( object, id, version, master )` starts a mapping
(generated id, detached slave handle, connected master) it sends exactly one
`MAP_OBJECT` packet; that packet carries the caller's version as
`requestedVersion`, the caller's id as `objectID`, `getMaxVersions` of the
object as `maxVersion` and the returned request ID.  With the cache enabled
and holding an entry for the id, `useCache` is true, `masterInstanceID` is the
cached one, `minCachedVersion` the version of the first and
`maxCachedVersion` the version of the last cached stream; with the cache
disabled or without an entry for the id, the four fields are those of the
default-constructed packet. -/
theorem mapObjectNB_packet (packet0 : NodeMapObjectPacket) (s : ObjectStore)
    (obj : ObjPtr) (id : UUID) (version : Nat) (master : Node)
    (hgen : UUID.isGenerated id = true)
    (hatt : (s.heap obj).isAttached = false)
    (hslave : (s.heap obj).isMaster = false)
    (hconn : master.isConnected = true) :
    ∃ p : NodeMapObjectPacket,
      mapPacketsSent ((mapObjectNBMaster packet0 s (some obj) id version
        (some master)).2.trace.drop s.trace.length) = [p] ∧
      (mapObjectNBMaster packet0 s (some obj) id version (some master)).2.trace
        = s.trace ++ [Event.registerRequest s.nextRequestID (some obj),
            Event.notifyAttach obj, Event.send (Dest.peer master) (Packet.mapObject p)] ∧
      p.requestID = (mapObjectNBMaster packet0 s (some obj) id version (some master)).1 ∧
      p.requestedVersion = version ∧ p.objectID = id ∧
      p.maxVersion = (s.heap obj).maxVersions ∧
      (∀ c cached, s.instanceCache = some c → c.find id = some cached →
        p.useCache = true ∧ p.masterInstanceID = cached.masterInstanceID ∧
        (∀ v, cached.versions.head? = some v → p.minCachedVersion = v) ∧
        (∀ v, cached.versions.getLast? = some v → p.maxCachedVersion = v)) ∧
      ((s.instanceCache = none ∨ ∃ c, s.instanceCache = some c ∧ c.find id = none) →
        p.useCache = packet0.useCache ∧ p.masterInstanceID = packet0.masterInstanceID ∧
        p.minCachedVersion = packet0.minCachedVersion ∧
        p.maxCachedVersion = packet0.maxCachedVersion) := by
  have hres : mapObjectNBMaster packet0 s (some obj) id version (some master)
      = ((mapObjectNB.cacheHint s.instanceCache id
            { packet0 with
                requestID := s.nextRequestID
                objectID := id
                requestedVersion := version
                maxVersion := (s.heap obj).maxVersions
                instanceID := (_genNextID s.instanceIDs).1 }).requestID,
          (({ (s.registerRequest (some obj)).2 with
                instanceIDs := (_genNextID s.instanceIDs).2 } : ObjectStore).emit
              (Event.notifyAttach obj)).emit
            (Event.send (Dest.peer master) (Packet.mapObject
              (mapObjectNB.cacheHint s.instanceCache id
                { packet0 with
                    requestID := s.nextRequestID
                    objectID := id
                    requestedVersion := version
                    maxVersion := (s.heap obj).maxVersions
                    instanceID := (_genNextID s.instanceIDs).1 })))) := by
    unfold mapObjectNBMaster mapObjectNB.toMaster
    simp only [hgen, hatt, hslave, hconn, Bool.not_true, Bool.false_eq_true, if_false,
      Bool.or_self]
    rfl
  have hrid : ∀ q : NodeMapObjectPacket,
      (mapObjectNB.cacheHint s.instanceCache id q).requestID = q.requestID ∧
      (mapObjectNB.cacheHint s.instanceCache id q).requestedVersion = q.requestedVersion ∧
      (mapObjectNB.cacheHint s.instanceCache id q).objectID = q.objectID ∧
      (mapObjectNB.cacheHint s.instanceCache id q).maxVersion = q.maxVersion := by
    intro q
    unfold mapObjectNB.cacheHint
    split
    · exact ⟨rfl, rfl, rfl, rfl⟩
    · split <;> exact ⟨rfl, rfl, rfl, rfl⟩
  rw [hres]
  refine ⟨_, ?_, ?_, rfl, (hrid _).2.1, (hrid _).2.2.1, (hrid _).2.2.2, ?_, ?_⟩
  · simp [mapPacketsSent, ObjectStore.emit, ObjectStore.registerRequest]
  · simp [ObjectStore.emit, ObjectStore.registerRequest]
  · intro c cached hc hf
    unfold mapObjectNB.cacheHint
    simp only [hc, hf, true_and]
    refine ⟨?_, ?_⟩
    · intro v hv
      cases hl : cached.versions with
      | nil => rw [hl] at hv; cases hv
      | cons a t =>
          rw [hl] at hv
          simp only [List.head?_cons, Option.some.injEq] at hv
          simp [List.headD, hv]
    · intro v hv
      rw [List.getLastD_eq_getLast?, hv]
      rfl
  · intro h
    unfold mapObjectNB.cacheHint
    rcases h with h | ⟨c, hc, hf⟩
    · simp [h]
    · simp [hc, hf]

/-- C16, witness: on `Example.queued`, whose cache holds version 1 of the
object 5 with master instance 1, mapping the detached handle 3 to the object 5
at version 0 sends one packet with the cache hint. -/
theorem mapObjectNB_packet_witness :
    UUID.isGenerated 5 = true ∧ (Example.queued.heap 3).isAttached = false ∧
    (Example.queued.heap 3).isMaster = false ∧ Example.peer.isConnected = true ∧
    (∃ p : NodeMapObjectPacket,
      mapPacketsSent ((mapObjectNBMaster Example.packet0 Example.queued (some 3) 5 0
        (some Example.peer)).2.trace.drop Example.queued.trace.length) = [p] ∧
      p.requestedVersion = 0 ∧ p.objectID = 5 ∧ p.useCache = true ∧
      p.masterInstanceID = 1 ∧ p.minCachedVersion = 1 ∧ p.maxCachedVersion = 1) := by
  obtain ⟨p, h1, -, -, h4, h5, -, h7, -⟩ := mapObjectNB_packet Example.packet0 Example.queued 3
    5 0 Example.peer (by decide) (by decide) (by decide) (by decide)
  have hc := h7 { items := [(5, { masterInstanceID := 1, versions := [1] })] }
    { masterInstanceID := 1, versions := [1] } rfl (by decide)
  exact ⟨by decide, by decide, by decide, by decide,
    p, h1, h4, h5, hc.1, hc.2.1, hc.2.2.1 1 rfl, hc.2.2.2 1 rfl⟩

/-! ## The send-on-register queue -/

theorem _cmdRegisterObject_length (s : ObjectStore) (packet : NodeRegisterObjectPacket) :
    (_cmdRegisterObject s packet).2.sendQueue.length
      ≤ max s.sendQueue.length (s.localNode.sendQueueSize % 4294967296).toNat := by
  unfold _cmdRegisterObject
  split
  · exact Nat.le_max_left _ _
  · simp only [_cmdRegisterObject.loop_drop, List.length_drop, List.length_append,
      List.length_singleton]
    omega

theorem registerSequence_frame (objects : List ObjPtr) :
    ∀ (s : ObjectStore),
      (registerSequence s objects).localNode = s.localNode ∧
      (registerSequence s objects).sendQueue.length
        ≤ max s.sendQueue.length (s.localNode.sendQueueSize % 4294967296).toNat := by
  induction objects with
  | nil => intro s; exact ⟨rfl, Nat.le_max_left _ _⟩
  | cons o rest ih =>
      intro s
      have hstep := _cmdRegisterObject_length s { object := o }
      have hln : (_cmdRegisterObject s { object := o }).2.localNode = s.localNode := by
        unfold _cmdRegisterObject
        split <;> rfl
      obtain ⟨h1, h2⟩ := ih (_cmdRegisterObject s { object := o }).2
      have hfold : registerSequence s (o :: rest)
          = registerSequence (_cmdRegisterObject s { object := o }).2 rest := rfl
      rw [hfold]
      refine ⟨h1.trans hln, ?_⟩
      rw [hln] at h2
      omega

/-- C17: with `_sendOnRegister <= 0`, `_cmdRegisterObject` returns the store
as it is.  With `_sendOnRegister > 0` and `NODE_SEND_QUEUE_SIZE` a 32-bit
value `size`, the queue afterwards is the last `min( n + 1, size )` items of
the old queue followed by an item for the registered object (`n` the old
length), so its length is at most `size`.  Starting from an empty queue, the
length is at most `size` after any sequence of registrations. -/
theorem cmdRegisterObject_queue (s : ObjectStore) (packet : NodeRegisterObjectPacket) :
    (s.sendOnRegister ≤ 0 → _cmdRegisterObject s packet = (true, s)) ∧
    (0 < s.sendOnRegister → ∀ size : Nat, s.localNode.sendQueueSize = (size : Int) →
      size < 4294967296 →
      ∃ item : SendQueueItem, item.object = packet.object ∧
        (_cmdRegisterObject s packet).2.sendQueue
          = lastItems (min (s.sendQueue.length + 1) size) (s.sendQueue ++ [item]) ∧
        (_cmdRegisterObject s packet).2.sendQueue.length
          = min (s.sendQueue.length + 1) size ∧
        (_cmdRegisterObject s packet).2.sendQueue.length ≤ size) ∧
    (∀ (objects : List ObjPtr) (size : Nat), s.sendQueue = [] →
      s.localNode.sendQueueSize = (size : Int) → size < 4294967296 →
      (registerSequence s objects).sendQueue.length ≤ size) := by
  refine ⟨?_, ?_, ?_⟩
  · intro h
    simp [_cmdRegisterObject, h]
  · intro hpos size hsize hlt
    have hnot : ¬ s.sendOnRegister ≤ 0 := by omega
    have hs : (s.localNode.sendQueueSize % 4294967296).toNat = size := by
      rw [hsize]; omega
    refine ⟨⟨if s.localNode.sendQueueAge != 0 then
        s.localNode.sendQueueAge + s.localNode.time64 else 9223372036854775807,
        packet.object⟩, rfl, ?_, ?_, ?_⟩
    · unfold _cmdRegisterObject lastItems
      simp only [hnot, if_false, hs, _cmdRegisterObject.loop_drop, List.length_append,
        List.length_singleton]
      congr 1
      omega
    · unfold _cmdRegisterObject
      simp only [hnot, if_false, hs, _cmdRegisterObject.loop_drop, List.length_append,
        List.length_singleton, List.length_drop]
      omega
    · unfold _cmdRegisterObject
      simp only [hnot, if_false, hs, _cmdRegisterObject.loop_drop, List.length_append,
        List.length_singleton, List.length_drop]
      omega
  · intro objects size hempty hsize hlt
    have h := (registerSequence_frame objects s).2
    have hs : (s.localNode.sendQueueSize % 4294967296).toNat = size := by
      rw [hsize]; omega
    rw [hs, hempty] at h
    simpa using h

/-- C17, witness: with `NODE_SEND_QUEUE_SIZE` 4, registering the handles 1 to 5
in order leaves the items of 2, 3, 4 and 5 in the queue. -/
theorem cmdRegisterObject_queue_witness :
    0 < Example.sendOn.sendOnRegister ∧ Example.sendOn.localNode.sendQueueSize = (4 : Nat) ∧
    ((registerSequence Example.sendOn [1, 2, 3, 4, 5]).sendQueue.map
      (fun i => i.object)) = [2, 3, 4, 5] ∧
    (registerSequence Example.sendOn [1, 2, 3, 4, 5]).sendQueue.length ≤ 4 ∧
    (∃ item : SendQueueItem, item.object = 5 ∧
      (_cmdRegisterObject (registerSequence Example.sendOn [1, 2, 3, 4])
          { object := 5 }).2.sendQueue
        = lastItems (min ((registerSequence Example.sendOn [1, 2, 3, 4]).sendQueue.length + 1)
            4) ((registerSequence Example.sendOn [1, 2, 3, 4]).sendQueue ++ [item])) :=
  have h := (cmdRegisterObject_queue (registerSequence Example.sendOn [1, 2, 3, 4])
    { object := 5 }).2.1 (by decide) 4 (by decide) (by decide)
  have h' := (cmdRegisterObject_queue Example.sendOn { object := 1 }).2.2 [1, 2, 3, 4, 5] 4
    rfl (by decide) (by decide)
  ⟨by decide, by decide, by decide, h',
    h.elim (fun item hi => ⟨item, hi.1, hi.2.1⟩)⟩

/-! ## `removeNode` -/

theorem _cmdRemoveNode.instances_frame (node : Node) :
    ∀ (l : List ObjPtr) (s : ObjectStore),
      (_cmdRemoveNode.instances node l s).trace
        = s.trace ++ l.map (fun o => Event.removeSlaves o node) ∧
      (_cmdRemoveNode.instances node l s).objects = s.objects ∧
      (_cmdRemoveNode.instances node l s).heap = s.heap := by
  intro l
  induction l with
  | nil => intro s; simp [_cmdRemoveNode.instances]
  | cons o rest ih =>
      intro s
      rw [_cmdRemoveNode.instances]
      obtain ⟨h1, h2, h3⟩ := ih (s.emit (Event.removeSlaves o node))
      refine ⟨?_, h2, h3⟩
      rw [h1]
      simp

theorem _cmdRemoveNode.loop_calls (node : Node) :
    ∀ (t : List (UUID × List ObjPtr)) (s : ObjectStore),
      (_cmdRemoveNode.loop node t s).trace
        = s.trace ++ ((t.map Prod.snd).flatten.map (fun o => Event.removeSlaves o node)) ∧
      (_cmdRemoveNode.loop node t s).objects = s.objects ∧
      (_cmdRemoveNode.loop node t s).heap = s.heap := by
  intro t
  induction t with
  | nil => intro s; simp [_cmdRemoveNode.loop]
  | cons e rest ih =>
      intro s
      rw [_cmdRemoveNode.loop]
      obtain ⟨h1, h2, h3⟩ := ih (_cmdRemoveNode.instances node e.2 s)
      obtain ⟨i1, i2, i3⟩ := _cmdRemoveNode.instances_frame node e.2 s
      refine ⟨?_, h2.trans i2, h3.trans i3⟩
      rw [h1, i1]
      simp

/-- C18, as the code has it: `removeNode( A )` calls `removeSlaves( A )` once
on every attached object, in table order, between the registration and the
wait of its request; the attach table and the objects are as before, so a
slave instance whose master node is `A` stays attached. -/
theorem removeNode_spec (s : ObjectStore) (node : Node) :
    (removeNode s node).objects = s.objects ∧
    (removeNode s node).heap = s.heap ∧
    (removeNode s node).trace
      = s.trace ++ [Event.registerRequest s.nextRequestID none,
            Event.send Dest.localNode (Packet.removeNode
              { requestID := s.nextRequestID, node := node })]
          ++ (s.objects.map Prod.snd).flatten.map (fun o => Event.removeSlaves o node)
          ++ (if s.nextRequestID != LB_UNDEFINED_UINT32 then
                [Event.serveRequest s.nextRequestID] else [])
          ++ [Event.waitRequest s.nextRequestID] := by
  obtain ⟨h1, h2, h3⟩ := _cmdRemoveNode.loop_calls node s.objects
    ((s.registerRequest none).2.emit (Event.send Dest.localNode (Packet.removeNode
      ⟨(s.registerRequest none).1, node⟩)))
  have hdef : removeNode s node
      = (if (s.nextRequestID != LB_UNDEFINED_UINT32) = true then
          (_cmdRemoveNode.loop node s.objects
            ((s.registerRequest none).2.emit (Event.send Dest.localNode (Packet.removeNode
              ⟨(s.registerRequest none).1, node⟩)))).serveRequest s.nextRequestID
        else
          _cmdRemoveNode.loop node s.objects
            ((s.registerRequest none).2.emit (Event.send Dest.localNode (Packet.removeNode
              ⟨(s.registerRequest none).1, node⟩)))).waitRequest s.nextRequestID := rfl
  rw [hdef]
  generalize _cmdRemoveNode.loop node s.objects
    ((s.registerRequest none).2.emit (Event.send Dest.localNode (Packet.removeNode
      ⟨(s.registerRequest none).1, node⟩))) = L at h1 h2 h3
  have h1' : L.trace = s.trace ++ [Event.registerRequest s.nextRequestID none,
      Event.send Dest.localNode (Packet.removeNode ⟨s.nextRequestID, node⟩)]
      ++ (s.objects.map Prod.snd).flatten.map (fun o => Event.removeSlaves o node) := by
    rw [h1]
    simp [ObjectStore.registerRequest, ObjectStore.emit]
  cases hb : (s.nextRequestID != LB_UNDEFINED_UINT32) with
  | true =>
      simp only [if_true]
      refine ⟨h2, h3, ?_⟩
      show (L.trace ++ [Event.serveRequest s.nextRequestID])
        ++ [Event.waitRequest s.nextRequestID] = _
      rw [h1']
  | false =>
      simp only [Bool.false_eq_true, if_false]
      refine ⟨h2, h3, ?_⟩
      show L.trace ++ [Event.waitRequest s.nextRequestID] = _
      rw [h1']
      simp

/-- C18, counterexample: in `Example.orphan` the slave 2 is mapped from a
master on the node `Example.departed`; after `removeNode` of that node the
slave is still listed in the attach table, attached and bound to it. -/
theorem removeNode_counterexample :
    (Example.orphan.heap 2).cm.masterNode = some Example.departed ∧
    (Example.orphan.heap 2).isMaster = false ∧
    (removeNode Example.orphan Example.departed).objects = [(5, [2])] ∧
    ((removeNode Example.orphan Example.departed).heap 2).isAttached = true ∧
    ((removeNode Example.orphan Example.departed).heap 2).cm.masterNode
      = some Example.departed := by
  decide


/-! ## `_cmdUnsubscribeObject` -/

theorem _cmdUnsubscribeObject.loop_first_master (s : ObjectStore) (masterInstanceID : Nat) :
    ∀ objects : List ObjPtr,
      _cmdUnsubscribeObject.loop s masterInstanceID objects
        = objects.find? (fun o =>
            (s.heap o).isMaster && (s.heap o).instanceID == masterInstanceID) := by
  intro objects
  induction objects with
  | nil => rfl
  | cons o rest ih =>
      rw [_cmdUnsubscribeObject.loop, List.find?_cons]
      cases h : ((s.heap o).isMaster && (s.heap o).instanceID == masterInstanceID)
      · simpa using ih
      · simp

/-- C23: `_cmdUnsubscribeObject` returns true and leaves the attach table and
the objects as they are.  When the first attached instance of the object id
that is master and has the master instance ID of the packet is `master`, the
calls it makes are `removeSlave( node, slaveInstanceID )` on `master` and then
the send of one `DETACH_OBJECT` packet to the requesting node.  When the id has
no entry or no such instance, the only call is the send of that packet.  In
every case there is at most one `removeSlave` call. -/
theorem cmdUnsubscribeObject_spec (s : ObjectStore)
    (command : Command NodeUnsubscribeObjectPacket) :
    (∀ objects master, s.objects.lookup command.packet.objectID = some objects →
      objects.find? (fun o => (s.heap o).isMaster &&
        (s.heap o).instanceID == command.packet.masterInstanceID) = some master →
      (_cmdUnsubscribeObject s command).2.trace
        = s.trace ++ [Event.removeSlave master command.node command.packet.slaveInstanceID,
            Event.send (Dest.peer command.node) (Packet.detachObject
              (NodeDetachObjectPacket.ofUnsubscribe command.packet))]) ∧
    ((s.objects.lookup command.packet.objectID = none ∨
        ∃ objects, s.objects.lookup command.packet.objectID = some objects ∧
          objects.find? (fun o => (s.heap o).isMaster &&
            (s.heap o).instanceID == command.packet.masterInstanceID) = none) →
      (_cmdUnsubscribeObject s command).2.trace
        = s.trace ++ [Event.send (Dest.peer command.node) (Packet.detachObject
            (NodeDetachObjectPacket.ofUnsubscribe command.packet))]) ∧
    (removeSlaveCalls ((_cmdUnsubscribeObject s command).2.trace.drop s.trace.length)).length
      ≤ 1 ∧
    (_cmdUnsubscribeObject s command).1 = true ∧
    (_cmdUnsubscribeObject s command).2.objects = s.objects ∧
    (_cmdUnsubscribeObject s command).2.heap = s.heap := by
  have hfound : ∀ objects master,
      s.objects.lookup command.packet.objectID = some objects →
      objects.find? (fun o => (s.heap o).isMaster &&
        (s.heap o).instanceID == command.packet.masterInstanceID) = some master →
      _cmdUnsubscribeObject s command
        = (true, (s.emit (Event.removeSlave master command.node
            command.packet.slaveInstanceID)).emit
            (Event.send (Dest.peer command.node) (Packet.detachObject
              (NodeDetachObjectPacket.ofUnsubscribe command.packet)))) := by
    intro objects master hl hf
    simp only [_cmdUnsubscribeObject, hl, _cmdUnsubscribeObject.loop_first_master, hf]
  have hnot : (s.objects.lookup command.packet.objectID = none ∨
        ∃ objects, s.objects.lookup command.packet.objectID = some objects ∧
          objects.find? (fun o => (s.heap o).isMaster &&
            (s.heap o).instanceID == command.packet.masterInstanceID) = none) →
      _cmdUnsubscribeObject s command
        = (true, s.emit (Event.send (Dest.peer command.node) (Packet.detachObject
            (NodeDetachObjectPacket.ofUnsubscribe command.packet)))) := by
    rintro (hl | ⟨objects, hl, hf⟩)
    · simp only [_cmdUnsubscribeObject, hl]
    · simp only [_cmdUnsubscribeObject, hl, _cmdUnsubscribeObject.loop_first_master, hf]
  have hcases : (∃ objects master,
        s.objects.lookup command.packet.objectID = some objects ∧
        objects.find? (fun o => (s.heap o).isMaster &&
          (s.heap o).instanceID == command.packet.masterInstanceID) = some master) ∨
      (s.objects.lookup command.packet.objectID = none ∨
        ∃ objects, s.objects.lookup command.packet.objectID = some objects ∧
          objects.find? (fun o => (s.heap o).isMaster &&
            (s.heap o).instanceID == command.packet.masterInstanceID) = none) := by
    cases hl : s.objects.lookup command.packet.objectID with
    | none => exact Or.inr (Or.inl rfl)
    | some objects =>
        cases hf : objects.find? (fun o => (s.heap o).isMaster &&
            (s.heap o).instanceID == command.packet.masterInstanceID) with
        | none => exact Or.inr (Or.inr ⟨objects, rfl, hf⟩)
        | some master => exact Or.inl ⟨objects, master, rfl, hf⟩
  refine ⟨?_, ?_, ?_, ?_, ?_, ?_⟩
  · intro objects master hl hf
    rw [hfound objects master hl hf]
    simp [ObjectStore.emit]
  · intro h
    rw [hnot h]
    rfl
  · rcases hcases with ⟨objects, master, hl, hf⟩ | h
    · rw [hfound objects master hl hf]
      simp [ObjectStore.emit, removeSlaveCalls]
    · rw [hnot h]
      simp [ObjectStore.emit, removeSlaveCalls]
  · rfl
  · rcases hcases with ⟨objects, master, hl, hf⟩ | h
    · rw [hfound objects master hl hf]; rfl
    · rw [hnot h]; rfl
  · rcases hcases with ⟨objects, master, hl, hf⟩ | h
    · rw [hfound objects master hl hf]; rfl
    · rw [hnot h]; rfl

/-- C23, witness: on `Example.slaveFirst` (instances 2, a slave, and 1, the
master with instance ID 1, of the object 5) the unsubscribe of the slave instance
3 from the master instance 1 removes the slave on the handle 1 and
answers; for the master instance 9, which does not exist, it only answers. -/
theorem cmdUnsubscribeObject_spec_witness :
    (_cmdUnsubscribeObject Example.slaveFirst (Example.unsubscribe 1)).2.trace
      = [Event.removeSlave 1 Example.peer 3,
         Event.send (Dest.peer Example.peer) (Packet.detachObject
           { requestID := 4, objectID := 5, objectInstanceID := 3 })] ∧
    (_cmdUnsubscribeObject Example.slaveFirst (Example.unsubscribe 9)).2.trace
      = [Event.send (Dest.peer Example.peer) (Packet.detachObject
           { requestID := 4, objectID := 5, objectInstanceID := 3 })] :=
  ⟨(cmdUnsubscribeObject_spec Example.slaveFirst (Example.unsubscribe 1)).1 [2, 1] 1
      (by decide) (by decide),
   (cmdUnsubscribeObject_spec Example.slaveFirst (Example.unsubscribe 9)).2.1
      (Or.inr ⟨[2, 1], by decide, by decide⟩)⟩

/-! ## `notifyCommandThreadIdle` -/

/-- C24: with an empty queue `notifyCommandThreadIdle` returns false and the
store as it is.  With the head `item`: when `item.age` is greater than the
time and there are peers, the one call is `sendInstanceData` of the head
object to these peers and the head is popped; when `item.age` is not greater
than the time, the head is popped and nothing is sent; when `item.age` is
greater than the time and there is no peer, the queue stays as it is and
nothing is sent.  The result is true exactly when the queue afterwards is not
empty, and the queue afterwards is the old queue or the old queue without its
head. -/
theorem notifyCommandThreadIdle_spec (s : ObjectStore) (nodes : List Node) :
    (s.sendQueue = [] → notifyCommandThreadIdle s nodes = (false, s)) ∧
    (∀ item rest, s.sendQueue = item :: rest →
      (item.age > s.localNode.time64 → nodes ≠ [] →
        (notifyCommandThreadIdle s nodes).2.sendQueue = rest ∧
        (notifyCommandThreadIdle s nodes).2.trace
          = s.trace ++ [Event.sendInstanceData item.object nodes]) ∧
      (¬ item.age > s.localNode.time64 →
        (notifyCommandThreadIdle s nodes).2.sendQueue = rest ∧
        (notifyCommandThreadIdle s nodes).2.trace = s.trace) ∧
      (item.age > s.localNode.time64 → nodes = [] →
        (notifyCommandThreadIdle s nodes).2.sendQueue = item :: rest ∧
        instanceDataSends ((notifyCommandThreadIdle s nodes).2.trace.drop s.trace.length)
          = [])) ∧
    ((notifyCommandThreadIdle s nodes).1 = true ↔
      (notifyCommandThreadIdle s nodes).2.sendQueue ≠ []) ∧
    ((notifyCommandThreadIdle s nodes).2.sendQueue = s.sendQueue ∨
      (notifyCommandThreadIdle s nodes).2.sendQueue = s.sendQueue.tail) ∧
    (notifyCommandThreadIdle s nodes).2.heap = s.heap ∧
    (notifyCommandThreadIdle s nodes).2.objects = s.objects := by
  cases hq : s.sendQueue with
  | nil =>
      have h : notifyCommandThreadIdle s nodes = (false, s) := by
        simp only [notifyCommandThreadIdle, hq]
      rw [h]
      simp [hq]
  | cons item rest =>
      by_cases hage : item.age > s.localNode.time64
      · cases hn : nodes with
        | nil =>
            have h : notifyCommandThreadIdle s [] = (true, s.emit Event.yield) := by
              simp [notifyCommandThreadIdle, hq, hage, ObjectStore.emit]
            rw [h]
            simp [hq, hage, ObjectStore.emit, instanceDataSends]
        | cons n ns =>
            have h : notifyCommandThreadIdle s (n :: ns)
                = (!rest.isEmpty,
                    { s.emit (Event.sendInstanceData item.object (n :: ns)) with
                      sendQueue := rest }) := by
              simp [notifyCommandThreadIdle, hq, hage]
            rw [h]
            simp [hq, hage, ObjectStore.emit, List.isEmpty_iff]
      · have h : notifyCommandThreadIdle s nodes
            = (!rest.isEmpty, { s with sendQueue := rest }) := by
          simp [notifyCommandThreadIdle, hq, hage]
        rw [h]
        simp [hq, hage, List.isEmpty_iff]

/-- C24, witness: on `Example.queuedTwice` at time 0 with the peer 7, the
head, whose age is 10, is sent and popped and the second item stays; without
a peer the queue stays as it is. -/
theorem notifyCommandThreadIdle_spec_witness :
    Example.queuedTwice.sendQueue = [{ age := 10, object := 1 }, { age := 20, object := 1 }] ∧
    (notifyCommandThreadIdle Example.queuedTwice [Example.peer]).2.sendQueue
      = [{ age := 20, object := 1 }] ∧
    (notifyCommandThreadIdle Example.queuedTwice [Example.peer]).2.trace
      = Example.queuedTwice.trace ++ [Event.sendInstanceData 1 [Example.peer]] ∧
    (notifyCommandThreadIdle Example.queuedTwice []).2.sendQueue
      = [{ age := 10, object := 1 }, { age := 20, object := 1 }] :=
  have h := (notifyCommandThreadIdle_spec Example.queuedTwice [Example.peer]).2.1
    { age := 10, object := 1 } [{ age := 20, object := 1 }] (by decide)
  have h' := (notifyCommandThreadIdle_spec Example.queuedTwice []).2.1
    { age := 10, object := 1 } [{ age := 20, object := 1 }] (by decide)
  ⟨by decide, (h.1 (by decide) (by decide)).1, (h.1 (by decide) (by decide)).2,
    (h'.2.2 (by decide) rfl).1⟩

/-! ## `_genNextID`: the sequence of instance IDs -/

theorem wrapInt32_of_range (x : Int) (h1 : -2147483648 ≤ x) (h2 : x < 2147483648) :
    wrapInt32 x = x := by
  unfold wrapInt32
  omega

/-- One call of `_genNextID` on a counter whose successor, shifted by
`0x7FFFFFFF`, is an instance ID: the loop body runs once. -/
theorem _genNextID_once (val : Int) (k : Nat) (hk : k ≤ EQ_INSTANCE_MAX)
    (hval : val + 1 + 2147483647 = (k : Int)) :
    _genNextID val = (k, val + 1) := by
  have hmax : EQ_INSTANCE_MAX = 4294967280 := rfl
  have hw : wrapInt32 (val + 1) = val + 1 := by
    apply wrapInt32_of_range <;> omega
  have hr : ((val + 1 + 2147483647) % 4294967296).toNat = k := by
    rw [hval]
    omega
  have hfuel : (4294967297 : Nat) = 4294967296 + 1 := rfl
  unfold _genNextID
  rw [hfuel, _genNextID.loop, hw, hr]
  have hnot : ¬ k > EQ_INSTANCE_MAX := by omega
  simp only [hnot, if_false]

theorem genSequence_range (n : Nat) : ∀ j : Nat, j + n ≤ EQ_INSTANCE_MAX →
    genSequence n (ObjectStore.initialInstanceIDs + (j : Int)) = List.range' (j + 1) n := by
  induction n with
  | zero => intro j _; rfl
  | succ m ih =>
      intro j hj
      have hstep : _genNextID (ObjectStore.initialInstanceIDs + (j : Int))
          = (j + 1, ObjectStore.initialInstanceIDs + (j : Int) + 1) := by
        apply _genNextID_once
        · omega
        · unfold ObjectStore.initialInstanceIDs
          push_cast
          omega
      have hnext : ObjectStore.initialInstanceIDs + (j : Int) + 1
          = ObjectStore.initialInstanceIDs + ((j + 1 : Nat) : Int) := by
        push_cast
        omega
      rw [genSequence, hstep]
      simp only []
      rw [hnext, ih (j + 1) (by omega)]
      rfl

theorem mapObjectNB.cacheHint_instanceID (cache : Option InstanceCache) (id : UUID)
    (q : NodeMapObjectPacket) :
    (mapObjectNB.cacheHint cache id q).instanceID = q.instanceID := by
  unfold mapObjectNB.cacheHint
  split
  · rfl
  · split <;> rfl

/-- A mapping that is started hands the next instance ID to the `MAP_OBJECT`
packet and writes the counter back. -/
theorem mapObjectNB.toMaster_counter (packet0 : NodeMapObjectPacket) (s : ObjectStore)
    (obj : ObjPtr) (id : UUID) (version : Nat) (master : Node)
    (hgen : UUID.isGenerated id = true)
    (hatt : (s.heap obj).isAttached = false)
    (hslave : (s.heap obj).isMaster = false)
    (hconn : master.isConnected = true) :
    (mapPacketsSent ((mapObjectNB.toMaster packet0 s (some obj) id version master).2.trace.drop
        s.trace.length)).map (fun p => p.instanceID) = [(_genNextID s.instanceIDs).1] ∧
    (mapObjectNB.toMaster packet0 s (some obj) id version master).2.instanceIDs
      = (_genNextID s.instanceIDs).2 := by
  have hres : mapObjectNB.toMaster packet0 s (some obj) id version master
      = ((mapObjectNB.cacheHint s.instanceCache id
            { packet0 with
                requestID := s.nextRequestID
                objectID := id
                requestedVersion := version
                maxVersion := (s.heap obj).maxVersions
                instanceID := (_genNextID s.instanceIDs).1 }).requestID,
          (({ (s.registerRequest (some obj)).2 with
                instanceIDs := (_genNextID s.instanceIDs).2 } : ObjectStore).emit
              (Event.notifyAttach obj)).emit
            (Event.send (Dest.peer master) (Packet.mapObject
              (mapObjectNB.cacheHint s.instanceCache id
                { packet0 with
                    requestID := s.nextRequestID
                    objectID := id
                    requestedVersion := version
                    maxVersion := (s.heap obj).maxVersions
                    instanceID := (_genNextID s.instanceIDs).1 })))) := by
    unfold mapObjectNB.toMaster
    simp only [hgen, hatt, hslave, hconn, Bool.not_true, Bool.false_eq_true, if_false,
      Bool.or_self]
    rfl
  rw [hres]
  refine ⟨?_, rfl⟩
  simp [mapPacketsSent, ObjectStore.emit, ObjectStore.registerRequest,
    mapObjectNB.cacheHint_instanceID]

/-- One request either hands out the next instance ID and leaves the counter
`_genNextID` returns, or is a map request that fails and leaves the counter
alone. -/
theorem idRequest_run_counter (packet0 : NodeMapObjectPacket) (s : ObjectStore)
    (request : IdRequest) :
    ((IdRequest.run packet0 s request).1 = [(_genNextID s.instanceIDs).1] ∧
      (IdRequest.run packet0 s request).2.instanceIDs = (_genNextID s.instanceIDs).2) ∨
    ((¬ ∃ object id, request = IdRequest.attach object id) ∧
      (IdRequest.run packet0 s request).1 = [] ∧
      (IdRequest.run packet0 s request).2.instanceIDs = s.instanceIDs) := by
  cases request with
  | attach object id =>
      left
      refine ⟨?_, rfl⟩
      show [((_attachObject s object id EQ_INSTANCE_INVALID).heap object).instanceID] = _
      rw [(_attachObject_generated s object id).1]
      simp [Object.attach]
  | map object id version master =>
      by_cases h : UUID.isGenerated id = true ∧ (s.heap object).isAttached = false ∧
          (s.heap object).isMaster = false ∧ master.isConnected = true
      · left
        exact mapObjectNB.toMaster_counter packet0 s object id version master
          h.1 h.2.1 h.2.2.1 h.2.2.2
      · right
        have hfail : mapObjectNB.toMaster packet0 s (some object) id version master
            = (LB_UNDEFINED_UINT32, s) := by
          apply mapObjectNB.toMaster_failure
          by_cases hg : UUID.isGenerated id = true
          · by_cases ha : (s.heap object).isAttached = false
            · by_cases hm : (s.heap object).isMaster = false
              · right; right; right
                have hc : ¬ master.isConnected = true := fun hc => h ⟨hg, ha, hm, hc⟩
                simpa using hc
              · right; right; left
                exact ⟨object, rfl, Or.inr (by simpa using hm)⟩
            · right; right; left
              exact ⟨object, rfl, Or.inl (by simpa using ha)⟩
          · left
            simpa using hg
        refine ⟨?_, ?_, ?_⟩
        · rintro ⟨o, i, ho⟩
          cases ho
        · show (mapPacketsSent ((mapObjectNB.toMaster packet0 s (some object) id version
            master).2.trace.drop s.trace.length)).map (fun p => p.instanceID) = []
          rw [hfail]
          simp [mapPacketsSent]
        · show (mapObjectNB.toMaster packet0 s (some object) id version
            master).2.instanceIDs = s.instanceIDs
          rw [hfail]

/-- The IDs handed out to a sequence of requests on a store whose counter has
been advanced `j` times from its initial value are `j + 1`, `j + 2`, ...: one
for each attach request and each mapping that is started. -/
theorem handedOut_range (packet0 : NodeMapObjectPacket) :
    ∀ (requests : List IdRequest) (s : ObjectStore) (j : Nat),
      s.instanceIDs = ObjectStore.initialInstanceIDs + (j : Int) →
      j + requests.length ≤ EQ_INSTANCE_MAX →
      ∃ m, m ≤ requests.length ∧
        ((∀ r ∈ requests, ∃ object id, r = IdRequest.attach object id) →
          m = requests.length) ∧
        handedOut packet0 requests s = List.range' (j + 1) m := by
  intro requests
  induction requests with
  | nil =>
      intro s j _ _
      exact ⟨0, Nat.le_refl _, fun _ => rfl, rfl⟩
  | cons request rest ih =>
      intro s j hs hj
      simp only [List.length_cons] at hj
      have hstep : _genNextID s.instanceIDs
          = (j + 1, ObjectStore.initialInstanceIDs + ((j + 1 : Nat) : Int)) := by
        rw [hs]
        have h := _genNextID_once (ObjectStore.initialInstanceIDs + (j : Int)) (j + 1)
          (by omega) (by unfold ObjectStore.initialInstanceIDs; push_cast; omega)
        rw [h]
        congr 1
        push_cast
        omega
      rcases idRequest_run_counter packet0 s request with ⟨h1, h2⟩ | ⟨hmap, h1, h2⟩
      · rw [hstep] at h1 h2
        obtain ⟨m, hm, hall, heq⟩ := ih (IdRequest.run packet0 s request).2 (j + 1) h2
          (by omega)
        refine ⟨m + 1, by simp only [List.length_cons]; omega, ?_, ?_⟩
        · intro hattach
          simp only [List.length_cons]
          rw [hall (fun r hr => hattach r (List.mem_cons_of_mem _ hr))]
        · rw [handedOut, h1, heq]
          rfl
      · obtain ⟨m, hm, -, heq⟩ := ih (IdRequest.run packet0 s request).2 j (h2.trans hs)
          (by omega)
        refine ⟨m, by simp only [List.length_cons]; omega, ?_, ?_⟩
        · intro hattach
          exact absurd (hattach request (List.mem_cons_self _ _)) hmap
        · rw [handedOut, h1, heq]
          rfl

/-- C25: `_genNextID` returns for every value of the counter (the loop ends
within 2^32 + 1 iterations) with an instance ID of at most `EQ_INSTANCE_MAX`.
On the counter the constructor sets, `-0x7FFFFFFF`, the `k`-th call returns
`k` for `1 <= k <= EQ_INSTANCE_MAX`: the counter before it is
`-0x7FFFFFFF + (k - 1)` and after it `-0x7FFFFFFF + k`.  So the IDs of the
first `n <= EQ_INSTANCE_MAX` calls are 1 to `n`, pairwise distinct.  The
store makes these calls for its requests and writes the counter back: on a
store with the initial counter, the instance IDs handed out to a sequence of
at most `EQ_INSTANCE_MAX` requests, each an attach through `_attachObject`
without a given instance ID or a mapping through `mapObjectNB`, are 1, 2, ...
in request order (one for each attach and each mapping that is started, none
for a mapping that fails), hence pairwise distinct. -/
theorem genNextID_sequence :
    (∀ val : Int, ∃ r, _genNextID.loop 4294967297 val = some r ∧ _genNextID val = r ∧
      r.1 ≤ EQ_INSTANCE_MAX) ∧
    (∀ k : Nat, 1 ≤ k → k ≤ EQ_INSTANCE_MAX →
      _genNextID (ObjectStore.initialInstanceIDs + ((k - 1 : Nat) : Int))
        = (k, ObjectStore.initialInstanceIDs + (k : Int))) ∧
    (∀ n : Nat, n ≤ EQ_INSTANCE_MAX →
      genSequence n ObjectStore.initialInstanceIDs = List.range' 1 n ∧
      (genSequence n ObjectStore.initialInstanceIDs).Nodup) ∧
    (∀ (packet0 : NodeMapObjectPacket) (requests : List IdRequest) (s : ObjectStore),
      s.instanceIDs = ObjectStore.initialInstanceIDs →
      requests.length ≤ EQ_INSTANCE_MAX →
      handedOut packet0 requests s
        = List.range' 1 (handedOut packet0 requests s).length ∧
      (handedOut packet0 requests s).Nodup ∧
      (handedOut packet0 requests s).length ≤ requests.length ∧
      ((∀ r ∈ requests, ∃ object id, r = IdRequest.attach object id) →
        handedOut packet0 requests s = List.range' 1 requests.length)) := by
  refine ⟨?_, ?_, ?_, ?_⟩
  · intro val
    obtain ⟨r, hr⟩ := _genNextID.loop_isSome 4294967296 val (by omega)
    refine ⟨r, hr, ?_, _genNextID.loop_le _ _ _ hr⟩
    unfold _genNextID
    rw [hr]
  · intro k h1 hk
    have h := _genNextID_once (ObjectStore.initialInstanceIDs + ((k - 1 : Nat) : Int)) k hk
      (by unfold ObjectStore.initialInstanceIDs; omega)
    rw [h]
    congr 1
    unfold ObjectStore.initialInstanceIDs
    omega
  · intro n hn
    have h := genSequence_range n 0 (by omega)
    simp only [Nat.cast_zero, add_zero, zero_add] at h
    rw [h]
    exact ⟨rfl, List.nodup_range' 1 n⟩
  · intro packet0 requests s hs hlen
    obtain ⟨m, hm, hall, heq⟩ := handedOut_range packet0 requests s 0
      (by rw [hs]; simp) (by omega)
    simp only [zero_add] at heq
    have hl : (handedOut packet0 requests s).length = m := by
      rw [heq, List.length_range']
    refine ⟨by rw [hl]; exact heq, by rw [heq]; exact List.nodup_range' 1 m,
      by rw [hl]; exact hm, ?_⟩
    intro hattach
    rw [heq, hall hattach]

/-- C25, witness: the first three calls on the initial counter return 1, 2
and 3, and the third call alone returns 3 on the counter `-0x7FFFFFFF + 2`.
On the fresh store `Example.store` the requests `Example.requests` (attach
the handle 1, map the handle 2, attach the handle 3) are handed the instance
IDs 1, 2 and 3. -/
theorem genNextID_sequence_witness :
    genSequence 3 ObjectStore.initialInstanceIDs = [1, 2, 3] ∧
    _genNextID (ObjectStore.initialInstanceIDs + ((3 - 1 : Nat) : Int))
      = (3, ObjectStore.initialInstanceIDs + (3 : Nat)) ∧
    Example.store.instanceIDs = ObjectStore.initialInstanceIDs ∧
    handedOut Example.packet0 Example.requests Example.store = [1, 2, 3] ∧
    (handedOut Example.packet0 Example.requests Example.store).Nodup :=
  have h := genNextID_sequence.2.2.2 Example.packet0 Example.requests Example.store rfl
    (by decide)
  ⟨(genNextID_sequence.2.2.1 3 (by decide)).1,
   genNextID_sequence.2.1 3 (by decide) (by decide),
   rfl, h.1.trans (by decide), h.2.1⟩

/-! ## The attach table never holds an empty list -/

theorem lookup_pushBack_ne (id k : UUID) (object : ObjPtr) (hk : k ≠ id) :
    ∀ (t : List (UUID × List ObjPtr)), (pushBack t id object).lookup k = t.lookup k := by
  intro t
  induction t with
  | nil =>
      have hb : (k == id) = false := by simpa using hk
      simp [pushBack, List.lookup, hb]
  | cons e rest ih =>
      obtain ⟨k0, l0⟩ := e
      rw [pushBack]
      by_cases h0 : k0 = id
      · subst h0
        have hb : (k == k0) = false := by simpa using hk
        simp [List.lookup, hb]
      · simp only [h0, if_false, List.lookup]
        rw [ih]

theorem lookup_setList_self (id : UUID) (l : List ObjPtr) :
    ∀ (t : List (UUID × List ObjPtr)) (l0 : List ObjPtr), t.lookup id = some l0 →
      (setList t id l).lookup id = some l := by
  intro t
  induction t with
  | nil => intro l0 h; cases h
  | cons e rest ih =>
      obtain ⟨k0, l1⟩ := e
      intro l0 h
      rw [setList]
      by_cases h0 : k0 = id
      · subst h0
        simp [List.lookup]
      · have hb : (id == k0) = false := by simpa using fun e => h0 e.symm
        simp only [List.lookup, hb] at h
        simp only [h0, if_false, List.lookup, hb]
        exact ih l0 h

theorem lookup_setList_ne (id k : UUID) (l : List ObjPtr) (hk : k ≠ id) :
    ∀ (t : List (UUID × List ObjPtr)), (setList t id l).lookup k = t.lookup k := by
  intro t
  induction t with
  | nil => rfl
  | cons e rest ih =>
      obtain ⟨k0, l0⟩ := e
      rw [setList]
      by_cases h0 : k0 = id
      · subst h0
        have hb : (k == k0) = false := by simpa using hk
        simp [List.lookup, hb]
      · simp only [h0, if_false, List.lookup]
        rw [ih]

theorem lookup_eraseKey_self (id : UUID) :
    ∀ (t : List (UUID × List ObjPtr)), (eraseKey t id).lookup id = none := by
  intro t
  induction t with
  | nil => rfl
  | cons e rest ih =>
      obtain ⟨k0, l0⟩ := e
      unfold eraseKey at ih ⊢
      by_cases h0 : k0 = id
      · subst h0
        simpa [List.filter_cons] using ih
      · have hb : (id == k0) = false := by simpa using fun e => h0 e.symm
        simpa [List.filter_cons, h0, List.lookup, hb] using ih

theorem lookup_eraseKey_ne (id k : UUID) (hk : k ≠ id) :
    ∀ (t : List (UUID × List ObjPtr)), (eraseKey t id).lookup k = t.lookup k := by
  intro t
  induction t with
  | nil => rfl
  | cons e rest ih =>
      obtain ⟨k0, l0⟩ := e
      unfold eraseKey at ih ⊢
      by_cases h0 : k0 = id
      · subst h0
        have hb : (k == k0) = false := by simpa using hk
        simpa [List.filter_cons, List.lookup, hb] using ih
      · simp only [List.filter_cons, bne_iff_ne, ne_eq, h0, not_false_eq_true, if_true,
          List.lookup]
        rw [ih]

theorem noEmpty_pushBack (id : UUID) (object : ObjPtr) :
    ∀ (t : List (UUID × List ObjPtr)), (∀ e ∈ t, e.2 ≠ []) →
      ∀ e ∈ pushBack t id object, e.2 ≠ [] := by
  intro t
  induction t with
  | nil =>
      intro _ e he
      simp only [pushBack, List.mem_singleton] at he
      subst he
      simp
  | cons e0 rest ih =>
      obtain ⟨k0, l0⟩ := e0
      intro h e he
      rw [pushBack] at he
      by_cases h0 : k0 = id
      · simp only [h0, if_true] at he
        rcases List.mem_cons.1 he with he | he
        · subst he
          simp
        · exact h e (List.mem_cons_of_mem _ he)
      · simp only [h0, if_false] at he
        rcases List.mem_cons.1 he with he | he
        · subst he
          exact h _ (List.mem_cons_self _ _)
        · exact ih (fun x hx => h x (List.mem_cons_of_mem _ hx)) e he

theorem noEmpty_setList (id : UUID) (l : List ObjPtr) (hl : l ≠ []) :
    ∀ (t : List (UUID × List ObjPtr)), (∀ e ∈ t, e.2 ≠ []) →
      ∀ e ∈ setList t id l, e.2 ≠ [] := by
  intro t
  induction t with
  | nil => intro _ e he; simp [setList] at he
  | cons e0 rest ih =>
      obtain ⟨k0, l0⟩ := e0
      intro h e he
      rw [setList] at he
      by_cases h0 : k0 = id
      · simp only [h0, if_true] at he
        rcases List.mem_cons.1 he with he | he
        · subst he
          exact hl
        · exact h e (List.mem_cons_of_mem _ he)
      · simp only [h0, if_false] at he
        rcases List.mem_cons.1 he with he | he
        · subst he
          exact h _ (List.mem_cons_self _ _)
        · exact ih (fun x hx => h x (List.mem_cons_of_mem _ hx)) e he

theorem noEmpty_eraseKey (id : UUID) (t : List (UUID × List ObjPtr))
    (h : ∀ e ∈ t, e.2 ≠ []) : ∀ e ∈ eraseKey t id, e.2 ≠ [] := by
  intro e he
  unfold eraseKey at he
  exact h e (List.mem_filter.1 he).1

theorem _attachObject_objects (s : ObjectStore) (object : ObjPtr) (id : UUID)
    (inInstanceID : Nat) :
    (_attachObject s object id inInstanceID).objects = pushBack s.objects id object := by
  unfold _attachObject
  simp only [ObjectStore.emit, ObjectStore.setObject]
  split <;> rfl

theorem _detachObject_objects (s : ObjectStore) (object : ObjPtr)
    (h : (s.heap object).isAttached = true) :
    (_detachObject s object).objects
      = if (((s.objects.lookup (s.heap object).id).getD []).erase object).isEmpty then
          eraseKey s.objects (s.heap object).id
        else setList s.objects (s.heap object).id
          (((s.objects.lookup (s.heap object).id).getD []).erase object) := by
  unfold _detachObject
  simp only [h, Bool.not_true, Bool.false_eq_true, if_false, ObjectStore.setObject]

theorem _detachObject_detached (s : ObjectStore) (object : ObjPtr)
    (h : (s.heap object).isAttached = false) : _detachObject s object = s := by
  unfold _detachObject
  simp [h]

theorem _detachObject_noEmpty (s : ObjectStore) (object : ObjPtr) (h : s.noEmptyList) :
    (_detachObject s object).noEmptyList := by
  cases ha : (s.heap object).isAttached with
  | false => rw [_detachObject_detached s object ha]; exact h
  | true =>
      unfold ObjectStore.noEmptyList
      rw [_detachObject_objects s object ha]
      split
      · exact noEmpty_eraseKey _ _ h
      · rename_i hne
        apply noEmpty_setList _ _ _ _ h
        intro hnil
        apply hne
        rw [hnil]
        rfl

theorem _cmdDetachObject.loop_noEmpty (objectInstanceID : Nat) :
    ∀ (l : List ObjPtr) (s : ObjectStore), s.noEmptyList →
      (_cmdDetachObject.loop objectInstanceID l s).noEmptyList := by
  intro l
  induction l with
  | nil => intro s h; exact h
  | cons o rest ih =>
      intro s h
      rw [_cmdDetachObject.loop]
      split
      · exact _detachObject_noEmpty s o h
      · exact ih s h

theorem _cmdUnmapObject.loop_objects :
    ∀ (l : List ObjPtr) (s : ObjectStore), (_cmdUnmapObject.loop l s).objects = s.objects := by
  intro l
  induction l with
  | nil => intro s; rfl
  | cons o rest ih =>
      intro s
      rw [_cmdUnmapObject.loop, ih]
      rfl

theorem replace_ne_nil (a b : ObjPtr) : ∀ l : List ObjPtr, l ≠ [] → l.replace a b ≠ [] := by
  intro l hl
  cases l with
  | nil => exact absurd rfl hl
  | cons x xs =>
      rw [List.replace_cons]
      split <;> simp

/-- Every function that writes the attach table keeps it free of empty lists. -/
theorem tableOp_run_noEmpty (s : ObjectStore) (op : TableOp) (h : s.noEmptyList) :
    (op.run s).noEmptyList := by
  cases op with
  | _attachObject object id inInstanceID =>
      show (_attachObject s object id inInstanceID).noEmptyList
      unfold ObjectStore.noEmptyList
      rw [_attachObject_objects]
      exact noEmpty_pushBack id object _ h
  | _detachObject object => exact _detachObject_noEmpty s object h
  | _cmdDetachObject packet =>
      show (_cmdDetachObject s packet).2.noEmptyList
      unfold _cmdDetachObject
      cases hl : s.objects.lookup packet.objectID with
      | none => exact h
      | some objects => exact _cmdDetachObject.loop_noEmpty _ objects s h
  | _cmdUnmapObject packet =>
      show (_cmdUnmapObject s packet).2.noEmptyList
      have key : ∀ s1 : ObjectStore, s1.noEmptyList →
          (match s1.objects.lookup packet.objectID with
            | none => (true, s1)
            | some objects =>
                (true, _cmdUnmapObject.loop objects
                  { s1 with objects := eraseKey s1.objects packet.objectID })).2.noEmptyList := by
        intro s1 hs1
        split
        · exact hs1
        · unfold ObjectStore.noEmptyList
          rw [_cmdUnmapObject.loop_objects]
          exact noEmpty_eraseKey _ _ hs1
      unfold _cmdUnmapObject
      cases hc : s.instanceCache with
      | none => exact key s h
      | some c => exact key { s with instanceCache := some (c.erase packet.objectID) } h
  | swapObject oldObject newObject =>
      show (swapObject s oldObject newObject).noEmptyList
      unfold swapObject
      split
      · exact h
      · dsimp only
        split
        · exact h
        · rename_i objects hl
          split
          · exact h
          · rename_i hc
            unfold ObjectStore.noEmptyList
            apply noEmpty_setList _ _ _ _ h
            apply replace_ne_nil
            intro hnil
            rw [hnil] at hc
            simp at hc

theorem runOps_noEmpty (ops : List TableOp) :
    ∀ s : ObjectStore, s.noEmptyList → (runOps s ops).noEmptyList := by
  induction ops with
  | nil => intro s h; exact h
  | cons op rest ih =>
      intro s h
      unfold runOps
      rw [List.foldl_cons]
      exact ih _ (tableOp_run_noEmpty s op h)

/-- C26: starting from an empty attach table, after any sequence of
`_attachObject`, `_detachObject`, `_cmdDetachObject`, `_cmdUnmapObject` and
`swapObject` calls no object id maps to an empty list.  `_attachObject` puts
the object at the end of the list of its id and leaves the other lists alone.
`_detachObject` of an attached object whose id has the list `l` leaves
`l.erase object` (the list without the first occurrence of the object, the
others in order) under the id, or no entry when that list is empty, and
leaves the other lists alone; `_detachObject` of an object that is not
attached returns the store as it is. -/
theorem attachTable_invariant (s : ObjectStore) (ops : List TableOp) (object : ObjPtr)
    (id : UUID) (inInstanceID : Nat) :
    (s.objects = [] → (runOps s ops).noEmptyList) ∧
    ((_attachObject s object id inInstanceID).objects.lookup id
        = some ((s.objects.lookup id).getD [] ++ [object]) ∧
      ∀ k, k ≠ id →
        (_attachObject s object id inInstanceID).objects.lookup k = s.objects.lookup k) ∧
    (∀ l, (s.heap object).isAttached = true →
      s.objects.lookup (s.heap object).id = some l →
      (_detachObject s object).objects.lookup (s.heap object).id
        = (if l.erase object = [] then none else some (l.erase object)) ∧
      (∀ k, k ≠ (s.heap object).id →
        (_detachObject s object).objects.lookup k = s.objects.lookup k) ∧
      (object ∈ l → (l.erase object).length + 1 = l.length)) ∧
    ((s.heap object).isAttached = false → _detachObject s object = s) := by
  refine ⟨?_, ⟨?_, ?_⟩, ?_, ?_⟩
  · intro h
    apply runOps_noEmpty
    unfold ObjectStore.noEmptyList
    rw [h]
    intro e he
    cases he
  · rw [_attachObject_objects]
    exact lookup_pushBack id object s.objects
  · intro k hk
    rw [_attachObject_objects]
    exact lookup_pushBack_ne id k object hk s.objects
  · intro l ha hl
    rw [_detachObject_objects s object ha, hl]
    simp only [Option.getD_some]
    refine ⟨?_, ?_, ?_⟩
    · by_cases he : l.erase object = []
      · simp only [he, List.isEmpty_nil, if_true]
        exact lookup_eraseKey_self _ _
      · have hne : (l.erase object).isEmpty = false := by
          cases hx : l.erase object with
          | nil => exact absurd hx he
          | cons a as => rfl
        simp only [hne, Bool.false_eq_true, if_false, he]
        exact lookup_setList_self _ _ _ l hl
    · intro k hk
      split
      · exact lookup_eraseKey_ne _ k hk _
      · exact lookup_setList_ne _ k _ hk _
    · intro hmem
      rw [List.length_erase_of_mem hmem]
      have : 0 < l.length := List.length_pos_of_mem hmem
      omega
  · exact _detachObject_detached s object

/-- C26, witness: on `Example.slaveFirst`, whose table lists the handles 2
and 1 under the id 5, `_detachObject` of the attached handle 2 leaves the
handle 1 under the id 5; a run of calls on the empty table of `Example.store`
ends with the handle 3 alone under the id 6. -/
theorem attachTable_invariant_witness :
    Example.store.objects = [] ∧
    (Example.slaveFirst.heap 2).isAttached = true ∧
    Example.slaveFirst.objects.lookup (Example.slaveFirst.heap 2).id = some [2, 1] ∧
    (_detachObject Example.slaveFirst 2).objects.lookup 5 = some [1] ∧
    (runOps Example.store Example.ops).noEmptyList ∧
    (runOps Example.store Example.ops).objects = [(6, [3])] :=
  have h := (attachTable_invariant Example.slaveFirst [] 2 5 1).2.2.1 [2, 1]
    (by decide) (by decide)
  ⟨rfl, by decide, by decide, h.1,
    (attachTable_invariant Example.store Example.ops 0 0 0).1 rfl, by decide⟩

end co

namespace eqNet

/-! Node lifecycle (`Node::Node`, `listen`, `stopListening`, `_cmdStop`) -/

theorem Net.setNode_same (w : Net) (p : NodePtr) (n : Node) : (w.setNode p n).nodes p = n := by
  simp [Net.setNode]

theorem Net.setNode_other (w : Net) (p q : NodePtr) (n : Node) (h : q ≠ p) :
    (w.setNode p n).nodes q = w.nodes q := by
  simp [Net.setNode, h]

/-- The state of every node and the trace are what they were when
`_listenToSelf` fails. -/
theorem _listenToSelf_false (w : Net) (this : NodePtr) (pipe : ConnPtr) :
    (∀ q, (((_listenToSelf w this pipe false).2).nodes q)._state = (w.nodes q)._state) ∧
    ((_listenToSelf w this pipe false).2).trace = w.trace ∧
    ((_listenToSelf w this pipe false).2).localNode = w.localNode := by
  refine ⟨?_, rfl, rfl⟩
  intro q
  by_cases hq : q = this
  · subst hq
    simp [_listenToSelf, Net.setNode]
  · simp [_listenToSelf, Net.setNode, hq]

theorem _listenToSelf_result (w : Net) (this : NodePtr) (pipe : ConnPtr) (pipeConnects : Bool) :
    (_listenToSelf w this pipe pipeConnects).1 = pipeConnects := by
  cases pipeConnects <;> simp [_listenToSelf]

theorem listen_not_stopped (w : Net) (this : NodePtr) (connection : Option ConnPtr)
    (pipe : ConnPtr) (pipeConnects : Bool)
    (hs : (w.nodes this)._state ≠ State.STATE_STOPPED) :
    listen w this connection pipe pipeConnects = (false, w) := by
  simp [listen, hs]

theorem listen_not_listening (w : Net) (this : NodePtr) (c : ConnPtr)
    (pipe : ConnPtr) (pipeConnects : Bool)
    (hg : w.connections c ≠ ConnectionState.STATE_LISTENING) :
    listen w this (some c) pipe pipeConnects = (false, w) := by
  by_cases hs : (w.nodes this)._state = State.STATE_STOPPED
  · simp [listen, hs, hg]
  · simp [listen, hs]

theorem listen_pipe_fails (w : Net) (this : NodePtr) (connection : Option ConnPtr)
    (pipe : ConnPtr)
    (hs : (w.nodes this)._state = State.STATE_STOPPED)
    (hg : ∀ c, connection = some c → w.connections c = ConnectionState.STATE_LISTENING) :
    listen w this connection pipe false = (false, (_listenToSelf w this pipe false).2) := by
  cases connection with
  | none => simp [listen, hs, _listenToSelf_result]
  | some c =>
      have hc := hg c rfl
      simp [listen, hs, hc, _listenToSelf_result]

theorem listen_succeeds (w : Net) (this : NodePtr) (connection : Option ConnPtr)
    (pipe : ConnPtr)
    (hs : (w.nodes this)._state = State.STATE_STOPPED)
    (hg : ∀ c, connection = some c → w.connections c = ConnectionState.STATE_LISTENING) :
    (listen w this connection pipe true).1 = true ∧
    (((listen w this connection pipe true).2).nodes this)._state = State.STATE_LISTENING := by
  cases connection with
  | none =>
      simp only [listen, hs, _listenToSelf_result]
      simp only [bne_self_eq_false, Bool.false_eq_true, if_false, Bool.not_true, true_and]
      split <;> simp [Net.emit, Net.setNode]
  | some c =>
      have hc := hg c rfl
      simp only [listen, hs, hc, _listenToSelf_result]
      simp only [bne_self_eq_false, Bool.false_eq_true, if_false, Bool.not_true, true_and]
      split <;> simp [Net.emit, Net.setNode]

/-- C19: a node is constructed stopped.  `listen` returns true exactly when
the node is stopped, a supplied connection is listening and the pipe of the node
to itself connects; the node is then in state LISTENING.  When `listen` returns
false the state of every node, the trace and the local node are what they were.
`stopListening` on a node that is not listening returns false and changes
nothing, and `_cmdStop` leaves the node stopped. -/
theorem node_lifecycle (w : Net) (this : NodePtr) (connection : Option ConnPtr)
    (pipe : ConnPtr) (pipeConnects : Bool) :
    Node.new._state = State.STATE_STOPPED ∧
    ((listen w this connection pipe pipeConnects).1 = true ↔
      ((w.nodes this)._state = State.STATE_STOPPED ∧
       (∀ c, connection = some c → w.connections c = ConnectionState.STATE_LISTENING) ∧
       pipeConnects = true)) ∧
    ((listen w this connection pipe pipeConnects).1 = true →
      (((listen w this connection pipe pipeConnects).2).nodes this)._state =
        State.STATE_LISTENING) ∧
    ((listen w this connection pipe pipeConnects).1 = false →
      (∀ q, (((listen w this connection pipe pipeConnects).2).nodes q)._state =
        (w.nodes q)._state) ∧
      ((listen w this connection pipe pipeConnects).2).trace = w.trace ∧
      ((listen w this connection pipe pipeConnects).2).localNode = w.localNode) ∧
    ((w.nodes this)._state ≠ State.STATE_LISTENING → stopListening w this = (false, w)) ∧
    ((w.nodes this)._state = State.STATE_LISTENING →
      ((_cmdStop w this).nodes this)._state = State.STATE_STOPPED) := by
  have key : ((w.nodes this)._state = State.STATE_STOPPED ∧
       (∀ c, connection = some c → w.connections c = ConnectionState.STATE_LISTENING) ∧
       pipeConnects = true) ∨
      ((listen w this connection pipe pipeConnects).1 = false ∧
       ¬ ((w.nodes this)._state = State.STATE_STOPPED ∧
         (∀ c, connection = some c → w.connections c = ConnectionState.STATE_LISTENING) ∧
         pipeConnects = true) ∧
       (∀ q, (((listen w this connection pipe pipeConnects).2).nodes q)._state =
         (w.nodes q)._state) ∧
       ((listen w this connection pipe pipeConnects).2).trace = w.trace ∧
       ((listen w this connection pipe pipeConnects).2).localNode = w.localNode) := by
    by_cases hs : (w.nodes this)._state = State.STATE_STOPPED
    · by_cases hg : ∀ c, connection = some c →
          w.connections c = ConnectionState.STATE_LISTENING
      · cases pipeConnects with
        | true => exact Or.inl ⟨hs, hg, rfl⟩
        | false =>
            right
            rw [listen_pipe_fails w this connection pipe hs hg]
            exact ⟨rfl, fun h => Bool.noConfusion h.2.2, _listenToSelf_false w this pipe⟩
      · right
        have hg' := hg
        simp only [not_forall] at hg'
        obtain ⟨c, hc, hn⟩ := hg'
        subst hc
        rw [listen_not_listening w this c pipe pipeConnects hn]
        exact ⟨rfl, fun h => hg h.2.1, fun _ => rfl, rfl, rfl⟩
    · right
      rw [listen_not_stopped w this connection pipe pipeConnects hs]
      exact ⟨rfl, fun h => hs h.1, fun _ => rfl, rfl, rfl⟩
  refine ⟨rfl, ?_, ?_, ?_, ?_, ?_⟩
  · rcases key with ⟨hs, hg, hp⟩ | ⟨hf, hn, _⟩
    · subst hp
      exact ⟨fun _ => ⟨hs, hg, rfl⟩, fun _ => (listen_succeeds w this connection pipe hs hg).1⟩
    · constructor
      · intro h
        rw [hf] at h
        cases h
      · intro h
        exact absurd h hn
  · intro h
    rcases key with ⟨hs, hg, hp⟩ | ⟨hf, _, _⟩
    · subst hp
      exact (listen_succeeds w this connection pipe hs hg).2
    · rw [hf] at h
      cases h
  · intro h
    rcases key with ⟨hs, hg, hp⟩ | ⟨_, _, hr⟩
    · subst hp
      rw [(listen_succeeds w this connection pipe hs hg).1] at h
      cases h
    · exact hr
  · intro h
    simp [stopListening, h]
  · intro _
    simp [_cmdStop, Net.emit, Net.setNode]

/-- The net `Example.fresh`: the node 0 starts to listen on the listening
connection 1 and is LISTENING afterwards; on the connected connection 2 it
fails and stays stopped; while stopped, `stopListening` fails; the node
`Example.listening` is stopped by `_cmdStop`. -/
theorem node_lifecycle_witness :
    (listen Example.fresh 0 (some 1) 9 true).1 = true ∧
    (((listen Example.fresh 0 (some 1) 9 true).2).nodes 0)._state = State.STATE_LISTENING ∧
    (listen Example.fresh 0 (some 2) 9 true).1 = false ∧
    (((listen Example.fresh 0 (some 2) 9 true).2).nodes 0)._state = State.STATE_STOPPED ∧
    stopListening Example.fresh 0 = (false, Example.fresh) ∧
    (Example.listening.nodes 0)._state = State.STATE_LISTENING ∧
    ((_cmdStop Example.listening 0).nodes 0)._state = State.STATE_STOPPED := by
  have h1 : (listen Example.fresh 0 (some 1) 9 true).1 = true := by decide
  have h2 : (listen Example.fresh 0 (some 2) 9 true).1 = false := by decide
  have h3 : (Example.listening.nodes 0)._state = State.STATE_LISTENING := by decide
  exact ⟨h1,
    (node_lifecycle Example.fresh 0 (some 1) 9 true).2.2.1 h1,
    h2,
    ((node_lifecycle Example.fresh 0 (some 2) 9 true).2.2.2.1 h2).1 0,
    (node_lifecycle Example.fresh 0 none 9 true).2.2.2.2.1 (by decide),
    h3,
    (node_lifecycle Example.listening 0 none 9 true).2.2.2.2.2 h3⟩

/-! `Node::connect` -/

/-- C20: `connect` returns true exactly when the node handle is valid, the
local node is LISTENING, the connection is CONNECTED and the peer is stopped.
Then the peer is in state CONNECTED and bound to the connection, the pair of
the connection and the peer is added at the end of the connection set of the
local node, and the one packet sent is the connect packet to the peer.  When
it returns false nothing has changed. -/
theorem connect_spec (w : Net) (this : NodePtr) (node : Option NodePtr)
    (connection : ConnPtr) :
    ((connect w this node connection).1 = true ↔
      ∃ n, node = some n ∧ (w.nodes this)._state = State.STATE_LISTENING ∧
        w.connections connection = ConnectionState.STATE_CONNECTED ∧
        (w.nodes n)._state = State.STATE_STOPPED) ∧
    (∀ n, node = some n → (connect w this node connection).1 = true →
      (((connect w this node connection).2).nodes n)._state = State.STATE_CONNECTED ∧
      (((connect w this node connection).2).nodes n)._connection = some connection ∧
      (((connect w this node connection).2).nodes this)._connectionSet =
        (w.nodes this)._connectionSet ++ [(connection, n)] ∧
      ((connect w this node connection).2).trace =
        w.trace ++ [Event.send n Packet.NodeConnectPacket]) ∧
    ((connect w this node connection).1 = false → (connect w this node connection).2 = w) := by
  cases node with
  | none => simp [connect]
  | some n =>
      by_cases hc : ((w.nodes this)._state != State.STATE_LISTENING ||
          w.connections connection != ConnectionState.STATE_CONNECTED ||
          (w.nodes n)._state != State.STATE_STOPPED) = true
      · have h1 : connect w this (some n) connection = (false, w) := by
          simp only [connect, hc, if_true]
        rw [h1]
        simp only [Bool.or_eq_true, bne_iff_ne, ne_eq] at hc
        refine ⟨?_, ?_, fun _ => rfl⟩
        · constructor
          · intro h; cases h
          · rintro ⟨m, hm, ha, hb, hd⟩
            cases hm
            rcases hc with (hc | hc) | hc
            · exact absurd ha hc
            · exact absurd hb hc
            · exact absurd hd hc
        · intro m _ h; cases h
      · have hc' := hc
        simp only [Bool.or_eq_true, bne_iff_ne, ne_eq, not_or, not_not] at hc'
        obtain ⟨⟨ha, hb⟩, hd⟩ := hc'
        have hne : n ≠ this := by
          intro e
          rw [e, ha] at hd
          cases hd
        have hne' : this ≠ n := fun e => hne e.symm
        have hcf : ((w.nodes this)._state != State.STATE_LISTENING ||
          w.connections connection != ConnectionState.STATE_CONNECTED ||
          (w.nodes n)._state != State.STATE_STOPPED) = false := by simpa using hc
        refine ⟨?_, ?_, ?_⟩
        · constructor
          · intro _
            exact ⟨n, rfl, ha, hb, hd⟩
          · intro _
            simp only [connect, hcf]
            simp
        · intro m hm _
          cases hm
          simp only [connect, hcf]
          simp [Net.addConnection, Net.setNode, Net.emit, hne, hne']
        · intro h
          simp only [connect, hcf] at h
          simp at h

/-- The listening node 0 of `Example.listening` connects the stopped node 3
over the connected connection 2; over the closed connection 4 it does not, and
nothing changes. -/
theorem connect_spec_witness :
    (connect Example.listening 0 (some 3) 2).1 = true ∧
    (((connect Example.listening 0 (some 3) 2).2).nodes 3)._state = State.STATE_CONNECTED ∧
    (((connect Example.listening 0 (some 3) 2).2).nodes 3)._connection = some 2 ∧
    (((connect Example.listening 0 (some 3) 2).2).nodes 0)._connectionSet =
      [(9, 0), (1, 0), (2, 3)] ∧
    (connect Example.listening 0 (some 3) 4).1 = false ∧
    (connect Example.listening 0 (some 3) 4).2 = Example.listening := by
  have h1 : (connect Example.listening 0 (some 3) 2).1 = true := by decide
  have h2 : (connect Example.listening 0 (some 3) 4).1 = false := by decide
  have h := (connect_spec Example.listening 0 (some 3) 2).2.1 3 rfl h1
  exact ⟨h1, h.1, h.2.1, h.2.2.1.trans (by decide), h2,
    (connect_spec Example.listening 0 (some 3) 4).2.2 h2⟩

end eqNet

namespace eqNet

/-! `Node::disconnect` -/

/-- The guard of `disconnect` lets every node pass whose state is not numbered
0, whatever that state is, unless `STATE_CONNECTED` itself is numbered 0: a
listening node that passes itself is stopped and unbound. -/
theorem disconnect_guard_slip (code : State → Nat) (w : Net) (this : NodePtr) (c : ConnPtr)
    (hC : code State.STATE_CONNECTED ≠ 0) (hL : code State.STATE_LISTENING ≠ 0)
    (hs : (w.nodes this)._state = State.STATE_LISTENING)
    (hc : (w.nodes this)._connection = some c)
    (hmem : (w.nodes this)._connectionSet.any (fun e => e.1 == c) = true) :
    (disconnect code w this (some this)).1 = true ∧
    (((disconnect code w this (some this)).2).nodes this)._state = State.STATE_STOPPED ∧
    (((disconnect code w this (some this)).2).nodes this)._connection = none := by
  have hg : ((if code State.STATE_LISTENING = 0 then 1 else 0)
      == code State.STATE_CONNECTED) = false := by
    simp only [hL, if_false]
    simpa using fun h => hC h.symm
  have hd : disconnect code w this (some this)
      = (true, (w.removeConnection this c).2.setNode this
          { (w.removeConnection this c).2.nodes this with
            _state := State.STATE_STOPPED, _connection := none }) := by
    simp [disconnect, hs, hc, hg, Net.removeConnection, hmem]
  rw [hd]
  simp [Net.setNode]

/-- C21, failing input: the listening node 0 of `Example.listening`, bound to
the pipe 9 to itself, is not in state CONNECTED; `disconnect` called on it
with itself as the node returns true, stops it, unbinds it and takes its pipe
out of the connection set. -/
theorem disconnect_local_node :
    (Example.listening.nodes 0)._state = State.STATE_LISTENING ∧
    (Example.listening.nodes 0)._connection = some 9 ∧
    (Example.listening.nodes 0)._connectionSet = [(9, 0), (1, 0)] ∧
    (disconnect State.toNat Example.listening 0 (some 0)).1 = true ∧
    (((disconnect State.toNat Example.listening 0 (some 0)).2).nodes 0)._state
      = State.STATE_STOPPED ∧
    (((disconnect State.toNat Example.listening 0 (some 0)).2).nodes 0)._connection = none ∧
    (((disconnect State.toNat Example.listening 0 (some 0)).2).nodes 0)._connectionSet
      = [(1, 0)] := by
  have h := disconnect_guard_slip State.toNat Example.listening 0 9 (by decide) (by decide)
    (by decide) (by decide) (by decide)
  exact ⟨by decide, by decide, by decide, h.1, h.2.1, h.2.2, by decide⟩

/-! `Node::syncConnect` -/

/-- C22: with a local node set, `syncConnect` returns when the node is
connected or a description is stored under its pending request, and whenever
it returns the pending request ID of the node is `INVALID_ID`.  For a connected
node it returns true and its one call is `unregisterRequest` of the pending
request on the local node.  For any other node, when the wait fails or times
out it returns false, the node is stopped and the last call is
`unregisterRequest` of the pending request on the local node; when the wait
succeeds it returns true and makes no further call. -/
theorem syncConnect_spec (w : Net) (this : NodePtr)
    (requestData : Nat → Option ConnectionDescription) (receive : Net → Bool × Net)
    (localNode : NodePtr) (hl : w.localNode = some localNode) :
    (((w.nodes this)._state = State.STATE_CONNECTED ∨
        requestData (w.nodes this)._pendingRequestID ≠ none) →
      (syncConnect w this requestData receive).isSome = true) ∧
    (∀ r, syncConnect w this requestData receive = some r →
      (r.2.nodes this)._pendingRequestID = INVALID_ID) ∧
    ((w.nodes this)._state = State.STATE_CONNECTED →
      ∃ w1, syncConnect w this requestData receive = some (true, w1) ∧
        w1.trace = w.trace
          ++ [Event.unregisterRequest localNode (w.nodes this)._pendingRequestID] ∧
        (w1.nodes this)._state = State.STATE_CONNECTED) ∧
    (∀ d, (w.nodes this)._state ≠ State.STATE_CONNECTED →
      requestData (w.nodes this)._pendingRequestID = some d →
      (receive (w.emit (Event.waitRequest localNode (w.nodes this)._pendingRequestID
        d.launchTimeout))).1 = false →
      ∃ w1, syncConnect w this requestData receive = some (false, w1) ∧
        (w1.nodes this)._state = State.STATE_STOPPED ∧
        w1.trace = (receive (w.emit (Event.waitRequest localNode
            (w.nodes this)._pendingRequestID d.launchTimeout))).2.trace
          ++ [Event.unregisterRequest localNode
              (((receive (w.emit (Event.waitRequest localNode
                (w.nodes this)._pendingRequestID d.launchTimeout))).2).nodes
                  this)._pendingRequestID]) ∧
    (∀ d, (w.nodes this)._state ≠ State.STATE_CONNECTED →
      requestData (w.nodes this)._pendingRequestID = some d →
      (receive (w.emit (Event.waitRequest localNode (w.nodes this)._pendingRequestID
        d.launchTimeout))).1 = true →
      ∃ w1, syncConnect w this requestData receive = some (true, w1) ∧
        w1.trace = (receive (w.emit (Event.waitRequest localNode
            (w.nodes this)._pendingRequestID d.launchTimeout))).2.trace) := by
  refine ⟨?_, ?_, ?_, ?_, ?_⟩
  · rintro (hs | hd)
    · simp [syncConnect, hl, hs]
    · by_cases hs : (w.nodes this)._state = State.STATE_CONNECTED
      · simp [syncConnect, hl, hs]
      · cases hr : requestData (w.nodes this)._pendingRequestID with
        | none => exact absurd hr hd
        | some d => simp [syncConnect, hl, hs, hr]
  · intro r hr
    by_cases hs : (w.nodes this)._state = State.STATE_CONNECTED
    · simp only [syncConnect, hl, hs, beq_self_eq_true, if_true, Option.some.injEq] at hr
      subst hr
      simp [Net.setNode]
    · cases hd : requestData (w.nodes this)._pendingRequestID with
      | none => simp [syncConnect, hl, hs, hd] at hr
      | some d =>
          have hb : ((w.nodes this)._state == State.STATE_CONNECTED) = false := by
            simpa using hs
          simp only [syncConnect, hl, hb, hd, Bool.false_eq_true, if_false,
            Option.some.injEq] at hr
          subst hr
          simp [Net.setNode]
  · intro hs
    have heq : syncConnect w this requestData receive
        = some (true,
            (w.emit (Event.unregisterRequest localNode
              (w.nodes this)._pendingRequestID)).setNode this
              { (w.emit (Event.unregisterRequest localNode
                  (w.nodes this)._pendingRequestID)).nodes this with
                _pendingRequestID := INVALID_ID }) := by
      simp only [syncConnect, hl, hs, beq_self_eq_true, if_true]
    refine ⟨_, heq, rfl, ?_⟩
    simp [Net.setNode, Net.emit, hs]
  · intro d hs hd hf
    have hb : ((w.nodes this)._state == State.STATE_CONNECTED) = false := by
      simpa using hs
    generalize hr : receive (w.emit (Event.waitRequest localNode
      (w.nodes this)._pendingRequestID d.launchTimeout)) = r at hf
    have heq : syncConnect w this requestData receive
        = some (false,
            ((r.2.setNode this { r.2.nodes this with _state := State.STATE_STOPPED }).emit
              (Event.unregisterRequest localNode
                ((r.2.setNode this
                  { r.2.nodes this with _state := State.STATE_STOPPED }).nodes
                    this)._pendingRequestID)).setNode this
              { ((r.2.setNode this { r.2.nodes this with _state := State.STATE_STOPPED }).emit
                  (Event.unregisterRequest localNode
                    ((r.2.setNode this
                      { r.2.nodes this with _state := State.STATE_STOPPED }).nodes
                        this)._pendingRequestID)).nodes this with
                _pendingRequestID := INVALID_ID }) := by
      simp only [syncConnect, hl, hb, hd, Bool.false_eq_true, if_false, hr, hf]
    refine ⟨_, heq, ?_, ?_⟩
    · simp [Net.setNode, Net.emit]
    · simp [Net.setNode, Net.emit]
  · intro d hs hd ht
    have hb : ((w.nodes this)._state == State.STATE_CONNECTED) = false := by
      simpa using hs
    generalize hr : receive (w.emit (Event.waitRequest localNode
      (w.nodes this)._pendingRequestID d.launchTimeout)) = r at ht
    have heq : syncConnect w this requestData receive
        = some (true, r.2.setNode this { r.2.nodes this with _pendingRequestID := INVALID_ID }) := by
      simp only [syncConnect, hl, hb, hd, Bool.false_eq_true, if_false, hr, ht, if_true]
    exact ⟨_, heq, rfl⟩

/-- C22, witness: in `Example.launched` the node 3 is launched with the
pending request 8; the wait times out, `syncConnect` returns false, the node
is stopped with no pending request, and the request 8 is unregistered from
the local node 0 after the wait of 60. -/
theorem syncConnect_spec_witness :
    Example.launched.localNode = some 0 ∧
    (Example.launched.nodes 3)._state = State.STATE_LAUNCHED ∧
    (Example.launched.nodes 3)._pendingRequestID = 8 ∧
    (∃ w1, syncConnect Example.launched 3 Example.requestData Example.timeout
        = some (false, w1) ∧
      (w1.nodes 3)._state = State.STATE_STOPPED ∧
      (w1.nodes 3)._pendingRequestID = INVALID_ID ∧
      w1.trace = Example.launched.trace
        ++ [Event.waitRequest 0 8 60, Event.unregisterRequest 0 8]) := by
  have h := (syncConnect_spec Example.launched 3 Example.requestData Example.timeout 0 rfl)
  obtain ⟨w1, h1, h2, h3⟩ := h.2.2.2.1
    { launchCommand := "ssh %h %c".toList, hostname := "render1".toList, launchTimeout := 60 }
    (by decide) (by decide) rfl
  exact ⟨rfl, by decide, by decide, w1, h1, h2, h.2.1 _ h1, h3⟩

end eqNet

namespace eqNet

/-! `Node::_createLaunchCommand` -/

theorem findFrom_append (c : Char) :
    ∀ (plain : List Char), (∀ x ∈ plain, x ≠ c) → ∀ (rest : List Char) (pos : Nat),
      findFrom c (plain ++ rest) pos = findFrom c rest (pos + plain.length) := by
  intro plain
  induction plain with
  | nil => intro _ rest pos; rfl
  | cons a as ih =>
      intro h rest pos
      have ha : a ≠ c := h a (List.mem_cons_self _ _)
      rw [List.cons_append, findFrom]
      simp only [ha, if_false]
      rw [ih (fun x hx => h x (List.mem_cons_of_mem _ hx)) rest (pos + 1)]
      congr 1
      simp only [List.length_cons]
      omega

theorem find_none (cmd done todo : List Char) (h : cmd = done ++ todo)
    (hno : ∀ x ∈ todo, x ≠ '%') : find cmd '%' done.length = none := by
  subst h
  unfold find
  rw [List.drop_left]
  have := findFrom_append '%' todo hno [] done.length
  rw [List.append_nil] at this
  rw [this]
  rfl

theorem find_some (cmd done plain rest : List Char) (h : cmd = done ++ (plain ++ '%' :: rest))
    (hno : ∀ x ∈ plain, x ≠ '%') :
    find cmd '%' done.length = some (done.length + plain.length) := by
  subst h
  unfold find
  rw [List.drop_left, findFrom_append '%' plain hno]
  simp [findFrom]

theorem find_skip (cmd pre rest : List Char) (x : Char) (h : cmd = pre ++ x :: rest)
    (hx : x ≠ '%') : find cmd '%' pre.length = find cmd '%' (pre.length + 1) := by
  subst h
  unfold find
  rw [List.drop_left]
  have hd : (pre ++ x :: rest).drop (pre.length + 1) = rest := by
    have : pre ++ x :: rest = (pre ++ [x]) ++ rest := by simp
    rw [this]
    have hl : pre.length + 1 = (pre ++ [x]).length := by simp
    rw [hl, List.drop_left]
  rw [hd, findFrom]
  simp only [hx, if_false]

theorem split_first (c : Char) : ∀ l : List Char,
    (∀ x ∈ l, x ≠ c) ∨ ∃ plain rest, l = plain ++ c :: rest ∧ ∀ x ∈ plain, x ≠ c := by
  intro l
  induction l with
  | nil => left; intro x hx; cases hx
  | cons a as ih =>
      by_cases ha : a = c
      · right
        exact ⟨[], as, by rw [ha]; rfl, fun x hx => by cases hx⟩
      · rcases ih with h | ⟨plain, rest, h, hno⟩
        · left
          intro x hx
          rcases List.mem_cons.1 hx with hx | hx
          · rw [hx]; exact ha
          · exact h x hx
        · right
          refine ⟨a :: plain, rest, by rw [h]; rfl, ?_⟩
          intro x hx
          rcases List.mem_cons.1 hx with hx | hx
          · rw [hx]; exact ha
          · exact hno x hx

theorem tokensWellFormed_cons (a : Char) (l : List Char) (ha : a ≠ '%') :
    tokensWellFormed (a :: l) = tokensWellFormed l := by
  cases l with
  | nil => simp [tokensWellFormed, ha]
  | cons b r => rw [tokensWellFormed]; simp only [ha, if_false]

theorem expandTokens_cons (hostname remoteCommand : List Char) (a : Char) (l : List Char)
    (ha : a ≠ '%') :
    expandTokens hostname remoteCommand (a :: l)
      = a :: expandTokens hostname remoteCommand l := by
  cases l with
  | nil => simp [expandTokens]
  | cons b r => rw [expandTokens]; simp only [ha, false_and, if_false]

theorem containsCommandToken_cons (a : Char) (l : List Char) (ha : a ≠ '%') :
    containsCommandToken (a :: l) = containsCommandToken l := by
  cases l with
  | nil => simp [containsCommandToken]
  | cons b r => rw [containsCommandToken]; simp only [ha, false_and, if_false]

theorem tokensWellFormed_plain (plain : List Char) :
    ∀ todo : List Char, (∀ x ∈ plain, x ≠ '%') →
      tokensWellFormed (plain ++ todo) = tokensWellFormed todo := by
  induction plain with
  | nil => intro todo _; rfl
  | cons a as ih =>
      intro todo h
      rw [List.cons_append, tokensWellFormed_cons _ _ (h a (List.mem_cons_self _ _))]
      exact ih todo (fun x hx => h x (List.mem_cons_of_mem _ hx))

theorem expandTokens_plain (hostname remoteCommand plain : List Char) :
    ∀ todo : List Char, (∀ x ∈ plain, x ≠ '%') →
      expandTokens hostname remoteCommand (plain ++ todo)
        = plain ++ expandTokens hostname remoteCommand todo := by
  induction plain with
  | nil => intro todo _; rfl
  | cons a as ih =>
      intro todo h
      rw [List.cons_append, expandTokens_cons _ _ _ _ (h a (List.mem_cons_self _ _)),
        ih todo (fun x hx => h x (List.mem_cons_of_mem _ hx))]
      rfl

theorem containsCommandToken_plain (plain : List Char) :
    ∀ todo : List Char, (∀ x ∈ plain, x ≠ '%') →
      containsCommandToken (plain ++ todo) = containsCommandToken todo := by
  induction plain with
  | nil => intro todo _; rfl
  | cons a as ih =>
      intro todo h
      rw [List.cons_append, containsCommandToken_cons _ _ (h a (List.mem_cons_self _ _))]
      exact ih todo (fun x hx => h x (List.mem_cons_of_mem _ hx))

/-- A well-formed string that starts with `'%'` starts with a token. -/
theorem tokensWellFormed_percent (rest : List Char)
    (h : tokensWellFormed ('%' :: rest) = true) :
    ∃ x r, rest = x :: r ∧ (x = 'c' ∨ x = 'h') ∧ tokensWellFormed r = true := by
  cases rest with
  | nil => simp [tokensWellFormed] at h
  | cons x r =>
      rw [tokensWellFormed] at h
      simp only [if_true, Bool.and_eq_true, Bool.or_eq_true, decide_eq_true_eq] at h
      exact ⟨x, r, rfl, h.1, h.2⟩

theorem charAt_append (pre rest : List Char) (x : Char) :
    charAt (pre ++ x :: rest) pre.length = x := by
  unfold charAt
  induction pre with
  | nil => rfl
  | cons a as ih => simpa using ih

theorem sizeSub_of_le (a b : Nat) (hb : b ≤ a) (ha : a < 18446744073709551616) :
    sizeSub a b = a - b := by
  unfold sizeSub
  omega

theorem substr_piece (done plain rest : List Char)
    (hlen : (done ++ (plain ++ rest)).length < 18446744073709551616) :
    substr (done ++ (plain ++ rest)) done.length
      (sizeSub (done.length + plain.length) done.length) = some plain := by
  have hs : sizeSub (done.length + plain.length) done.length = plain.length := by
    rw [sizeSub_of_le _ _ (by omega)]
    · omega
    · simp only [List.length_append] at hlen
      omega
  have hle : ¬ done.length > (done ++ (plain ++ rest)).length := by
    simp only [List.length_append]
    omega
  unfold substr
  rw [hs, if_neg hle, List.drop_left, List.take_left]

/-- The loop on a well-formed rest of the command: it ends, and what it has
appended, followed by the rest of the command from `lastPos` on, is the
expansion of the rest. -/
theorem _createLaunchCommand.loop_expand (cmd hostname remoteCommand : List Char)
    (hlen : cmd.length < 18446744073709551616) :
    ∀ (fuel : Nat) (done todo : List Char) (st : LaunchState),
      cmd = done ++ todo → tokensWellFormed todo = true → st.lastPos = done.length →
      todo.length < fuel →
      ∃ st1, _createLaunchCommand.loop cmd hostname remoteCommand fuel
          (find cmd '%' done.length) st = Except.ok st1 ∧
        st1.lastPos ≤ cmd.length ∧
        st1.result ++ cmd.drop st1.lastPos
          = st.result ++ expandTokens hostname remoteCommand todo ∧
        st1.commandFound = (st.commandFound || containsCommandToken todo) := by
  intro fuel
  induction fuel with
  | zero => intro done todo st _ _ _ hf; omega
  | succ n ih =>
      intro done todo st hcmd hwf hlast hf
      rcases split_first '%' todo with hno | ⟨plain, rest, htodo, hno⟩
      · rw [find_none cmd done todo hcmd hno]
        refine ⟨st, ?_, ?_, ?_, ?_⟩
        · simp [_createLaunchCommand.loop]
        · rw [hlast, hcmd, List.length_append]
          omega
        · have he := expandTokens_plain hostname remoteCommand todo [] hno
          rw [List.append_nil] at he
          rw [hlast, hcmd, List.drop_left, he]
          simp [expandTokens]
        · have hc := containsCommandToken_plain todo [] hno
          rw [List.append_nil] at hc
          rw [hc]
          simp [containsCommandToken]
      · subst htodo
        rw [tokensWellFormed_plain plain _ hno] at hwf
        obtain ⟨x, r, hrest, hx, hwfr⟩ := tokensWellFormed_percent rest hwf
        subst hrest
        have hxp : x ≠ '%' := by
          rcases hx with hx | hx <;> rw [hx] <;> decide
        rw [find_some cmd done plain (x :: r) hcmd hno]
        have htok : charAt cmd (done.length + plain.length + 1) = x := by
          have hc2 : cmd = (done ++ plain ++ ['%']) ++ x :: r := by rw [hcmd]; simp
          have hl2 : done.length + plain.length + 1 = (done ++ plain ++ ['%']).length := by
            simp only [List.length_append, List.length_cons, List.length_nil]
          rw [hc2, hl2]
          exact charAt_append _ _ _
        have hsub : substr cmd st.lastPos (sizeSub (done.length + plain.length) st.lastPos)
            = some plain := by
          rw [hlast, hcmd]
          exact substr_piece done plain ('%' :: x :: r) (by rw [← hcmd]; exact hlen)
        have hnext : find cmd '%' (done.length + plain.length + 1)
            = find cmd '%' (done ++ (plain ++ ['%', x])).length := by
          have hc2 : cmd = (done ++ plain ++ ['%']) ++ x :: r := by rw [hcmd]; simp
          have h1 := find_skip cmd (done ++ plain ++ ['%']) r x hc2 hxp
          have e1 : (done ++ plain ++ ['%']).length = done.length + plain.length + 1 := by
            simp only [List.length_append, List.length_cons, List.length_nil]
          have e2 : (done ++ (plain ++ ['%', x])).length
              = done.length + plain.length + 1 + 1 := by
            simp only [List.length_append, List.length_cons, List.length_nil]
            omega
          rw [e1] at h1
          rw [e2, h1]
        have hcmd2 : cmd = (done ++ (plain ++ ['%', x])) ++ r := by rw [hcmd]; simp
        have hf2 : r.length < n := by
          simp only [List.length_append, List.length_cons] at hf
          omega
        rw [_createLaunchCommand.loop]
        simp only [htok, hsub, hnext]
        obtain ⟨st1, h1, h2, h3, h4⟩ := ih (done ++ (plain ++ ['%', x])) r
          { lastPos := done.length + plain.length + 2,
            commandFound := if x = 'c' then true else st.commandFound,
            result := st.result ++ plain
              ++ (if x = 'c' then remoteCommand else if x = 'h' then hostname else []),
            substrs := st.substrs ++
              [(st.lastPos, ((done.length + plain.length : Nat) : Int) - (st.lastPos : Int))] }
          hcmd2 hwfr (by simp; omega) hf2
        refine ⟨st1, h1, h2, ?_, ?_⟩
        · rw [h3, expandTokens_plain hostname remoteCommand plain _ hno]
          rcases hx with hx | hx
          · subst hx
            simp [expandTokens]
          · subst hx
            simp [expandTokens]
        · rw [h4, containsCommandToken_plain plain _ hno]
          rcases hx with hx | hx
          · subst hx
            simp [containsCommandToken]
          · subst hx
            have hh : containsCommandToken ('%' :: 'h' :: r) = containsCommandToken r := by
              rw [containsCommandToken]
              simp only [show ¬ ('%' = '%' ∧ 'h' = 'c') by decide, if_false]
              exact containsCommandToken_cons 'h' r (by decide)
            rw [hh]
            simp

theorem substr_rest (cmd : List Char) (lastPos : Nat) (hle : lastPos ≤ cmd.length)
    (hlen : cmd.length < 18446744073709551616) :
    substr cmd lastPos (sizeSub cmd.length lastPos) = some (cmd.drop lastPos) := by
  unfold substr
  rw [if_neg (by omega), sizeSub_of_le _ _ hle hlen]
  congr 1
  apply List.take_of_length_le
  rw [List.length_drop]

/-- C29: for a launch command that is not empty, in which every `'%'` is
followed by `'c'` or `'h'`, `_createLaunchCommand` returns the command with
every `%h` replaced by the host name and every `%c` by the remote command,
the other characters in order, followed by a space and the remote command
exactly when the command contains no `%c`; so a command without `'%'` gives
the command, a space and the remote command.  The empty launch command gives
the empty string. -/
theorem createLaunchCommand_spec (launchCommand hostname remoteCommand : List Char) :
    (launchCommand ≠ [] → tokensWellFormed launchCommand = true →
      launchCommand.length < 18446744073709551616 →
      _createLaunchCommand launchCommand hostname remoteCommand
        = Except.ok (expandTokens hostname remoteCommand launchCommand ++
            (if containsCommandToken launchCommand = true then []
             else ' ' :: remoteCommand))) ∧
    (launchCommand ≠ [] → (∀ x ∈ launchCommand, x ≠ '%') →
      launchCommand.length < 18446744073709551616 →
      _createLaunchCommand launchCommand hostname remoteCommand
        = Except.ok (launchCommand ++ ' ' :: remoteCommand)) ∧
    _createLaunchCommand [] hostname remoteCommand = Except.ok [] := by
  have main : launchCommand ≠ [] → tokensWellFormed launchCommand = true →
      launchCommand.length < 18446744073709551616 →
      _createLaunchCommand launchCommand hostname remoteCommand
        = Except.ok (expandTokens hostname remoteCommand launchCommand ++
            (if containsCommandToken launchCommand = true then []
             else ' ' :: remoteCommand)) := by
    intro hne hwf hlen
    have hl0 : ¬ launchCommand.length = 0 := by
      intro h
      exact hne (List.length_eq_zero.1 h)
    obtain ⟨st1, h1, h2, h3, h4⟩ :=
      _createLaunchCommand.loop_expand launchCommand hostname remoteCommand hlen
        (launchCommand.length + 1) [] launchCommand
        { lastPos := 0, commandFound := false, result := [], substrs := [] }
        rfl hwf rfl (by omega)
    simp only [List.length_nil, List.nil_append, Bool.false_or] at h1 h3 h4
    unfold _createLaunchCommand _createLaunchCommand.run
    rw [if_neg hl0, h1]
    simp only [substr_rest launchCommand st1.lastPos h2 hlen, h3, h4]
    cases containsCommandToken launchCommand <;> simp
  refine ⟨main, ?_, rfl⟩
  intro hne hno hlen
  have hwf : tokensWellFormed launchCommand = true := by
    have := tokensWellFormed_plain launchCommand [] hno
    rw [List.append_nil] at this
    rw [this]
    rfl
  have he := expandTokens_plain hostname remoteCommand launchCommand [] hno
  have hc := containsCommandToken_plain launchCommand [] hno
  rw [List.append_nil] at he hc
  rw [main hne hwf hlen, he, hc]
  simp [expandTokens, containsCommandToken]

/-- C29, witness: `ssh %h %c` for the host `render1` gives `ssh render1`
followed by the remote command, with nothing appended; `ssh` alone gives `ssh`,
a space and the remote command. -/
theorem createLaunchCommand_spec_witness :
    _createLaunchCommand "ssh %h %c".toList "render1".toList "env eqPly".toList
      = Except.ok "ssh render1 env eqPly".toList ∧
    _createLaunchCommand "ssh".toList "render1".toList "env eqPly".toList
      = Except.ok "ssh env eqPly".toList :=
  ⟨((createLaunchCommand_spec "ssh %h %c".toList "render1".toList "env eqPly".toList).1
      (by decide) (by decide) (by decide)).trans rfl,
   ((createLaunchCommand_spec "ssh".toList "render1".toList "env eqPly".toList).2.1
      (by decide) (by decide) (by decide)).trans rfl⟩

theorem findFrom_bounds (c : Char) :
    ∀ (l : List Char) (pos i : Nat), findFrom c l pos = some i →
      pos ≤ i ∧ i < pos + l.length := by
  intro l
  induction l with
  | nil => intro pos i h; simp [findFrom] at h
  | cons x xs ih =>
      intro pos i h
      rw [findFrom] at h
      by_cases hx : x = c
      · simp only [hx, if_true, Option.some.injEq] at h
        subst h
        simp
      · simp only [hx, if_false] at h
        have := ih (pos + 1) i h
        simp only [List.length_cons]
        omega

theorem findFrom_eq_none (c : Char) :
    ∀ (l : List Char) (pos : Nat), findFrom c l pos = none → ∀ x ∈ l, x ≠ c := by
  intro l
  induction l with
  | nil => intro _ _ x hx; cases hx
  | cons a as ih =>
      intro pos h x hx
      rw [findFrom] at h
      by_cases ha : a = c
      · simp [ha] at h
      · simp only [ha, if_false] at h
        rcases List.mem_cons.1 hx with hx | hx
        · rw [hx]; exact ha
        · exact ih (pos + 1) h x hx

theorem find_bounds (cmd : List Char) (c : Char) (pos i : Nat) (h : find cmd c pos = some i) :
    pos ≤ i ∧ i < cmd.length := by
  unfold find at h
  have hb := findFrom_bounds c (cmd.drop pos) pos i h
  rw [List.length_drop] at hb
  omega

/-- A command that ends in `'%'` has a `'%'` at or after every position
inside it. -/
theorem find_trailing (pre : List Char) (pos : Nat) (hpos : pos ≤ pre.length) :
    ∃ i, find (pre ++ ['%']) '%' pos = some i := by
  cases h : find (pre ++ ['%']) '%' pos with
  | some i => exact ⟨i, rfl⟩
  | none =>
      exfalso
      unfold find at h
      have hno := findFrom_eq_none '%' _ pos h '%'
      apply hno _ rfl
      rw [List.drop_append_of_le_length hpos]
      simp

theorem _createLaunchCommand.loop_none (cmd hostname remoteCommand : List Char) (fuel : Nat)
    (st : LaunchState) :
    _createLaunchCommand.loop cmd hostname remoteCommand fuel none st = Except.ok st := by
  cases fuel <;> simp [_createLaunchCommand.loop]

/-- The loop on a command that ends in `'%'`: it throws, or it leaves
`lastPos` one position beyond the size of the command. -/
theorem _createLaunchCommand.loop_trailing (pre hostname remoteCommand : List Char) :
    ∀ (fuel p : Nat) (st : LaunchState), p ≤ pre.length → pre.length - p < fuel →
      _createLaunchCommand.loop (pre ++ ['%']) hostname remoteCommand fuel (some p) st
        = Except.error Fault.out_of_range ∨
      ∃ st1, _createLaunchCommand.loop (pre ++ ['%']) hostname remoteCommand fuel (some p) st
          = Except.ok st1 ∧ st1.lastPos = pre.length + 2 := by
  intro fuel
  induction fuel with
  | zero => intro p st _ hf; omega
  | succ n ih =>
      intro p st hp hf
      rw [_createLaunchCommand.loop]
      cases hs : substr (pre ++ ['%']) st.lastPos (sizeSub p st.lastPos) with
      | none => exact Or.inl rfl
      | some piece =>
          simp only []
          by_cases hlast : p = pre.length
          · have hnone : find (pre ++ ['%']) '%' (p + 1) = none := by
              cases hf2 : find (pre ++ ['%']) '%' (p + 1) with
              | none => rfl
              | some i =>
                  have hb := find_bounds _ _ _ _ hf2
                  simp only [List.length_append, List.length_cons, List.length_nil] at hb
                  omega
            rw [hnone, _createLaunchCommand.loop_none]
            exact Or.inr ⟨_, rfl, by rw [hlast]⟩
          · obtain ⟨i, hi⟩ := find_trailing pre (p + 1) (by omega)
            have hb := find_bounds _ _ _ _ hi
            simp only [List.length_append, List.length_cons, List.length_nil] at hb
            rw [hi]
            exact ih i _ (by omega) (by omega)

/-- On every launch command that ends in `'%'` the call ends in
`out_of_range`. -/
theorem _createLaunchCommand_trailing (pre hostname remoteCommand : List Char) :
    _createLaunchCommand (pre ++ ['%']) hostname remoteCommand
      = Except.error Fault.out_of_range := by
  have hl0 : ¬ (pre ++ ['%']).length = 0 := by simp
  obtain ⟨i, hi⟩ := find_trailing pre 0 (by omega)
  have hb := find_bounds _ _ _ _ hi
  simp only [List.length_append, List.length_cons, List.length_nil] at hb
  unfold _createLaunchCommand _createLaunchCommand.run
  rw [if_neg hl0, hi]
  rcases _createLaunchCommand.loop_trailing pre hostname remoteCommand
      ((pre ++ ['%']).length + 1) i
      { lastPos := 0, commandFound := false, result := [], substrs := [] }
      (by omega) (by simp only [List.length_append, List.length_cons, List.length_nil]; omega)
    with h | ⟨st1, h, hlp⟩
  · rw [h]
  · rw [h]
    have hsub : substr (pre ++ ['%']) st1.lastPos
        (sizeSub (pre ++ ['%']).length st1.lastPos) = none := by
      unfold substr
      rw [if_pos]
      rw [hlp]
      simp only [List.length_append, List.length_cons, List.length_nil]
      omega
    simp only [hsub]

/-- The loop never runs out of fuel when it has more fuel than there are
positions left. -/
theorem _createLaunchCommand.loop_fuel (cmd hostname remoteCommand : List Char) :
    ∀ (fuel : Nat) (percentPos : Option Nat) (st : LaunchState),
      (∀ p, percentPos = some p → p < cmd.length ∧ cmd.length - p ≤ fuel) →
      _createLaunchCommand.loop cmd hostname remoteCommand fuel percentPos st
        ≠ Except.error Fault.fuel := by
  intro fuel
  induction fuel with
  | zero =>
      intro percentPos st h
      cases percentPos with
      | none => simp [_createLaunchCommand.loop]
      | some p =>
          have := h p rfl
          omega
  | succ n ih =>
      intro percentPos st h
      cases percentPos with
      | none => simp [_createLaunchCommand.loop]
      | some p =>
          have hp := h p rfl
          rw [_createLaunchCommand.loop]
          cases hs : substr cmd st.lastPos (sizeSub p st.lastPos) with
          | none =>
              simp only []
              intro hx
              cases hx
          | some piece =>
              simp only []
              apply ih
              intro i hi
              have hb := find_bounds _ _ _ _ hi
              omega

/-- Whatever the launch command, the size of the command plus one is fuel
enough: the call returns a string or ends in `out_of_range`. -/
theorem _createLaunchCommand_total (launchCommand hostname remoteCommand : List Char) :
    _createLaunchCommand launchCommand hostname remoteCommand ≠ Except.error Fault.fuel := by
  unfold _createLaunchCommand _createLaunchCommand.run
  by_cases hl0 : launchCommand.length = 0
  · rw [if_pos hl0]
    intro h
    cases h
  · rw [if_neg hl0]
    have hfuel := _createLaunchCommand.loop_fuel launchCommand hostname remoteCommand
      (launchCommand.length + 1) (find launchCommand '%' 0)
      { lastPos := 0, commandFound := false, result := [], substrs := [] }
      (by
        intro p hp
        have hb := find_bounds _ _ _ _ hp
        omega)
    cases hloop : _createLaunchCommand.loop launchCommand hostname remoteCommand
        (launchCommand.length + 1) (find launchCommand '%' 0)
        { lastPos := 0, commandFound := false, result := [], substrs := [] } with
    | error e =>
        simp only []
        intro h
        apply hfuel
        rw [hloop]
        cases h
        rfl
    | ok st =>
        simp only []
        cases substr launchCommand st.lastPos (sizeSub launchCommand.length st.lastPos) with
        | none =>
            simp only []
            intro h
            cases h
        | some piece =>
            simp only []
            intro h
            cases h

/-- C30, failing inputs: on every launch command that ends in `'%'`, such as
`%` or `ssh %h %`, the last `substr` starts one position beyond the size of
the string and the call ends in `out_of_range`; on `a%%b` the second `substr`
is taken with `percentPos - lastPos = 2 - 3`, a negative length. -/
theorem createLaunchCommand_out_of_range :
    (∀ pre hostname remoteCommand : List Char,
      _createLaunchCommand (pre ++ ['%']) hostname remoteCommand
        = Except.error Fault.out_of_range) ∧
    _createLaunchCommand "%".toList "render1".toList "env eqPly".toList
      = Except.error Fault.out_of_range ∧
    _createLaunchCommand "ssh %h %".toList "render1".toList "env eqPly".toList
      = Except.error Fault.out_of_range ∧
    _createLaunchCommand.run "a%%b".toList "render1".toList "env eqPly".toList
      = Except.ok { lastPos := 4, commandFound := false,
                    result := "ab env eqPly".toList,
                    substrs := [(0, 1), (3, -1), (4, 0)] } :=
  ⟨_createLaunchCommand_trailing, rfl, rfl, rfl⟩

end eqNet

namespace eq

/-! Frame release (`frameStart`, `frameDrawFinish`, `frameFinish`) -/

/-- C27: for each of the thread models ASYNC, DRAW_SYNC and LOCAL_SYNC, and a
pipe whose unlocked frame is `n - 1`, the calls `frameStart( n )`,
`frameDrawFinish( n )`, `frameFinish( n )` in this order release the frame `n`
locally exactly once, with the assertion of `releaseFrameLocal` holding: in
`frameStart` for ASYNC, in `frameDrawFinish` for DRAW_SYNC and in `frameFinish`
for LOCAL_SYNC.  Afterwards the current, the unlocked and the finished frame
are `n`; `frameFinish` sets the finished frame whatever the thread model. -/
theorem frame_release (p : Pipe) (n : Nat)
    (h : (p._unlockedFrame + 1) % 4294967296 = n)
    (hm : p.threadModel = ThreadModel.ASYNC ∨ p.threadModel = ThreadModel.DRAW_SYNC ∨
      p.threadModel = ThreadModel.LOCAL_SYNC) :
    localReleases ((frameFinish (frameDrawFinish (frameStart p n) n) n).trace.drop
      p.trace.length) = [(n, true)] ∧
    (p.threadModel = ThreadModel.ASYNC →
      localReleases ((frameStart p n).trace.drop p.trace.length) = [(n, true)]) ∧
    (p.threadModel = ThreadModel.DRAW_SYNC →
      localReleases ((frameStart p n).trace.drop p.trace.length) = [] ∧
      localReleases ((frameDrawFinish (frameStart p n) n).trace.drop
        (frameStart p n).trace.length) = [(n, true)]) ∧
    (p.threadModel = ThreadModel.LOCAL_SYNC →
      localReleases ((frameDrawFinish (frameStart p n) n).trace.drop p.trace.length) = [] ∧
      localReleases ((frameFinish (frameDrawFinish (frameStart p n) n) n).trace.drop
        (frameDrawFinish (frameStart p n) n).trace.length) = [(n, true)]) ∧
    (frameFinish (frameDrawFinish (frameStart p n) n) n)._currentFrame = n ∧
    (frameFinish (frameDrawFinish (frameStart p n) n) n)._unlockedFrame = n ∧
    (frameFinish (frameDrawFinish (frameStart p n) n) n)._finishedFrame = n ∧
    (∀ (q : Pipe) (m : Nat), (frameFinish q m)._finishedFrame = m) := by
  have hfin : ∀ (q : Pipe) (m : Nat), (frameFinish q m)._finishedFrame = m := by
    intro q m
    rfl
  rcases hm with hm | hm | hm
  · simp [frameFinish, frameDrawFinish, frameStart, startFrame, releaseFrame,
      releaseFrameLocal, Pipe.emit, localReleases, hm, h]
  · simp [frameFinish, frameDrawFinish, frameStart, startFrame, releaseFrame,
      releaseFrameLocal, Pipe.emit, localReleases, hm, h]
  · simp [frameFinish, frameDrawFinish, frameStart, startFrame, releaseFrame,
      releaseFrameLocal, Pipe.emit, localReleases, hm, h]

/-- C27, witness: the pipe `Example.pipe` has unlocked frame 6; with the
thread model DRAW_SYNC the frame 7 is released locally once, and afterwards
the three frame counters are 7. -/
theorem frame_release_witness :
    localReleases ((frameFinish (frameDrawFinish
      (frameStart (Example.pipe ThreadModel.DRAW_SYNC) 7) 7) 7).trace.drop
        (Example.pipe ThreadModel.DRAW_SYNC).trace.length) = [(7, true)] ∧
    (frameFinish (frameDrawFinish
      (frameStart (Example.pipe ThreadModel.DRAW_SYNC) 7) 7) 7)._unlockedFrame = 7 :=
  have h := frame_release (Example.pipe ThreadModel.DRAW_SYNC) 7 (by decide)
    (Or.inr (Or.inl rfl))
  ⟨h.1, h.2.2.2.2.2.1⟩

/-! Shared-context windows (`_cmdDestroyWindow`) -/

theorem sharedTarget_emit (p : Pipe) (e : Event) (window : WinPtr) (l : List WinPtr)
    (newSharedWindow : Option WinPtr) :
    sharedTarget (p.emit e) window l newSharedWindow
      = sharedTarget p window l newSharedWindow := rfl

/-- The shared-context windows after the loop, and the conditions of its
assertions. -/
theorem _cmdDestroyWindow.loop_shared (window : WinPtr) :
    ∀ (l : List WinPtr) (newSharedWindow : Option WinPtr) (p : Pipe),
      newSharedWindow ≠ some window →
      (∀ c, ((_cmdDestroyWindow.loop window l newSharedWindow p).2).sharedContextWindow c
        = if c ∈ l ∧ p.sharesWith window c = true then
            some (sharedTarget p window l newSharedWindow)
          else p.sharedContextWindow c) ∧
      (∃ t, ((_cmdDestroyWindow.loop window l newSharedWindow p).2).trace = p.trace ++ t ∧
        ∀ e ∈ t, ∃ c, e = Event.assertNotShared c true) ∧
      ((_cmdDestroyWindow.loop window l newSharedWindow p).2).windows = p.windows := by
  intro l
  induction l with
  | nil =>
      intro nsw p _
      refine ⟨fun c => by simp [_cmdDestroyWindow.loop], ⟨[], by simp [_cmdDestroyWindow.loop],
        fun e he => by cases he⟩, rfl⟩
  | cons candidate rest ih =>
      intro nsw p hnsw
      simp only [_cmdDestroyWindow.loop]
      by_cases hcw : candidate = window
      · simp only [hcw, if_true]
        obtain ⟨h1, h2, h3⟩ := ih nsw p hnsw
        refine ⟨?_, h2, h3⟩
        intro c
        rw [h1 c]
        have hnot : p.sharesWith window window = false := by simp [Pipe.sharesWith]
        have ht : sharedTarget p window (window :: rest) nsw
            = sharedTarget p window rest nsw := by
          unfold sharedTarget
          cases nsw with
          | some s => rfl
          | none => simp [List.find?_cons, hnot]
        rw [ht]
        by_cases hc : c = window
        · subst hc
          simp [hnot]
        · simp [hc]
      · simp only [hcw, if_false]
        by_cases hsh : p.sharedContextWindow candidate = some window
        · have hshares : p.sharesWith window candidate = true := by
            simp [Pipe.sharesWith, hcw, hsh]
          cases nsw with
          | some shared =>
              have hsw : shared ≠ window := fun e => hnsw (by rw [e])
              simp only [hsh, if_true]
              obtain ⟨h1, ⟨t, h2, h2a⟩, h3⟩ := ih (some shared)
                ((p.setSharedContextWindow candidate (some shared)).emit
                  (Event.assertNotShared candidate
                    ((p.setSharedContextWindow candidate (some shared)).sharedContextWindow
                      candidate != some window))) hnsw
              refine ⟨?_, ⟨Event.assertNotShared candidate
                ((p.setSharedContextWindow candidate (some shared)).sharedContextWindow
                  candidate != some window) :: t, ?_, ?_⟩, ?_⟩
              · intro c
                rw [h1 c]
                by_cases hc : c = candidate
                · subst hc
                  simp [Pipe.sharesWith, Pipe.setSharedContextWindow, Pipe.emit, hsh, hcw,
                    sharedTarget, hsw]
                · simp [Pipe.sharesWith, Pipe.setSharedContextWindow, Pipe.emit, hc,
                    sharedTarget]
              · rw [h2]
                simp [Pipe.emit, Pipe.setSharedContextWindow]
              · intro e he
                rcases List.mem_cons.1 he with he | he
                · refine ⟨candidate, ?_⟩
                  rw [he]
                  simp [Pipe.setSharedContextWindow, hsw]
                · exact h2a e he
              · rw [h3]
                rfl
          | none =>
              simp only [hsh, if_true]
              obtain ⟨h1, ⟨t, h2, h2a⟩, h3⟩ := ih (some candidate)
                ((p.setSharedContextWindow candidate (some candidate)).emit
                  (Event.assertNotShared candidate
                    ((p.setSharedContextWindow candidate (some candidate)).sharedContextWindow
                      candidate != some window))) (by simpa using hcw)
              refine ⟨?_, ⟨Event.assertNotShared candidate
                ((p.setSharedContextWindow candidate (some candidate)).sharedContextWindow
                  candidate != some window) :: t, ?_, ?_⟩, ?_⟩
              · intro c
                rw [h1 c]
                by_cases hc : c = candidate
                · subst hc
                  simp [Pipe.sharesWith, Pipe.setSharedContextWindow, Pipe.emit, hsh, hcw,
                    sharedTarget, List.find?_cons]
                · simp [Pipe.sharesWith, Pipe.setSharedContextWindow, Pipe.emit, hc,
                    sharedTarget, List.find?_cons, hsh, hcw]
              · rw [h2]
                simp [Pipe.emit, Pipe.setSharedContextWindow]
              · intro e he
                rcases List.mem_cons.1 he with he | he
                · refine ⟨candidate, ?_⟩
                  rw [he]
                  simp [Pipe.setSharedContextWindow, hcw]
                · exact h2a e he
              · rw [h3]
                rfl
        · have hshares : p.sharesWith window candidate = false := by
            simp [Pipe.sharesWith, hsh]
          simp only [hsh, if_false]
          obtain ⟨h1, ⟨t, h2, h2a⟩, h3⟩ := ih nsw
            (p.emit (Event.assertNotShared candidate
              (p.sharedContextWindow candidate != some window))) hnsw
          refine ⟨?_, ⟨Event.assertNotShared candidate
            (p.sharedContextWindow candidate != some window) :: t, ?_, ?_⟩, ?_⟩
          · intro c
            rw [h1 c, sharedTarget_emit]
            have ht : sharedTarget p window (candidate :: rest) nsw
                = sharedTarget p window rest nsw := by
              unfold sharedTarget
              cases nsw with
              | some s => rfl
              | none => simp [List.find?_cons, hshares]
            rw [ht]
            by_cases hc : c = candidate
            · subst hc
              simp [Pipe.sharesWith, Pipe.emit, hsh, sharedTarget]
            · simp [Pipe.sharesWith, Pipe.emit, hc, sharedTarget]
          · rw [h2]
            simp [Pipe.emit]
          · intro e he
            rcases List.mem_cons.1 he with he | he
            · refine ⟨candidate, ?_⟩
              rw [he]
              simp [hsh]
            · exact h2a e he
          · rw [h3]
            rfl

/-- C28: after `_cmdDestroyWindow` for the window `window`, a window of the
pipe other than `window` that shared the context of `window` shares the
context of the first such window in the order of the pipe's windows (that
first window its own); the shared-context window of every other window is as
before; so no window of the pipe other than `window` has `window` as its
shared-context window, and every assertion of the loop held. -/
theorem cmdDestroyWindow_shared (p : Pipe) (windowID : Nat) (window : WinPtr)
    (isStopped : Bool) :
    (∀ first, p.windows.find? (p.sharesWith window) = some first →
      (∀ c ∈ p.windows, c ≠ window → p.sharedContextWindow c = some window →
        ((_cmdDestroyWindow p windowID window isStopped).2).sharedContextWindow c
          = some first) ∧
      ((_cmdDestroyWindow p windowID window isStopped).2).sharedContextWindow first
        = some first) ∧
    (∀ c, ¬ (c ∈ p.windows ∧ c ≠ window ∧ p.sharedContextWindow c = some window) →
      ((_cmdDestroyWindow p windowID window isStopped).2).sharedContextWindow c
        = p.sharedContextWindow c) ∧
    (∀ c ∈ p.windows, c ≠ window →
      ((_cmdDestroyWindow p windowID window isStopped).2).sharedContextWindow c
        ≠ some window) ∧
    (∀ c, Event.assertNotShared c false
      ∉ ((_cmdDestroyWindow p windowID window isStopped).2).trace.drop p.trace.length) ∧
    (_cmdDestroyWindow p windowID window isStopped).1 = true := by
  obtain ⟨h1, ⟨t, h2, h2a⟩, _⟩ :=
    _cmdDestroyWindow.loop_shared window p.windows none p (by simp)
  have hshared : ∀ c,
      ((_cmdDestroyWindow p windowID window isStopped).2).sharedContextWindow c
        = ((_cmdDestroyWindow.loop window p.windows none p).2).sharedContextWindow c :=
    fun _ => rfl
  have hiff : ∀ c, p.sharesWith window c = true ↔
      (c ≠ window ∧ p.sharedContextWindow c = some window) := by
    intro c
    simp [Pipe.sharesWith]
  have key : ∀ first, p.windows.find? (p.sharesWith window) = some first →
      ∀ c ∈ p.windows, c ≠ window → p.sharedContextWindow c = some window →
        ((_cmdDestroyWindow p windowID window isStopped).2).sharedContextWindow c
          = some first := by
    intro first hf c hc hcw hs
    rw [hshared, h1 c]
    have : p.sharesWith window c = true := (hiff c).2 ⟨hcw, hs⟩
    simp [hc, this, sharedTarget, hf]
  have keep : ∀ c, ¬ (c ∈ p.windows ∧ c ≠ window ∧ p.sharedContextWindow c = some window) →
      ((_cmdDestroyWindow p windowID window isStopped).2).sharedContextWindow c
        = p.sharedContextWindow c := by
    intro c hn
    rw [hshared, h1 c]
    have : ¬ (c ∈ p.windows ∧ p.sharesWith window c = true) := by
      rintro ⟨hm, hs⟩
      exact hn ⟨hm, (hiff c).1 hs⟩
    rw [if_neg this]
  refine ⟨?_, keep, ?_, ?_, rfl⟩
  · intro first hf
    refine ⟨key first hf, ?_⟩
    have hmem := List.mem_of_find?_eq_some hf
    have hp := List.find?_some hf
    obtain ⟨hfw, hfs⟩ := (hiff first).1 hp
    exact key first hf first hmem hfw hfs
  · intro c hc hcw
    by_cases hs : p.sharedContextWindow c = some window
    · have hsh : p.sharesWith window c = true := (hiff c).2 ⟨hcw, hs⟩
      cases hf : p.windows.find? (p.sharesWith window) with
      | none =>
          have := List.find?_eq_none.1 hf c hc
          exact absurd hsh this
      | some first =>
          rw [key first hf c hc hcw hs]
          have hp := List.find?_some hf
          have hfw := ((hiff first).1 hp).1
          simpa using hfw
    · rw [keep c (fun hx => hs hx.2.2)]
      exact hs
  · intro c hmem
    have htr : ((_cmdDestroyWindow p windowID window isStopped).2).trace
        = p.trace ++ (t ++ [Event.unmapObject window, Event.releaseWindow window,
            Event.sendReply windowID isStopped]) := by
      show ((((_cmdDestroyWindow.loop window p.windows none p).2.emit _).emit _).emit _).trace
        = _
      simp [Pipe.emit, h2]
    rw [htr, List.drop_left] at hmem
    rcases List.mem_append.1 hmem with hm | hm
    · obtain ⟨c1, hc1⟩ := h2a _ hm
      cases hc1
    · simp at hm

/-- C28, witness: in `Example.pipe` the windows 2 and 4 share the context of
the window 1; after the window 1 is destroyed they share the context of the
window 2, and the window 3 still shares its own. -/
theorem cmdDestroyWindow_shared_witness :
    (Example.pipe ThreadModel.ASYNC).windows.find?
      ((Example.pipe ThreadModel.ASYNC).sharesWith 1) = some 2 ∧
    ((_cmdDestroyWindow (Example.pipe ThreadModel.ASYNC) 11 1 true).2).sharedContextWindow 2
      = some 2 ∧
    ((_cmdDestroyWindow (Example.pipe ThreadModel.ASYNC) 11 1 true).2).sharedContextWindow 4
      = some 2 ∧
    ((_cmdDestroyWindow (Example.pipe ThreadModel.ASYNC) 11 1 true).2).sharedContextWindow 3
      = some 3 :=
  have h := (cmdDestroyWindow_shared (Example.pipe ThreadModel.ASYNC) 11 1 true).1 2
    (by decide)
  ⟨by decide, h.2, h.1 4 (by decide) (by decide) (by decide),
    ((cmdDestroyWindow_shared (Example.pipe ThreadModel.ASYNC) 11 1 true).2.1 3
      (by decide)).trans (by decide)⟩

end eq
